import Mathlib

/-!
SmartSpend budget engine.

A shallow embedding of the budget aggregation core of the SmartSpend backend
(`backend/models/Budget.js`, `backend/models/Category.js`,
`backend/controllers/budgetController.js`, `backend/config/database.js`).

The relational store is a record of tables, each table a list of rows.  Every
SQL statement of the models is written out as the list computation it denotes:
joins are nested `flatMap`s over the tables, `LEFT JOIN` pads with a NULL row,
`GROUP BY b.id` aggregates the joined rows of one budget row, SQL NULL is
`none`.  Amounts are rationals (every `DECIMAL(10, 2)` value is one), dates are
naturals ordered like the calendar.
-/

namespace SmartSpend

/-! ## Data model (`config/database.js`) -/

/-- Calendar date of an SQL `DATE` column, as a number ordered like the calendar
(for instance `20240131` for 2024-01-31).  The queries only compare dates. -/
abbrev Date := Nat

/-- Column `expenses.type`: `ENUM('expense', 'income')`. -/
inductive TxType where
  | expense
  | income
deriving DecidableEq, Repr

/-- Column `budgets.period`: `ENUM('monthly', 'yearly')`. -/
inductive Period where
  | monthly
  | yearly
deriving DecidableEq, Repr

/-- Row of table `categories`.  `user_id` is NULL for the system defaults, and
`description` may be NULL. -/
structure CategoryRow where
  id : Nat
  name : String
  description : Option String
  color : String
  icon : String
  user_id : Option Nat
  is_default : Bool
  updated_at : Nat
deriving DecidableEq, Repr

/-- Row of table `expenses` (a transaction of either kind). -/
structure ExpenseRow where
  id : Nat
  title : String
  amount : ℚ
  category_id : Nat
  type : TxType
  description : Option String
  date : Date
  user_id : Nat
deriving DecidableEq, Repr

/-- Row of table `budgets`. -/
structure BudgetRow where
  id : Nat
  category_id : Nat
  user_id : Nat
  amount : ℚ
  period : Period
  start_date : Date
  end_date : Date
  is_active : Bool
  created_at : Nat
  updated_at : Nat
deriving DecidableEq, Repr

/-- The database: the three tables the budget engine reads and writes, and the
`AUTO_INCREMENT` counters of the tables it inserts into. -/
structure Store where
  categories : List CategoryRow
  expenses : List ExpenseRow
  budgets : List BudgetRow
  nextBudgetId : Nat
  nextExpenseId : Nat
deriving DecidableEq, Repr

/-- The key constraints of the schema that the queries rely on: `id` is the
PRIMARY KEY of `budgets` and of `categories`, and `budgets.category_id` is a
FOREIGN KEY into `categories`. -/
structure Store.WellFormed (s : Store) : Prop where
  budget_pk : (s.budgets.map (·.id)).Nodup
  category_pk : (s.categories.map (·.id)).Nodup
  budget_fk : ∀ b ∈ s.budgets, ∃ c ∈ s.categories, c.id = b.category_id

/-! ## SQL expression helpers -/

/-- SQL `SUM`: NULL arguments are skipped, and the sum of no value is NULL. -/
def sqlSum (xs : List (Option ℚ)) : Option ℚ :=
  match xs.filterMap id with
  | [] => none
  | y :: ys => some (y :: ys).sum

/-- SQL `COUNT(expr)`: the number of non-NULL arguments. -/
def sqlCount {α : Type} (xs : List (Option α)) : Nat :=
  (xs.filterMap id).length

/-- SQL `COALESCE(x, d)`. -/
def coalesce (x : Option ℚ) (d : ℚ) : ℚ :=
  match x with
  | some v => v
  | none => d

/-- SQL `x / y`: NULL when the divisor is zero. -/
def sqlDiv (x y : ℚ) : Option ℚ :=
  if y = 0 then none else some (x / y)

/-- One row of `budgets b JOIN categories c LEFT JOIN expenses e`; `e` is
`none` for the NULL-padded row of a budget without matching expenses. -/
structure JoinRow where
  b : BudgetRow
  c : CategoryRow
  e : Option ExpenseRow
deriving DecidableEq, Repr

/-- Join `LEFT JOIN expenses e ON b.category_id = e.category_id AND e.user_id = b.user_id`
for one budget row. -/
def leftJoinExpenses (expenses : List ExpenseRow) (b : BudgetRow) : List (Option ExpenseRow) :=
  match expenses.filter (fun e => b.category_id == e.category_id && e.user_id == b.user_id) with
  | [] => [none]
  | m :: ms => (m :: ms).map some

/-- The joined rows of one budget row:
`FROM budgets b JOIN categories c ON b.category_id = c.id LEFT JOIN expenses e ON ...`. -/
def joinRows (s : Store) (b : BudgetRow) : List JoinRow :=
  (s.categories.filter (fun c => b.category_id == c.id)).flatMap fun c =>
    (leftJoinExpenses s.expenses b).map fun e => { b := b, c := c, e := e }

/-- The aggregated expression
`CASE WHEN e.type = 'expense' AND e.date >= b.start_date AND e.date <= b.end_date THEN val END`
on one joined row; NULL on the NULL-padded row and when the condition fails. -/
def caseInWindow {α : Type} (val : ExpenseRow → α) (r : JoinRow) : Option α :=
  match r.e with
  | none => none
  | some e =>
    if e.type = TxType.expense ∧ e.date ≥ r.b.start_date ∧ e.date ≤ r.b.end_date
    then some (val e) else none

/-- Expression `COALESCE(SUM(CASE WHEN ... THEN e.amount END), 0)` over a group. -/
def spentOf (rows : List JoinRow) : ℚ :=
  coalesce (sqlSum (rows.map (caseInWindow (·.amount)))) 0

/-- Expression `CASE WHEN b.amount > 0 THEN (spent / b.amount) * 100 ELSE 0 END`. -/
def usageOf (amount spent : ℚ) : Option ℚ :=
  if amount > 0 then (sqlDiv spent amount).map (· * 100) else some 0

/-- A result row of the budget queries: `b.*`, the category columns, and the
derived columns.  A derived column that a query does not select is `none`
(`remaining_amount`, `transaction_count`); `usage_percentage` is the SQL value,
`none` being NULL. -/
structure BudgetView where
  budget : BudgetRow
  category_name : String
  category_color : String
  category_icon : String
  spent_amount : ℚ
  remaining_amount : Option ℚ
  usage_percentage : Option ℚ
  transaction_count : Option Nat
deriving DecidableEq, Repr

/-- The select list and `GROUP BY b.id` for one budget row: the group of the
budget's joined rows is aggregated into one result row; an empty group (the
inner join found no category) yields no row.  `withRemaining` and `withCount`
say whether the query selects `remaining_amount` and `transaction_count`. -/
def selectRow (withRemaining withCount : Bool) (s : Store) (b : BudgetRow) : Option BudgetView :=
  match joinRows s b with
  | [] => none
  | r :: rs =>
    let spent := spentOf (r :: rs)
    some {
      budget := b
      category_name := r.c.name
      category_color := r.c.color
      category_icon := r.c.icon
      spent_amount := spent
      remaining_amount := if withRemaining then some (b.amount - spent) else none
      usage_percentage := usageOf b.amount spent
      transaction_count :=
        if withCount then some (sqlCount ((r :: rs).map (caseInWindow (·.id)))) else none }

/-- Order of SQL values under `ORDER BY`: NULL sorts below every number. -/
def sqlLE : Option ℚ → Option ℚ → Prop
  | none, _ => True
  | some _, none => False
  | some x, some y => x ≤ y

instance sqlLE.decidable : DecidableRel sqlLE := fun a b =>
  match a, b with
  | none, _ => isTrue trivial
  | some _, none => isFalse (fun h => h)
  | some x, some y => inferInstanceAs (Decidable (x ≤ y))

/-- Clause `ORDER BY usage_percentage DESC`: `v` may stand before `w`. -/
def usageDesc (v w : BudgetView) : Prop :=
  sqlLE w.usage_percentage v.usage_percentage

instance usageDesc.decidable : DecidableRel usageDesc := fun v w =>
  inferInstanceAs (Decidable (sqlLE w.usage_percentage v.usage_percentage))

instance usageDesc.isTotal : IsTotal BudgetView usageDesc where
  total v w := by
    unfold usageDesc
    cases hv : v.usage_percentage with
    | none => exact Or.inr trivial
    | some x =>
      cases hw : w.usage_percentage with
      | none => exact Or.inl trivial
      | some y => exact le_total y x

instance usageDesc.isTrans : IsTrans BudgetView usageDesc where
  trans v w x hvw hwx := by
    unfold usageDesc at *
    cases hx : x.usage_percentage with
    | none => trivial
    | some c =>
      rw [hx] at hwx
      cases hw : w.usage_percentage with
      | none => rw [hw] at hwx; exact absurd hwx (fun h => h)
      | some b =>
        rw [hw] at hwx hvw
        cases hv : v.usage_percentage with
        | none => rw [hv] at hvw; exact absurd hvw (fun h => h)
        | some a =>
          rw [hv] at hvw
          exact le_trans (show c ≤ b from hwx) (show b ≤ a from hvw)

/-- Clause `ORDER BY b.created_at DESC`: `v` may stand before `w`. -/
def createdDesc (v w : BudgetView) : Prop :=
  w.budget.created_at ≤ v.budget.created_at

instance createdDesc.decidable : DecidableRel createdDesc := fun v w =>
  inferInstanceAs (Decidable (w.budget.created_at ≤ v.budget.created_at))

/-- Clause `HAVING usage_percentage >= ?`: a NULL comparison is not true. -/
def havingUsage (threshold : ℚ) (v : BudgetView) : Bool :=
  match v.usage_percentage with
  | some x => decide (x ≥ threshold)
  | none => false

/-! ## `models/Category.js` -/

namespace Category

/-- Method `Category.canAccess`:
`SELECT id FROM categories WHERE id = ? AND (user_id = ? OR is_default = TRUE)`,
then `rows.length > 0`. -/
def canAccess (s : Store) (categoryId userId : Nat) : Bool :=
  ((s.categories.filter
    (fun c => c.id == categoryId && (c.user_id == some userId || c.is_default))).length > 0)

end Category

/-! ## `models/Budget.js` -/

/-- Argument of `Budget.create`; `period` is `none` when the property is undefined. -/
structure BudgetData where
  categoryId : Nat
  userId : Nat
  amount : ℚ
  period : Option Period
  startDate : Date
  endDate : Date
deriving DecidableEq, Repr

/-- Argument `updates` of `Budget.update`. -/
structure BudgetUpdates where
  amount : ℚ
  period : Period
  startDate : Date
  endDate : Date
  isActive : Bool
deriving DecidableEq, Repr

/-- Argument `filters` of `Budget.findByUser`; a field is `none` when undefined. -/
structure BudgetFilters where
  isActive : Option Bool
  period : Option Period
  categoryId : Option Nat
deriving DecidableEq, Repr

namespace Budget

/-- Method `Budget.create`: `INSERT INTO budgets (category_id, user_id, amount, period,
start_date, end_date)`; `id` comes from `AUTO_INCREMENT`, `is_active` defaults to
TRUE and both timestamps to the current time.  Returns `result.insertId`. -/
def create (s : Store) (now : Nat) (d : BudgetData) : Store × Nat :=
  let row : BudgetRow := {
    id := s.nextBudgetId
    category_id := d.categoryId
    user_id := d.userId
    amount := d.amount
    period := d.period.getD Period.monthly
    start_date := d.startDate
    end_date := d.endDate
    is_active := true
    created_at := now
    updated_at := now }
  ({ s with budgets := s.budgets ++ [row], nextBudgetId := s.nextBudgetId + 1 }, s.nextBudgetId)

/-- Method `Budget.findById`: `FROM budgets b JOIN categories c ON b.category_id = c.id
WHERE b.id = ? AND b.user_id = ?`, then `rows[0]`. -/
def findById (s : Store) (budgetId userId : Nat) : Option (BudgetRow × CategoryRow) :=
  ((s.budgets.filter (fun b => b.id == budgetId && b.user_id == userId)).flatMap fun b =>
    (s.categories.filter (fun c => b.category_id == c.id)).map fun c => (b, c)).head?

/-- The `WHERE` clause of `Budget.findByUser`: `b.user_id = ?` and one conjunct
per filter that is set.  `filters.isActive` is tested with `!== undefined`, the
other two by truthiness, so a `categoryId` of 0 adds no conjunct. -/
def findByUserWhere (userId : Nat) (f : BudgetFilters) (b : BudgetRow) : Bool :=
  b.user_id == userId
  && (match f.isActive with
      | some a => b.is_active == a
      | none => true)
  && (match f.period with
      | some p => b.period == p
      | none => true)
  && (match f.categoryId with
      | some c => if c = 0 then true else b.category_id == c
      | none => true)

/-- Method `Budget.findByUser`: the derived columns `spent_amount`, `remaining_amount`,
`usage_percentage`, `GROUP BY b.id ORDER BY b.created_at DESC`. -/
def findByUser (s : Store) (userId : Nat) (f : BudgetFilters) : List BudgetView :=
  ((s.budgets.filter (findByUserWhere userId f)).filterMap (selectRow true false s)).insertionSort
    createdDesc

/-- Method `Budget.update`: `UPDATE budgets SET amount, period, start_date, end_date,
is_active, updated_at = CURRENT_TIMESTAMP WHERE id = ? AND user_id = ?`; returns
`result.affectedRows > 0`, the statement having matched a row. -/
def update (s : Store) (now : Nat) (budgetId userId : Nat) (u : BudgetUpdates) : Store × Bool :=
  ({ s with budgets := s.budgets.map fun b =>
      if b.id == budgetId && b.user_id == userId then
        { b with amount := u.amount, period := u.period, start_date := u.startDate,
                 end_date := u.endDate, is_active := u.isActive, updated_at := now }
      else b },
   s.budgets.any (fun b => b.id == budgetId && b.user_id == userId))

/-- Method `Budget.delete`: `DELETE FROM budgets WHERE id = ? AND user_id = ?`; returns
`result.affectedRows > 0`. -/
def delete (s : Store) (budgetId userId : Nat) : Store × Bool :=
  ({ s with budgets := s.budgets.filter (fun b => !(b.id == budgetId && b.user_id == userId)) },
   s.budgets.any (fun b => b.id == budgetId && b.user_id == userId))

/-- Method `Budget.getWithSpending`: all four derived columns,
`WHERE b.id = ? AND b.user_id = ? GROUP BY b.id`, then `rows[0]`. -/
def getWithSpending (s : Store) (budgetId userId : Nat) : Option BudgetView :=
  ((s.budgets.filter (fun b => b.id == budgetId && b.user_id == userId)).filterMap
    (selectRow true true s)).head?

/-- The `WHERE` clause shared by `Budget.getAlerts` and `Budget.getCurrentMonth`:
`b.user_id = ? AND b.is_active = TRUE AND b.start_date <= CURRENT_DATE
AND b.end_date >= CURRENT_DATE`. -/
def currentWhere (today : Date) (userId : Nat) (b : BudgetRow) : Bool :=
  b.user_id == userId && b.is_active == true
  && decide (b.start_date ≤ today) && decide (b.end_date ≥ today)

/-- Method `Budget.getAlerts`: the derived columns `spent_amount` and `usage_percentage`
(no `remaining_amount`), `GROUP BY b.id HAVING usage_percentage >= ?
ORDER BY usage_percentage DESC`.  `threshold` is `none` when the argument is
omitted, and then 80. -/
def getAlerts (s : Store) (today : Date) (userId : Nat) (threshold : Option ℚ) : List BudgetView :=
  ((((s.budgets.filter (currentWhere today userId)).filterMap (selectRow false false s)).filter
    (havingUsage (threshold.getD 80)))).insertionSort usageDesc

/-- Method `Budget.existsForCategoryAndPeriod`: `SELECT id FROM budgets WHERE
category_id = ? AND user_id = ? AND period = ? AND start_date = ?`, then
`rows.length > 0`. -/
def existsForCategoryAndPeriod (s : Store) (categoryId userId : Nat) (period : Period)
    (startDate : Date) : Bool :=
  ((s.budgets.filter (fun b =>
    b.category_id == categoryId && b.user_id == userId && b.period == period
      && b.start_date == startDate)).length > 0)

/-- Method `Budget.getCurrentMonth`: the derived columns `spent_amount`,
`remaining_amount`, `usage_percentage`, `GROUP BY b.id
ORDER BY usage_percentage DESC`. -/
def getCurrentMonth (s : Store) (today : Date) (userId : Nat) : List BudgetView :=
  ((s.budgets.filter (currentWhere today userId)).filterMap (selectRow true false s)).insertionSort
    usageDesc

end Budget

/-! ## `controllers/budgetController.js` -/

/-- What a handler does with a request: it sends a JSON response
(`res.status(..).json({ success, message, data })`, status 200 when none is set),
or it hands an exception to the error middleware (`next(error)`). -/
inductive Reply (α : Type) where
  | json (status : Nat) (success : Bool) (message : Option String) (data : Option α)
  | next
deriving DecidableEq, Repr

/-- The request body read by `createBudget`; `period` is `none` when omitted.
`parseInt(categoryId)` and `parseFloat(amount)` are the values themselves. -/
structure CreateBudgetBody where
  categoryId : Nat
  amount : ℚ
  period : Option Period
  startDate : Date
  endDate : Date
deriving DecidableEq, Repr

/-- Handler `createBudget`, for the authenticated user `userId` (`req.user.id`). -/
def createBudget (s : Store) (now : Nat) (userId : Nat) (body : CreateBudgetBody) :
    Store × Reply BudgetView :=
  let period := body.period.getD Period.monthly
  if !Category.canAccess s body.categoryId userId then
    (s, Reply.json 400 false (some "Invalid category") none)
  else if Budget.existsForCategoryAndPeriod s body.categoryId userId period body.startDate then
    (s, Reply.json 400 false (some "Budget already exists for this category and period") none)
  else
    let created := Budget.create s now {
      categoryId := body.categoryId
      userId := userId
      amount := body.amount
      period := some period
      startDate := body.startDate
      endDate := body.endDate }
    (created.1, Reply.json 201 true (some "Budget created successfully")
      (Budget.getWithSpending created.1 created.2 userId))

/-- Handler `updateBudget` on budget `id` (`req.params.id`); the body carries the
five fields the handler reads. -/
def updateBudget (s : Store) (now : Nat) (userId : Nat) (id : Nat) (body : BudgetUpdates) :
    Store × Reply BudgetView :=
  match Budget.findById s id userId with
  | none => (s, Reply.json 404 false (some "Budget not found") none)
  | some _ =>
    let updated := Budget.update s now id userId body
    if !updated.2 then
      (updated.1, Reply.json 400 false (some "Failed to update budget") none)
    else
      (updated.1, Reply.json 200 true (some "Budget updated successfully")
        (Budget.getWithSpending updated.1 id userId))

/-- Handler `deleteBudget`. -/
def deleteBudget (s : Store) (userId : Nat) (id : Nat) : Store × Reply BudgetView :=
  let deleted := Budget.delete s id userId
  if !deleted.2 then
    (deleted.1, Reply.json 404 false (some "Budget not found") none)
  else
    (deleted.1, Reply.json 200 true (some "Budget deleted successfully") none)

/-- Handler `getBudgetAlerts`; `threshold` is `none` when the query string has
none, and then 80.  `parseFloat(threshold)` is the value itself. -/
def getBudgetAlerts (s : Store) (today : Date) (userId : Nat) (threshold : Option ℚ) :
    Reply (List BudgetView) :=
  Reply.json 200 true none (some (Budget.getAlerts s today userId (some (threshold.getD 80))))

/-- Handler `toggleBudgetStatus`.  Reading `is_active` of an absent re-read row
throws, which the handler passes to `next`. -/
def toggleBudgetStatus (s : Store) (now : Nat) (userId : Nat) (id : Nat) :
    Store × Reply BudgetView :=
  match Budget.findById s id userId with
  | none => (s, Reply.json 404 false (some "Budget not found") none)
  | some (budget, _) =>
    let updated := Budget.update s now id userId {
      amount := budget.amount
      period := budget.period
      startDate := budget.start_date
      endDate := budget.end_date
      isActive := !budget.is_active }
    if !updated.2 then
      (updated.1, Reply.json 400 false (some "Failed to update budget status") none)
    else
      match Budget.getWithSpending updated.1 id userId with
      | none => (updated.1, Reply.next)
      | some updatedBudget =>
        (updated.1, Reply.json 200 true
          (some (if updatedBudget.budget.is_active then "Budget activated successfully"
                 else "Budget deactivated successfully"))
          (some updatedBudget))

/-! ## `models/Expense.js`: insertion -/

/-- Argument of `Expense.create`; `type` is `none` when the property is undefined. -/
structure ExpenseData where
  title : String
  amount : ℚ
  categoryId : Nat
  type : Option TxType
  description : Option String
  date : Date
  userId : Nat
deriving DecidableEq, Repr

namespace Expense

/-- Method `Expense.create`: `INSERT INTO expenses (title, amount, category_id, type,
description, date, user_id)`, `type` defaulting to `'expense'`; returns
`result.insertId`. -/
def create (s : Store) (d : ExpenseData) : Store × Nat :=
  let row : ExpenseRow := {
    id := s.nextExpenseId
    title := d.title
    amount := d.amount
    category_id := d.categoryId
    type := d.type.getD TxType.expense
    description := d.description
    date := d.date
    user_id := d.userId }
  ({ s with expenses := s.expenses ++ [row], nextExpenseId := s.nextExpenseId + 1 }, s.nextExpenseId)

end Expense

/-! ## Specification side of the derived metrics -/

/-- Specification side: the transactions that count against budget `b`, in the
words of the derived-metric formula: same category, same owner, kind expense,
date within `[start_date, end_date]`, both bounds included. -/
def countedExpenses (s : Store) (b : BudgetRow) : List ExpenseRow :=
  s.expenses.filter fun t =>
    decide (t.category_id = b.category_id ∧ t.user_id = b.user_id ∧ t.type = TxType.expense
      ∧ b.start_date ≤ t.date ∧ t.date ≤ b.end_date)

/-- The result row of a budget whose category is `c`, in terms of the counted
transactions. -/
def viewOf (withRemaining withCount : Bool) (s : Store) (b : BudgetRow) (c : CategoryRow) :
    BudgetView :=
  { budget := b
    category_name := c.name
    category_color := c.color
    category_icon := c.icon
    spent_amount := ((countedExpenses s b).map (·.amount)).sum
    remaining_amount :=
      if withRemaining then some (b.amount - ((countedExpenses s b).map (·.amount)).sum) else none
    usage_percentage := usageOf b.amount ((countedExpenses s b).map (·.amount)).sum
    transaction_count := if withCount then some (countedExpenses s b).length else none }

/-! ## The scenario of the specification -/

/-- Category "Groceries" of user 1. -/
def groceries : CategoryRow :=
  { id := 11, name := "Groceries", description := none, color := "#ff0000", icon := "cart",
    user_id := some 1, is_default := false, updated_at := 0 }

/-- An expense of user 1 in "Groceries". -/
def groceryExpense (id : Nat) (amount : ℚ) (date : Date) : ExpenseRow :=
  { id := id, title := "shop", amount := amount, category_id := 11, type := TxType.expense,
    description := none, date := date, user_id := 1 }

/-- The monthly budget of 500.00 for "Groceries", 2024-01-01 to 2024-01-31. -/
def groceryBudget : BudgetRow :=
  { id := 1, category_id := 11, user_id := 1, amount := 500, period := Period.monthly,
    start_date := 20240101, end_date := 20240131, is_active := true,
    created_at := 0, updated_at := 0 }

/-- The store after the three January expenses 120.00, 80.50 and 50.00. -/
def scenarioStore : Store :=
  { categories := [groceries]
    expenses := [groceryExpense 1 120 20240105, groceryExpense 2 (161 / 2) 20240112,
                 groceryExpense 3 50 20240120]
    budgets := [groceryBudget]
    nextBudgetId := 2
    nextExpenseId := 4 }

/-- A store with the default category "Food" (id 1) shared by users 1 and 2: user
1 has a January budget of 300.00 on it; user 1 spent 40.00 on the first and
25.50 on the last day of the window, 10.00 after it, and received an income of
70.00 inside it; user 2 spent 99.00 in the same category inside the window. -/
def sharedStore : Store :=
  { categories := [{ id := 1, name := "Food", description := some "Restaurants, groceries",
                     color := "#ff6b6b", icon := "food", user_id := none, is_default := true,
                     updated_at := 0 }]
    expenses := [
      { id := 1, title := "a", amount := 40, category_id := 1, type := TxType.expense,
        description := none, date := 20240101, user_id := 1 },
      { id := 2, title := "b", amount := 99, category_id := 1, type := TxType.expense,
        description := none, date := 20240110, user_id := 2 },
      { id := 3, title := "c", amount := 51 / 2, category_id := 1, type := TxType.expense,
        description := none, date := 20240131, user_id := 1 },
      { id := 4, title := "d", amount := 10, category_id := 1, type := TxType.expense,
        description := none, date := 20240201, user_id := 1 },
      { id := 5, title := "e", amount := 70, category_id := 1, type := TxType.income,
        description := none, date := 20240115, user_id := 1 }]
    budgets := [{ id := 7, category_id := 1, user_id := 1, amount := 300,
                  period := Period.monthly, start_date := 20240101, end_date := 20240131,
                  is_active := true, created_at := 0, updated_at := 0 }]
    nextBudgetId := 8
    nextExpenseId := 6 }

/-- The scenario store with the budget amount set to 0. -/
def zeroAmountStore : Store :=
  { scenarioStore with budgets := [{ groceryBudget with amount := 0 }] }

/-- An income of 1000.00 of user 1 in "Groceries", dated inside the budget window. -/
def salary : ExpenseData :=
  { title := "salary", amount := 1000, categoryId := 11, type := some TxType.income,
    description := none, date := 20240115, userId := 1 }

/-- One more expense of 200.00 of user 1 in "Groceries" inside the window; the
kind is left to its default. -/
def bigShop : ExpenseData :=
  { title := "big shop", amount := 200, categoryId := 11, type := none,
    description := none, date := 20240125, userId := 1 }

/-- The scenario store after the expense `bigShop`: 450.50 of 500.00 spent. -/
def alertStore : Store :=
  (Expense.create scenarioStore bigShop).1

/-- Row `v` is returned, in store `s`, by one of the three queries that select
`remaining_amount`: `Budget.getWithSpending`, `Budget.findByUser`,
`Budget.getCurrentMonth`. -/
def ReturnedWithRemaining (s : Store) (v : BudgetView) : Prop :=
  (∃ budgetId userId, Budget.getWithSpending s budgetId userId = some v)
  ∨ (∃ userId f, v ∈ Budget.findByUser s userId f)
  ∨ (∃ today userId, v ∈ Budget.getCurrentMonth s today userId)

/-- Row `v` is returned, in store `s`, by `Budget.getAlerts`. -/
def ReturnedByAlerts (s : Store) (v : BudgetView) : Prop :=
  ∃ today userId threshold, v ∈ Budget.getAlerts s today userId threshold

/-- The store in which the budget row `b` is replaced by `b'`. -/
def Store.replaceBudget (s : Store) (b b' : BudgetRow) : Store :=
  { s with budgets := s.budgets.map fun x => if x = b then b' else x }

/-- The budget row `b` with its active flag negated and `updated_at` set. -/
def toggledRow (b : BudgetRow) (now : Nat) : BudgetRow :=
  { b with is_active := !b.is_active, updated_at := now }

/-- The columns of `UNIQUE KEY unique_user_category_period
(user_id, category_id, period, start_date)`. -/
def budgetKey (b : BudgetRow) : Nat × Nat × Period × Date :=
  (b.user_id, b.category_id, b.period, b.start_date)

/-- No two budget rows share the same `(user_id, category_id, period, start_date)`. -/
def UniqueBudgetKey (s : Store) : Prop :=
  (s.budgets.map budgetKey).Nodup

instance UniqueBudgetKey.decidable (s : Store) : Decidable (UniqueBudgetKey s) :=
  inferInstanceAs (Decidable (s.budgets.map budgetKey).Nodup)

/-- The scenario store with a second monthly "Groceries" budget, for February. -/
def twoMonthsStore : Store :=
  { scenarioStore with
    budgets := [groceryBudget,
                { groceryBudget with id := 2, start_date := 20240201, end_date := 20240229 }]
    nextBudgetId := 3 }

/-- An update that moves a budget's window to January 2024. -/
def toJanuary : BudgetUpdates :=
  { amount := 400, period := Period.monthly, startDate := 20240101, endDate := 20240131,
    isActive := true }

/-- A creation request for "Groceries", period omitted, starting 2024-01-01 like
the scenario budget, with another amount and another end date. -/
def sameStartBody : CreateBudgetBody :=
  { categoryId := 11, amount := 42, period := none, startDate := 20240101,
    endDate := 20241231 }

/-! ## `models/Category.js`: lookup and writes -/

/-- Argument `updates` of `Category.update`; `description` is `none` for a JS
`null`. -/
structure CategoryUpdates where
  name : String
  description : Option String
  color : String
  icon : String
deriving DecidableEq, Repr

/-- The ways `Category.delete` fails: the model throws
`Error('Cannot delete category with existing expenses')`, or the engine rejects
the `DELETE` because an expense row references the category
(`FOREIGN KEY (category_id) REFERENCES categories(id) ON DELETE RESTRICT`). -/
inductive DeleteError where
  | hasExpenses
  | rowIsReferenced
deriving DecidableEq, Repr

/-- Outcome of `Category.delete`: a thrown error, or the store after the
statement together with `result.affectedRows > 0`. -/
inductive DeleteResult where
  | threw (e : DeleteError)
  | returned (s : Store) (deleted : Bool)
deriving DecidableEq, Repr

namespace Category

/-- Method `Category.findById`: `SELECT * FROM categories WHERE id = ?`, with
`AND (user_id = ? OR is_default = TRUE)` appended when `userId` is truthy (given,
not `null`, not 0); then `rows[0]`. -/
def findById (s : Store) (categoryId : Nat) (userId : Option Nat) : Option CategoryRow :=
  (s.categories.filter fun c =>
    c.id == categoryId
    && (match userId with
        | some u => if u = 0 then true else (c.user_id == some u || c.is_default)
        | none => true)).head?

/-- The `WHERE` clause of the statements of `Category.update` and
`Category.delete`: `id = ? AND user_id = ? AND is_default = FALSE`. -/
def ownWhere (categoryId userId : Nat) (c : CategoryRow) : Bool :=
  c.id == categoryId && c.user_id == some userId && c.is_default == false

/-- Method `Category.update`: `UPDATE categories SET name, description, color,
icon, updated_at = CURRENT_TIMESTAMP WHERE id = ? AND user_id = ? AND
is_default = FALSE`; returns `result.affectedRows > 0`, the statement having
matched a row. -/
def update (s : Store) (now : Nat) (categoryId userId : Nat) (u : CategoryUpdates) :
    Store × Bool :=
  ({ s with categories := s.categories.map fun c =>
      if ownWhere categoryId userId c then
        { c with name := u.name, description := u.description, color := u.color,
                 icon := u.icon, updated_at := now }
      else c },
   s.categories.any (ownWhere categoryId userId))

/-- Method `Category.delete`: first `SELECT COUNT(*) FROM expenses WHERE
category_id = ? AND user_id = ?`, throwing when the count is positive; then
`DELETE FROM categories WHERE id = ? AND user_id = ? AND is_default = FALSE`.
By the schema the engine rejects the `DELETE` of a row that an expense
references, and deletes the budgets of a deleted category with it
(`ON DELETE CASCADE`). -/
def delete (s : Store) (categoryId userId : Nat) : DeleteResult :=
  if (s.expenses.filter
      (fun e => e.category_id == categoryId && e.user_id == userId)).length > 0 then
    DeleteResult.threw DeleteError.hasExpenses
  else if s.categories.any (ownWhere categoryId userId)
      && s.expenses.any (fun e => e.category_id == categoryId) then
    DeleteResult.threw DeleteError.rowIsReferenced
  else
    DeleteResult.returned
      { s with
        categories := s.categories.filter (fun c => !ownWhere categoryId userId c)
        budgets :=
          if s.categories.any (ownWhere categoryId userId) then
            s.budgets.filter (fun b => !(b.category_id == categoryId))
          else s.budgets }
      (s.categories.any (ownWhere categoryId userId))

end Category

/-! ## `controllers/categoryController.js` -/

/-- Handler `deleteCategory` on category `id`, for the authenticated user
`userId`.  The `catch` answers 400 with the message of the model's own error
and passes any other error to `next`. -/
def deleteCategory (s : Store) (userId : Nat) (id : Nat) : Store × Reply CategoryRow :=
  match Category.findById s id (some userId) with
  | none => (s, Reply.json 404 false (some "Category not found") none)
  | some existingCategory =>
    if existingCategory.is_default then
      (s, Reply.json 400 false (some "Cannot delete default categories") none)
    else
      match Category.delete s id userId with
      | DeleteResult.threw DeleteError.hasExpenses =>
        (s, Reply.json 400 false (some "Cannot delete category with existing expenses") none)
      | DeleteResult.threw DeleteError.rowIsReferenced => (s, Reply.next)
      | DeleteResult.returned s1 deleted =>
        if !deleted then
          (s1, Reply.json 400 false (some "Cannot delete category with existing expenses") none)
        else
          (s1, Reply.json 200 true (some "Category deleted successfully") none)

/-- New fields for a category: the name "Food shopping". -/
def renameFields : CategoryUpdates :=
  { name := "Food shopping", description := some "weekly", color := "#00ff00", icon := "bag" }

/-- The default category "Food" of `sharedStore`. -/
def foodCategory : CategoryRow :=
  { id := 1, name := "Food", description := some "Restaurants, groceries",
    color := "#ff6b6b", icon := "food", user_id := none, is_default := true,
    updated_at := 0 }

/-! ## `models/Expense.js`: queries and writes -/

/-- A result row of the expense queries: `e.*` and the category columns
`category_name`, `category_color`, `category_icon`. -/
structure ExpenseView where
  expense : ExpenseRow
  category_name : String
  category_color : String
  category_icon : String
deriving DecidableEq, Repr

/-- The columns of `expenses` that `ORDER BY` can name through `sortBy`. -/
inductive SortColumn where
  | id
  | title
  | amount
  | category_id
  | type
  | description
  | date
  | user_id
deriving DecidableEq, Repr

/-- Argument `filters` of `Expense.findByUser` and `Expense.getCount`; a field
is `none` when the property is undefined. -/
structure ExpenseFilters where
  type : Option TxType
  categoryId : Option Nat
  startDate : Option Date
  endDate : Option Date
  minAmount : Option ℚ
  maxAmount : Option ℚ
  search : Option String
  sortBy : Option SortColumn
  sortOrder : Option String
  limit : Option Nat
  offset : Option Nat
deriving DecidableEq, Repr

/-- Argument `updates` of `Expense.update`. -/
structure ExpenseUpdates where
  title : String
  amount : ℚ
  categoryId : Nat
  type : TxType
  description : Option String
  date : Date
deriving DecidableEq, Repr

/-- The escape character of SQL `LIKE`. -/
def likeEscape : Char := Char.ofNat 92

/-- SQL `text LIKE pattern` on character lists: `%` stands for any run of
characters, `_` for one character, the escape character makes the next pattern
character literal, and letters are compared without regard to case (the
default collation). -/
def likeMatch : List Char → List Char → Bool
  | [], t => t.isEmpty
  | p :: ps, t =>
    if p = '%' then t.tails.any (likeMatch ps)
    else if p = '_' then
      match t with
      | [] => false
      | _ :: ts => likeMatch ps ts
    else if p = likeEscape then
      match ps, t with
      | x :: rest, c :: ts => (x.toLower == c.toLower) && likeMatch rest ts
      | [], c :: ts => (c == likeEscape) && ts.isEmpty
      | _, [] => false
    else
      match t with
      | [] => false
      | c :: ts => (p.toLower == c.toLower) && likeMatch ps ts

/-- The condition `(e.title LIKE ? OR e.description LIKE ?)` with both
parameters the search string between two `%`; a NULL description does not
match. -/
def searchMatches (search : String) (e : ExpenseRow) : Bool :=
  likeMatch (('%' :: search.toList) ++ ['%']) e.title.toList
  || (match e.description with
      | some d => likeMatch (('%' :: search.toList) ++ ['%']) d.toList
      | none => false)

/-- Order `a <= b` of two expense rows on one column; NULL descriptions come
first, `'expense'` precedes `'income'` (the order of the `ENUM`), and strings are
compared character by character. -/
def columnLE (col : SortColumn) (a b : ExpenseRow) : Bool :=
  match col with
  | SortColumn.id => decide (a.id ≤ b.id)
  | SortColumn.title => decide (a.title ≤ b.title)
  | SortColumn.amount => decide (a.amount ≤ b.amount)
  | SortColumn.category_id => decide (a.category_id ≤ b.category_id)
  | SortColumn.type => (a.type == TxType.expense) || (b.type == TxType.income)
  | SortColumn.description =>
    match a.description, b.description with
    | none, _ => true
    | some _, none => false
    | some x, some y => decide (x ≤ y)
  | SortColumn.date => decide (a.date ≤ b.date)
  | SortColumn.user_id => decide (a.user_id ≤ b.user_id)

/-- The clause `ORDER BY e.sortBy sortOrder` of `Expense.findByUser`: `sortBy`
defaults to `date`, and the direction is ascending only for
`sortOrder === 'asc'`.  Row `v` may stand before row `w`. -/
def expenseOrder (f : ExpenseFilters) (v w : ExpenseView) : Prop :=
  if f.sortOrder = some "asc" then
    columnLE (f.sortBy.getD SortColumn.date) v.expense w.expense = true
  else
    columnLE (f.sortBy.getD SortColumn.date) w.expense v.expense = true

instance expenseOrder.decidable (f : ExpenseFilters) : DecidableRel (expenseOrder f) :=
  fun v w => by
    unfold expenseOrder
    exact inferInstance

namespace Expense

/-- Method `Expense.findById`: `FROM expenses e JOIN categories c ON
e.category_id = c.id WHERE e.id = ? AND e.user_id = ?`, then `rows[0]`. -/
def findById (s : Store) (expenseId userId : Nat) : Option ExpenseView :=
  ((s.expenses.filter (fun e => e.id == expenseId && e.user_id == userId)).flatMap fun e =>
    (s.categories.filter (fun c => e.category_id == c.id)).map fun c =>
      ({ expense := e, category_name := c.name, category_color := c.color,
         category_icon := c.icon } : ExpenseView)).head?

/-- The `WHERE` clause of `Expense.findByUser`: `e.user_id = ?` and one
conjunct per filter that is truthy (a `categoryId`, `minAmount` or `maxAmount`
of 0 and an empty `search` add none). -/
def findByUserWhere (userId : Nat) (f : ExpenseFilters) (e : ExpenseRow) : Bool :=
  e.user_id == userId
  && (match f.type with
      | some t => e.type == t
      | none => true)
  && (match f.categoryId with
      | some c => if c = 0 then true else e.category_id == c
      | none => true)
  && (match f.startDate with
      | some d => decide (e.date ≥ d)
      | none => true)
  && (match f.endDate with
      | some d => decide (e.date ≤ d)
      | none => true)
  && (match f.minAmount with
      | some m => if m = 0 then true else decide (e.amount ≥ m)
      | none => true)
  && (match f.maxAmount with
      | some m => if m = 0 then true else decide (e.amount ≤ m)
      | none => true)
  && (match f.search with
      | some q => if q = "" then true else searchMatches q e
      | none => true)

/-- Method `Expense.findByUser`: `FROM expenses e JOIN categories c ON
e.category_id = c.id WHERE ...`, `ORDER BY`, then `LIMIT ?` when `limit` is
truthy and with it `OFFSET ?` when `offset` is truthy. -/
def findByUser (s : Store) (userId : Nat) (f : ExpenseFilters) : List ExpenseView :=
  let sorted :=
    ((s.expenses.filter (findByUserWhere userId f)).flatMap fun e =>
      (s.categories.filter (fun c => e.category_id == c.id)).map fun c =>
        ({ expense := e, category_name := c.name, category_color := c.color,
           category_icon := c.icon } : ExpenseView)).insertionSort (expenseOrder f)
  match f.limit with
  | none => sorted
  | some l =>
    if l = 0 then sorted
    else
      match f.offset with
      | none => sorted.take l
      | some o => if o = 0 then sorted.take l else (sorted.drop o).take l

/-- Method `Expense.update`: `UPDATE expenses SET title, amount, category_id,
type, description, date WHERE id = ? AND user_id = ?` (the timestamp column is
not part of the modelled row); returns `result.affectedRows > 0`. -/
def update (s : Store) (expenseId userId : Nat) (u : ExpenseUpdates) : Store × Bool :=
  ({ s with expenses := s.expenses.map fun e =>
      if e.id == expenseId && e.user_id == userId then
        { e with title := u.title, amount := u.amount, category_id := u.categoryId,
                 type := u.type, description := u.description, date := u.date }
      else e },
   s.expenses.any (fun e => e.id == expenseId && e.user_id == userId))

/-- Method `Expense.delete`: `DELETE FROM expenses WHERE id = ? AND user_id = ?`;
returns `result.affectedRows > 0`. -/
def delete (s : Store) (expenseId userId : Nat) : Store × Bool :=
  ({ s with expenses := s.expenses.filter (fun e => !(e.id == expenseId && e.user_id == userId)) },
   s.expenses.any (fun e => e.id == expenseId && e.user_id == userId))

/-- The `WHERE` clause of `Expense.getCount`: `user_id = ?` and one conjunct for
each of `type`, `categoryId`, `startDate`, `endDate` and `search` that is
truthy.  The method reads no other filter. -/
def getCountWhere (userId : Nat) (f : ExpenseFilters) (e : ExpenseRow) : Bool :=
  e.user_id == userId
  && (match f.type with
      | some t => e.type == t
      | none => true)
  && (match f.categoryId with
      | some c => if c = 0 then true else e.category_id == c
      | none => true)
  && (match f.startDate with
      | some d => decide (e.date ≥ d)
      | none => true)
  && (match f.endDate with
      | some d => decide (e.date ≤ d)
      | none => true)
  && (match f.search with
      | some q => if q = "" then true else searchMatches q e
      | none => true)

/-- Method `Expense.getCount`: `SELECT COUNT(*) as total FROM expenses WHERE ...`,
then `rows[0].total`. -/
def getCount (s : Store) (userId : Nat) (f : ExpenseFilters) : Nat :=
  (s.expenses.filter (getCountWhere userId f)).length

end Expense

/-! ## `controllers/expenseController.js` -/

/-- The request body read by `createExpense`; `type` is `none` when omitted.
`parseInt(categoryId)` and `parseFloat(amount)` are the values themselves. -/
structure CreateExpenseBody where
  title : String
  amount : ℚ
  categoryId : Nat
  type : Option TxType
  description : Option String
  date : Date
deriving DecidableEq, Repr

/-- Handler `createExpense`, for the authenticated user `userId`. -/
def createExpense (s : Store) (userId : Nat) (body : CreateExpenseBody) :
    Store × Reply ExpenseView :=
  if !Category.canAccess s body.categoryId userId then
    (s, Reply.json 400 false (some "Invalid category") none)
  else
    let created := Expense.create s {
      title := body.title
      amount := body.amount
      categoryId := body.categoryId
      type := some (body.type.getD TxType.expense)
      description := body.description
      date := body.date
      userId := userId }
    (created.1, Reply.json 201 true (some "Expense created successfully")
      (Expense.findById created.1 created.2 userId))

/-- The query string read by `getExpenses`; a field is `none` when omitted.
`page` and `limit` are the integers `parseInt` yields. -/
structure ExpenseQuery where
  type : Option TxType
  categoryId : Option Nat
  startDate : Option Date
  endDate : Option Date
  minAmount : Option ℚ
  maxAmount : Option ℚ
  search : Option String
  sortBy : Option SortColumn
  sortOrder : Option String
  page : Option Nat
  limit : Option Nat
deriving DecidableEq, Repr

/-- The object `pagination` of the response of `getExpenses`.  `totalPages` is
`none` where JSON writes `null` (the quotient by a limit of 0 is not a finite
number). -/
structure Pagination where
  currentPage : Nat
  totalPages : Option Nat
  totalCount : Nat
  hasNextPage : Bool
  hasPrevPage : Bool
deriving DecidableEq, Repr

/-- The object `data` of the response of `getExpenses`. -/
structure ExpensePage where
  expenses : List ExpenseView
  pagination : Pagination
deriving DecidableEq, Repr

/-- The object `filters` that `getExpenses` builds from the query string, after
the undefined properties are removed: `page` defaults to 1, `limit` to 50,
`sortBy` to `'date'`, `sortOrder` to `'desc'`, and
`offset = (page - 1) * limit`. -/
def expenseFiltersOf (q : ExpenseQuery) : ExpenseFilters :=
  { type := q.type
    categoryId := q.categoryId
    startDate := q.startDate
    endDate := q.endDate
    minAmount := q.minAmount
    maxAmount := q.maxAmount
    search := q.search
    sortBy := some (q.sortBy.getD SortColumn.date)
    sortOrder := some (q.sortOrder.getD "desc")
    limit := some (q.limit.getD 50)
    offset := some ((q.page.getD 1 - 1) * q.limit.getD 50) }

/-- Handler `getExpenses`.  `totalPages = Math.ceil(totalCount / limit)`; with a
limit of 0 the quotient is infinite (or not a number when the count is 0 too),
and a page of 0 with a positive limit makes the offset negative, which the
engine rejects, so the handler passes the error to `next`. -/
def getExpenses (s : Store) (userId : Nat) (q : ExpenseQuery) : Reply ExpensePage :=
  if q.page.getD 1 = 0 ∧ q.limit.getD 50 ≠ 0 then Reply.next
  else
    let totalCount := Expense.getCount s userId (expenseFiltersOf q)
    let totalPages : Option Nat :=
      if q.limit.getD 50 = 0 then none
      else some ⌈(totalCount : ℚ) / ((q.limit.getD 50 : Nat) : ℚ)⌉₊
    Reply.json 200 true none (some {
      expenses := Expense.findByUser s userId (expenseFiltersOf q)
      pagination := {
        currentPage := q.page.getD 1
        totalPages := totalPages
        totalCount := totalCount
        hasNextPage :=
          match totalPages with
          | some pages => decide (q.page.getD 1 < pages)
          | none => decide (0 < totalCount)
        hasPrevPage := decide (q.page.getD 1 > 1) } })

/-- Handler `getExpenseById`. -/
def getExpenseById (s : Store) (userId : Nat) (id : Nat) : Reply ExpenseView :=
  match Expense.findById s id userId with
  | none => Reply.json 404 false (some "Expense not found") none
  | some expense => Reply.json 200 true none (some expense)

/-- Handler `updateExpense` on expense `id`; the body carries the six fields the
handler reads. -/
def updateExpense (s : Store) (userId : Nat) (id : Nat) (body : ExpenseUpdates) :
    Store × Reply ExpenseView :=
  match Expense.findById s id userId with
  | none => (s, Reply.json 404 false (some "Expense not found") none)
  | some _ =>
    if !Category.canAccess s body.categoryId userId then
      (s, Reply.json 400 false (some "Invalid category") none)
    else
      let updated := Expense.update s id userId body
      if !updated.2 then
        (updated.1, Reply.json 400 false (some "Failed to update expense") none)
      else
        (updated.1, Reply.json 200 true (some "Expense updated successfully")
          (Expense.findById updated.1 id userId))

/-- Handler `deleteExpense`. -/
def deleteExpense (s : Store) (userId : Nat) (id : Nat) : Store × Reply ExpenseView :=
  let deleted := Expense.delete s id userId
  if !deleted.2 then
    (deleted.1, Reply.json 404 false (some "Expense not found") none)
  else
    (deleted.1, Reply.json 200 true (some "Expense deleted successfully") none)

/-- Handler `getBudgetById` of `controllers/budgetController.js`. -/
def getBudgetById (s : Store) (userId : Nat) (id : Nat) : Reply BudgetView :=
  match Budget.getWithSpending s id userId with
  | none => Reply.json 404 false (some "Budget not found") none
  | some budget => Reply.json 200 true none (some budget)

/-- Filters that set nothing. -/
def noExpenseFilters : ExpenseFilters :=
  { type := none, categoryId := none, startDate := none, endDate := none, minAmount := none,
    maxAmount := none, search := none, sortBy := none, sortOrder := none, limit := none,
    offset := none }

/-- A query string that sets nothing. -/
def noExpenseQuery : ExpenseQuery :=
  { type := none, categoryId := none, startDate := none, endDate := none, minAmount := none,
    maxAmount := none, search := none, sortBy := none, sortOrder := none, page := none,
    limit := none }

/-- A creation request for a 12.34 expense in "Groceries" with the kind omitted. -/
def lunchBody : CreateExpenseBody :=
  { title := "lunch", amount := 617 / 50, categoryId := 11, type := none,
    description := some "canteen", date := 20240110 }

/-- The query string `page=2&limit=2`. -/
def pageTwoQuery : ExpenseQuery :=
  { noExpenseQuery with page := some 2, limit := some 2 }

/-- Filters that set only `minAmount = 100`. -/
def atLeastHundred : ExpenseFilters :=
  { noExpenseFilters with minAmount := some 100 }

/-- The argument that `createExpense` passes to `Expense.create`. -/
def expenseDataOf (userId : Nat) (body : CreateExpenseBody) : ExpenseData :=
  { title := body.title
    amount := body.amount
    categoryId := body.categoryId
    type := some (body.type.getD TxType.expense)
    description := body.description
    date := body.date
    userId := userId }

/-- The row that `Expense.create` inserts for the data `d`. -/
def insertedRow (s : Store) (d : ExpenseData) : ExpenseRow :=
  { id := s.nextExpenseId
    title := d.title
    amount := d.amount
    category_id := d.categoryId
    type := d.type.getD TxType.expense
    description := d.description
    date := d.date
    user_id := d.userId }

/-- The scenario store without its budget. -/
def noBudgetStore : Store :=
  { scenarioStore with budgets := [] }

/-- The scenario store without its first expense. -/
def twoExpenseStore : Store :=
  { scenarioStore with
    expenses := [groceryExpense 2 (161 / 2) 20240112, groceryExpense 3 50 20240120] }

/-- New fields for an expense. -/
def expenseFields : ExpenseUpdates :=
  { title := "taken over", amount := 1, categoryId := 11, type := TxType.expense,
    description := none, date := 20240101 }

/-! ## `models/Budget.js`: the summary -/

/-- SQL `AVG`: the mean of the non-NULL arguments, NULL when there is none. -/
def sqlAvg (xs : List (Option ℚ)) : Option ℚ :=
  match xs.filterMap id with
  | [] => none
  | y :: ys => some ((y :: ys).sum / ((y :: ys).length : ℚ))

/-- A row of the derived table `spent` of `Budget.getSummary`: `b2.id` and the
`SUM(...) as amount` of its group. -/
structure SpentRow where
  id : Nat
  amount : Option ℚ
deriving DecidableEq, Repr

/-- The expression `CASE WHEN e.type = 'expense' AND e.date >= b2.start_date AND
e.date <= b2.end_date THEN e.amount ELSE 0 END` on one row of
`budgets b2 LEFT JOIN expenses e`; on the NULL-padded row the condition is not
true and the value is 0. -/
def caseElseZero (b2 : BudgetRow) (e : Option ExpenseRow) : Option ℚ :=
  match e with
  | none => some 0
  | some e =>
    if e.type = TxType.expense ∧ e.date ≥ b2.start_date ∧ e.date ≤ b2.end_date
    then some e.amount else some 0

/-- The derived table `spent`: `SELECT b2.id, SUM(CASE ... END) as amount FROM
budgets b2 LEFT JOIN expenses e ON b2.category_id = e.category_id AND
e.user_id = b2.user_id WHERE b2.user_id = ? GROUP BY b2.id`. -/
def spentSubquery (s : Store) (userId : Nat) : List SpentRow :=
  (s.budgets.filter (fun b2 => b2.user_id == userId)).map fun b2 =>
    { id := b2.id
      amount := sqlSum ((leftJoinExpenses s.expenses b2).map (caseElseZero b2)) }

/-- The rows of `budgets b LEFT JOIN (...) spent ON b.id = spent.id
WHERE b.user_id = ?`. -/
def summaryRows (s : Store) (userId : Nat) : List (BudgetRow × Option SpentRow) :=
  (s.budgets.filter (fun b => b.user_id == userId)).flatMap fun b =>
    match (spentSubquery s userId).filter (fun sp => b.id == sp.id) with
    | [] => [(b, none)]
    | m :: ms => (m :: ms).map fun sp => (b, some sp)

/-- The expression `COALESCE(spent.amount, 0)` on a row of `summaryRows`. -/
def summarySpent (r : BudgetRow × Option SpentRow) : ℚ :=
  coalesce (r.2.bind (·.amount)) 0

/-- The result row of `Budget.getSummary`; the three aggregates that SQL leaves
NULL over no row are `Option`s. -/
structure BudgetSummary where
  total_budgets : Nat
  active_budgets : Nat
  total_budget_amount : Option ℚ
  total_spent : Option ℚ
  avg_usage_percentage : Option ℚ
deriving DecidableEq, Repr

namespace Budget

/-- Method `Budget.getSummary`: `COUNT(*)`, `COUNT(CASE WHEN b.is_active = TRUE
THEN 1 END)`, `SUM(b.amount)`, `SUM(COALESCE(spent.amount, 0))` and
`AVG(CASE WHEN b.amount > 0 THEN (COALESCE(spent.amount, 0) / b.amount) * 100
ELSE 0 END)` over the joined rows, then `rows[0]`. -/
def getSummary (s : Store) (userId : Nat) : BudgetSummary :=
  { total_budgets := (summaryRows s userId).length
    active_budgets :=
      sqlCount ((summaryRows s userId).map fun r =>
        if r.1.is_active = true then some 1 else none)
    total_budget_amount := sqlSum ((summaryRows s userId).map fun r => some r.1.amount)
    total_spent := sqlSum ((summaryRows s userId).map fun r => some (summarySpent r))
    avg_usage_percentage :=
      sqlAvg ((summaryRows s userId).map fun r => usageOf r.1.amount (summarySpent r)) }

end Budget

/-- Budget filters that set nothing. -/
def noBudgetFilters : BudgetFilters :=
  { isActive := none, period := none, categoryId := none }

/-- Specification side: the spent amount of budget `b`, the sum of the amounts
of its counted transactions. -/
def spentSpec (s : Store) (b : BudgetRow) : ℚ :=
  ((countedExpenses s b).map (·.amount)).sum

/-- Specification side: the usage percentage of budget `b`, 0 when its amount is
not positive. -/
def usageSpec (s : Store) (b : BudgetRow) : ℚ :=
  if b.amount > 0 then 100 * spentSpec s b / b.amount else 0

/-- The scenario store with a second, inactive budget of user 1 on "Groceries"
for February, of amount 0. -/
def summaryStore : Store :=
  { scenarioStore with
    budgets := [groceryBudget,
                { groceryBudget with id := 2, amount := 0, start_date := 20240201,
                                     end_date := 20240229, is_active := false }]
    nextBudgetId := 3 }

/-! ## Definitions for the expense invariants and listings -/

/-- Every transaction's category is a default category or is owned by the
transaction's user. -/
def ExpensesAccessible (s : Store) : Prop :=
  ∀ e ∈ s.expenses, Category.canAccess s e.category_id e.user_id = true

/-- New fields for an expense that move it to category 99, which does not
exist. -/
def strayFields : ExpenseUpdates :=
  { title := "moved", amount := 5, categoryId := 99, type := TxType.expense,
    description := none, date := 20240102 }

/-- The filters of a `getExpenses` request without the `LIMIT`: what
`Expense.findByUser` is asked for the full filtered, sorted list. -/
def unpagedFilters (q : ExpenseQuery) : ExpenseFilters :=
  { expenseFiltersOf q with limit := none }

/-- The query string `q` with `page = p` and `limit = l`. -/
def pageOf (q : ExpenseQuery) (p l : Nat) : ExpenseQuery :=
  { q with page := some p, limit := some l }

namespace Expense

/-- The rows that `FROM expenses e JOIN categories c ... WHERE ...` of
`Expense.findByUser` selects, before `ORDER BY`. -/
def selectedRows (s : Store) (userId : Nat) (f : ExpenseFilters) : List ExpenseView :=
  (s.expenses.filter (findByUserWhere userId f)).flatMap fun e =>
    (s.categories.filter (fun c => e.category_id == c.id)).map fun c =>
      ({ expense := e, category_name := c.name, category_color := c.color,
         category_icon := c.icon } : ExpenseView)

/-- The clauses `LIMIT ?` and `OFFSET ?` of `Expense.findByUser` on the ordered
rows. -/
def cutPage (f : ExpenseFilters) (sorted : List ExpenseView) : List ExpenseView :=
  match f.limit with
  | none => sorted
  | some l =>
    if l = 0 then sorted
    else
      match f.offset with
      | none => sorted.take l
      | some o => if o = 0 then sorted.take l else (sorted.drop o).take l

/-- What the engine may answer to one statement of `Expense.findByUser`.  The
clause `ORDER BY e.sortBy` names a single column, so the order among rows that
agree on it is the engine's choice, made anew for every statement: the answer
is the cut of some arrangement of the selected rows that the clause admits. -/
def MayReturn (s : Store) (userId : Nat) (f : ExpenseFilters) (rows : List ExpenseView) :
    Prop :=
  ∃ sorted : List ExpenseView, sorted.Perm (selectedRows s userId f)
    ∧ sorted.Sorted (expenseOrder f) ∧ rows = cutPage f sorted

end Expense

/-- No two of the rows selected for the filters `f` agree on the sort column. -/
def DistinctSortKeys (s : Store) (userId : Nat) (f : ExpenseFilters) : Prop :=
  ∀ v ∈ Expense.selectedRows s userId f, ∀ w ∈ Expense.selectedRows s userId f,
    expenseOrder f v w → expenseOrder f w v → v = w

/-- The scenario store with two expenses only, both dated 2024-01-05. -/
def tieStore : Store :=
  { scenarioStore with
    expenses := [groceryExpense 1 120 20240105, groceryExpense 2 50 20240105]
    nextExpenseId := 3 }

/-- The result row of an expense of the tie store. -/
def tieView (id : Nat) (amount : ℚ) : ExpenseView :=
  { expense := groceryExpense id amount 20240105, category_name := "Groceries",
    category_color := "#ff0000", category_icon := "cart" }

/-! ## Definitions for the filters of the expense listing -/

/-- No character of the search string is special in a `LIKE` pattern: none is
`%`, `_` or the escape character. -/
def PlainPattern (q : List Char) : Prop :=
  ∀ c ∈ q, c ≠ '%' ∧ c ≠ '_' ∧ c ≠ likeEscape

instance PlainPattern.decidable (q : List Char) : Decidable (PlainPattern q) := by
  unfold PlainPattern
  exact inferInstance

/-- Text `t` contains `q` as a substring when letter case is ignored. -/
def ContainsIgnoreCase (q t : List Char) : Prop :=
  (q.map Char.toLower) <:+: (t.map Char.toLower)

instance ContainsIgnoreCase.decidable (q t : List Char) : Decidable (ContainsIgnoreCase q t) := by
  unfold ContainsIgnoreCase
  exact inferInstance

/-- Specification side of the search: the title or the description of the
transaction contains `q` as a case-insensitive substring. -/
def SearchHit (q : String) (e : ExpenseRow) : Prop :=
  ContainsIgnoreCase q.toList e.title.toList
  ∨ (match e.description with
      | some d => ContainsIgnoreCase q.toList d.toList
      | none => False)

instance SearchHit.decidable (q : String) (e : ExpenseRow) : Decidable (SearchHit q e) := by
  unfold SearchHit
  cases e.description <;> exact inferInstance

/-- The filter object that sets only `search`. -/
def searchFilters (q : String) : ExpenseFilters :=
  { noExpenseFilters with search := some q }

/-- Specification side of the listing: transaction `e` is owned by `userId` and
satisfies every filter that `f` sets. -/
def SatisfiesFilters (userId : Nat) (f : ExpenseFilters) (e : ExpenseRow) : Prop :=
  e.user_id = userId
  ∧ (∀ t, f.type = some t → e.type = t)
  ∧ (∀ c, f.categoryId = some c → e.category_id = c)
  ∧ (∀ d, f.startDate = some d → e.date ≥ d)
  ∧ (∀ d, f.endDate = some d → e.date ≤ d)
  ∧ (∀ m, f.minAmount = some m → e.amount ≥ m)
  ∧ (∀ m, f.maxAmount = some m → e.amount ≤ m)
  ∧ (∀ q, f.search = some q → searchMatches q e = true)

/-- The filter object that sets only `maxAmount = 0`. -/
def atMostZero : ExpenseFilters :=
  { noExpenseFilters with maxAmount := some 0 }

/-- The filter object that sets only `categoryId = 0`. -/
def categoryZero : ExpenseFilters :=
  { noExpenseFilters with categoryId := some 0 }

/-! ## `models/Category.js`: the listing -/

/-- Join `LEFT JOIN expenses e ON <on>` for one row of the left table: the
expenses that satisfy the `ON` condition, or one NULL-padded row when there is
none. -/
def leftJoinOn (expenses : List ExpenseRow) (cond : ExpenseRow → Bool) :
    List (Option ExpenseRow) :=
  match expenses.filter cond with
  | [] => [none]
  | m :: ms => (m :: ms).map some

/-- Expression `CASE WHEN e.type = k THEN val END` on a joined expense; NULL on
the NULL-padded row and for the other kind. -/
def caseType {α : Type} (k : TxType) (val : ExpenseRow → α) (e : Option ExpenseRow) :
    Option α :=
  match e with
  | none => none
  | some x => if x.type = k then some (val x) else none

/-- Clause `ORDER BY c.is_default DESC, c.name ASC`: category `a` may stand
before category `b`.  Names are compared character by character. -/
def categoryOrder (a b : CategoryRow) : Prop :=
  (a.is_default = true ∧ b.is_default = false)
  ∨ (a.is_default = b.is_default ∧ a.name ≤ b.name)

instance categoryOrder.decidable : DecidableRel categoryOrder := fun a b => by
  unfold categoryOrder
  exact inferInstance

/-- A result row of `Category.findByUser`: `c.*` and the columns `is_custom`,
`expense_count`, `total_expenses` and `total_income`. -/
structure CategoryListing where
  category : CategoryRow
  is_custom : Bool
  expense_count : Nat
  total_expenses : ℚ
  total_income : ℚ
deriving DecidableEq, Repr

/-- The `ORDER BY` clause of `Category.findByUser` on result rows. -/
def listingOrder (v w : CategoryListing) : Prop :=
  categoryOrder v.category w.category

instance listingOrder.decidable : DecidableRel listingOrder := fun v w => by
  unfold listingOrder
  exact inferInstance

namespace Category

/-- Method `Category.findByUser`: `FROM categories c LEFT JOIN expenses e ON
c.id = e.category_id AND e.user_id = ? WHERE c.user_id = ? OR c.is_default =
TRUE GROUP BY c.id ORDER BY c.is_default DESC, c.name ASC`.  Column `id` is the
primary key, so every category row is a group of its own. -/
def findByUser (s : Store) (userId : Nat) : List CategoryListing :=
  ((s.categories.filter (fun c => c.user_id == some userId || c.is_default)).map fun c =>
    ({ category := c
       is_custom := c.user_id == some userId
       expense_count :=
        sqlCount ((leftJoinOn s.expenses
          (fun e => c.id == e.category_id && e.user_id == userId)).map (Option.map (·.id)))
       total_expenses :=
        coalesce (sqlSum ((leftJoinOn s.expenses
          (fun e => c.id == e.category_id && e.user_id == userId)).map
            (caseType TxType.expense (·.amount)))) 0
       total_income :=
        coalesce (sqlSum ((leftJoinOn s.expenses
          (fun e => c.id == e.category_id && e.user_id == userId)).map
            (caseType TxType.income (·.amount)))) 0 } : CategoryListing)).insertionSort
    listingOrder

end Category

/-- Specification side of the listing: the transactions of user `u`, of either
kind, in category `c`. -/
def ownTransactions (s : Store) (u : Nat) (c : CategoryRow) : List ExpenseRow :=
  s.expenses.filter (fun e => decide (e.category_id = c.id ∧ e.user_id = u))

/-- The amounts of the transactions of kind `k` among `l`. -/
def amountsOf (k : TxType) (l : List ExpenseRow) : List ℚ :=
  (l.filter (fun e => decide (e.type = k))).map (·.amount)

/-- A store with the defaults "Transport" (id 2) and "Food" (id 1), "Groceries"
of user 1 and "Rent" (id 12) of user 2; the expenses are those of the shared
store, in "Food", and those of the scenario, in "Groceries". -/
def listingStore : Store :=
  { categories := [groceries,
      { id := 2, name := "Transport", description := none, color := "#4ecdc4", icon := "car",
        user_id := none, is_default := true, updated_at := 0 },
      { id := 12, name := "Rent", description := none, color := "#000000", icon := "home",
        user_id := some 2, is_default := false, updated_at := 0 },
      foodCategory]
    expenses := sharedStore.expenses ++ [groceryExpense 6 120 20240105]
    budgets := sharedStore.budgets
    nextBudgetId := 8
    nextExpenseId := 7 }

/-! ## `models/Expense.js`: the summary by category -/

/-- A result row of `Expense.getSummaryByCategory`. -/
structure CategorySummary where
  category_id : Nat
  category_name : String
  category_color : String
  category_icon : String
  transaction_count : Nat
  total_amount : ℚ
deriving DecidableEq, Repr

/-- Clause `ORDER BY total_amount DESC`: row `v` may stand before row `w`. -/
def amountDesc (v w : CategorySummary) : Prop :=
  w.total_amount ≤ v.total_amount

instance amountDesc.decidable : DecidableRel amountDesc := fun v w =>
  inferInstanceAs (Decidable (w.total_amount ≤ v.total_amount))

/-- The `ON` condition of the join of `Expense.getSummaryByCategory`:
`c.id = e.category_id AND e.user_id = ? AND e.date >= ? AND e.date <= ?`, and
`AND e.type = ?` when `type` is given. -/
def summaryOn (userId : Nat) (startDate endDate : Date) (type : Option TxType)
    (c : CategoryRow) (e : ExpenseRow) : Bool :=
  c.id == e.category_id && e.user_id == userId && decide (e.date ≥ startDate)
  && decide (e.date ≤ endDate)
  && (match type with
      | some k => e.type == k
      | none => true)

namespace Expense

/-- Method `Expense.getSummaryByCategory`: `FROM categories c LEFT JOIN expenses
e ON ... WHERE (c.user_id = ? OR c.is_default = TRUE) GROUP BY c.id, c.name,
c.color, c.icon HAVING transaction_count > 0 OR c.is_default = TRUE ORDER BY
total_amount DESC`.  Column `id` is the primary key, so every category row is a
group of its own. -/
def getSummaryByCategory (s : Store) (userId : Nat) (startDate endDate : Date)
    (type : Option TxType) : List CategorySummary :=
  ((s.categories.filter (fun c => c.user_id == some userId || c.is_default)).filterMap fun c =>
    let row : CategorySummary :=
      { category_id := c.id
        category_name := c.name
        category_color := c.color
        category_icon := c.icon
        transaction_count :=
          sqlCount ((leftJoinOn s.expenses
            (summaryOn userId startDate endDate type c)).map (Option.map (·.id)))
        total_amount :=
          coalesce (sqlSum ((leftJoinOn s.expenses
            (summaryOn userId startDate endDate type c)).map (Option.map (·.amount)))) 0 }
    if row.transaction_count > 0 ∨ c.is_default = true then some row else none).insertionSort
    amountDesc

end Expense

/-- Specification side of the summary: the transactions of user `u` in category
`c` dated from `sd` to `ed`, of kind `k` when a kind is given. -/
def matchingTransactions (s : Store) (u : Nat) (sd ed : Date) (k : Option TxType)
    (c : CategoryRow) : List ExpenseRow :=
  s.expenses.filter (fun e =>
    decide (e.category_id = c.id ∧ e.user_id = u ∧ sd ≤ e.date ∧ e.date ≤ ed
      ∧ ∀ t, k = some t → e.type = t))

/-- Specification side of the summary: the row of category `c`. -/
def summaryOf (s : Store) (u : Nat) (sd ed : Date) (k : Option TxType) (c : CategoryRow) :
    CategorySummary :=
  { category_id := c.id
    category_name := c.name
    category_color := c.color
    category_icon := c.icon
    transaction_count := (matchingTransactions s u sd ed k c).length
    total_amount := ((matchingTransactions s u sd ed k c).map (·.amount)).sum }

/-! ## `controllers/expenseController.js`: the statistics -/

/-- A result row of `Expense.getMonthlyTrends`. -/
structure TrendRow where
  month : Nat
  type : TxType
  transaction_count : Nat
  total_amount : ℚ
deriving DecidableEq, Repr

/-- The object `data` of the response of `getExpenseStats`; `period` holds
`startDate` and `endDate`. -/
structure ExpenseStats where
  totalExpenses : ℚ
  totalTransactions : Nat
  categorySummary : List CategorySummary
  monthlyTrends : List TrendRow
  period : Date × Date
deriving DecidableEq, Repr

/-- Scaling of a positive number into the range of a 53-bit significand: the
result `(m, e)` has `m * 2 ^ e` equal to the number and `2 ^ 52 <= m < 2 ^ 53`,
for every number between `2 ^ (-1100)` and `2 ^ 1100` when called with 1200
steps and exponent 0. -/
def scaleToMantissa : Nat → ℚ → Int → ℚ × Int
  | 0, a, e => (a, e)
  | fuel + 1, a, e =>
    if a < 2 ^ 52 then scaleToMantissa fuel (a * 2) (e - 1)
    else if 2 ^ 53 ≤ a then scaleToMantissa fuel (a / 2) (e + 1)
    else (a, e)

/-- The integer nearest to a number that is not negative, the even one of the
two when it lies halfway. -/
def roundHalfEven (m : ℚ) : Nat :=
  if m - (⌊m⌋₊ : ℚ) < 1 / 2 then ⌊m⌋₊
  else if m - (⌊m⌋₊ : ℚ) > 1 / 2 then ⌊m⌋₊ + 1
  else if ⌊m⌋₊ % 2 = 0 then ⌊m⌋₊
  else ⌊m⌋₊ + 1

/-- The JavaScript number (IEEE 754 double) nearest to `q`, ties to the even
significand, as an exact rational.  Overflow to `Infinity` and the subnormal
numbers are not modelled: sums of `DECIMAL(10, 2)` amounts lie far inside the
normal range. -/
def roundDouble (q : ℚ) : ℚ :=
  if q = 0 then 0
  else
    (if q < 0 then -1 else 1)
      * (roundHalfEven (scaleToMantissa 1200 |q| 0).1 : ℚ) * 2 ^ (scaleToMantissa 1200 |q| 0).2

/-- Function `parseFloat` on the decimal string that the driver returns for a
`DECIMAL` value `q`. -/
def parseFloat (q : ℚ) : ℚ :=
  roundDouble q

/-- Operator `+` on two JavaScript numbers. -/
def addDouble (a b : ℚ) : ℚ :=
  roundDouble (a + b)

/-- Handler `getExpenseStats`.  `start` and `end` default to `monthStart`, the
first day of the current month, and to `today`; the summary is requested
without a kind.  `totalExpenses` is added up in JavaScript numbers; the counts
are integers far below `2 ^ 53`, which JavaScript adds exactly.  The rows
`trends` of `Expense.getMonthlyTrends(userId, 6)`, which the handler passes
through unchanged, are a parameter. -/
def getExpenseStats (s : Store) (monthStart today : Date) (trends : List TrendRow)
    (userId : Nat) (startDate endDate : Option Date) : Reply ExpenseStats :=
  let summary :=
    Expense.getSummaryByCategory s userId (startDate.getD monthStart) (endDate.getD today) none
  Reply.json 200 true none (some {
    totalExpenses :=
      (summary.filter (fun item => decide (item.transaction_count > 0))).foldl
        (fun sum item => addDouble sum (parseFloat item.total_amount)) 0
    totalTransactions := summary.foldl (fun sum item => sum + item.transaction_count) 0
    categorySummary := summary
    monthlyTrends := trends
    period := (startDate.getD monthStart, endDate.getD today) })

/-- Specification side of the statistics: the transactions of user `u`, of both
kinds, dated from `sd` to `ed`. -/
def transactionsInRange (s : Store) (u : Nat) (sd ed : Date) : List ExpenseRow :=
  s.expenses.filter (fun e => decide (e.user_id = u ∧ sd ≤ e.date ∧ e.date ≤ ed))

/-- Adding the numbers `xs` up from 0 in JavaScript numbers rounds nowhere: every
number of `xs` and the sum of every starting piece of `xs` is a double. -/
def AddsExactly (xs : List ℚ) : Prop :=
  (∀ x ∈ xs, roundDouble x = x)
  ∧ ∀ k ≤ xs.length, roundDouble (xs.take k).sum = (xs.take k).sum

instance AddsExactly.decidable (xs : List ℚ) : Decidable (AddsExactly xs) := by
  unfold AddsExactly
  exact inferInstance

/-- The totals of the rows of the summary that the handler adds up: those of the
rows with at least one transaction, in the order of the rows. -/
def countedTotals (summary : List CategorySummary) : List ℚ :=
  (summary.filter (fun item => decide (item.transaction_count > 0))).map (·.total_amount)

/-- A store in which user 1 has an expense of 0.20 in "Groceries" and one of 0.10
in the default "Food", both in January 2024. -/
def dimeStore : Store :=
  { categories := [groceries, foodCategory]
    expenses := [groceryExpense 1 (1 / 5) 20240105,
      { id := 2, title := "coffee", amount := 1 / 10, category_id := 1, type := TxType.expense,
        description := none, date := 20240106, user_id := 1 }]
    budgets := []
    nextBudgetId := 1
    nextExpenseId := 3 }

/-! ## `models/Category.js`: the statistics -/

/-- The row that `Category.getStats` returns. -/
structure CategoryStats where
  name : String
  color : String
  icon : String
  expense_count : Nat
  income_count : Nat
  total_expenses : ℚ
  total_income : ℚ
  avg_expense : Option ℚ
  avg_income : Option ℚ
deriving DecidableEq, Repr

/-- The `ON` condition of the join of `Category.getStats`: `c.id = e.category_id
AND e.user_id = ? AND e.date >= ? AND e.date <= ?`. -/
def statsOn (userId : Nat) (startDate endDate : Date) (c : CategoryRow) (e : ExpenseRow) :
    Bool :=
  c.id == e.category_id && e.user_id == userId && decide (e.date ≥ startDate)
  && decide (e.date ≤ endDate)

namespace Category

/-- Method `Category.getStats`: `FROM categories c LEFT JOIN expenses e ON ...
WHERE c.id = ? AND (c.user_id = ? OR c.is_default = TRUE) GROUP BY c.id`, then
`rows[0]`. -/
def getStats (s : Store) (categoryId userId : Nat) (startDate endDate : Date) :
    Option CategoryStats :=
  ((s.categories.filter
      (fun c => c.id == categoryId && (c.user_id == some userId || c.is_default))).map fun c =>
    ({ name := c.name
       color := c.color
       icon := c.icon
       expense_count :=
        sqlCount ((leftJoinOn s.expenses (statsOn userId startDate endDate c)).map
          (caseType TxType.expense (·.id)))
       income_count :=
        sqlCount ((leftJoinOn s.expenses (statsOn userId startDate endDate c)).map
          (caseType TxType.income (·.id)))
       total_expenses :=
        coalesce (sqlSum ((leftJoinOn s.expenses (statsOn userId startDate endDate c)).map
          (caseType TxType.expense (·.amount)))) 0
       total_income :=
        coalesce (sqlSum ((leftJoinOn s.expenses (statsOn userId startDate endDate c)).map
          (caseType TxType.income (·.amount)))) 0
       avg_expense :=
        sqlAvg ((leftJoinOn s.expenses (statsOn userId startDate endDate c)).map
          (caseType TxType.expense (·.amount)))
       avg_income :=
        sqlAvg ((leftJoinOn s.expenses (statsOn userId startDate endDate c)).map
          (caseType TxType.income (·.amount))) } : CategoryStats)).head?

end Category

/-- The object `data` of the 200 response of `getCategoryStats`: the fields of
the statistics row and `period`, which holds `startDate` and `endDate`. -/
structure CategoryStatsData where
  stats : CategoryStats
  period : Date × Date
deriving DecidableEq, Repr

/-- Handler `getCategoryStats`.  `start` and `end` default to `monthStart`, the
first day of the current month, and to `today`. -/
def getCategoryStats (s : Store) (monthStart today : Date) (userId : Nat) (id : Nat)
    (startDate endDate : Option Date) : Reply CategoryStatsData :=
  match Category.getStats s id userId (startDate.getD monthStart) (endDate.getD today) with
  | none => Reply.json 404 false (some "Category not found") none
  | some stats =>
    Reply.json 200 true none
      (some { stats := stats, period := (startDate.getD monthStart, endDate.getD today) })

/-- Specification side of the statistics: the transactions of kind `k` of user
`u` in the category with id `c`, dated from `sd` to `ed`. -/
def kindInWindow (s : Store) (u c : Nat) (sd ed : Date) (k : TxType) : List ExpenseRow :=
  s.expenses.filter (fun e =>
    decide (e.category_id = c ∧ e.user_id = u ∧ sd ≤ e.date ∧ e.date ≤ ed ∧ e.type = k))

/-- The statistics of user 1 in "Food" for January 2024 in the shared store. -/
def foodStats : CategoryStats :=
  { name := "Food", color := "#ff6b6b", icon := "food", expense_count := 2,
    income_count := 1, total_expenses := 131 / 2, total_income := 70,
    avg_expense := some (131 / 4), avg_income := some 70 }

/-! ## `models/Category.js`: categories with their budgets -/

/-- A result row of `Category.findWithBudgets`: `c.*`, `is_custom`, the budget
columns, which are NULL on the NULL-padded row of a category without a matching
budget, and `spent_amount`. -/
structure CategoryBudgetRow where
  category : CategoryRow
  is_custom : Bool
  budget_id : Option Nat
  budget_amount : Option ℚ
  budget_period : Option Period
  budget_start : Option Date
  budget_end : Option Date
  budget_active : Option Bool
  spent_amount : ℚ
deriving DecidableEq, Repr

/-- Join `LEFT JOIN budgets b ON c.id = b.category_id AND b.user_id = ? AND
b.is_active = TRUE` for one category row. -/
def leftJoinBudgets (budgets : List BudgetRow) (userId : Nat) (c : CategoryRow) :
    List (Option BudgetRow) :=
  match budgets.filter
      (fun b => c.id == b.category_id && b.user_id == userId && b.is_active) with
  | [] => [none]
  | m :: ms => (m :: ms).map some

/-- Expression `CASE WHEN e.type = 'expense' AND e.date >= COALESCE(b.start_date,
DATE_SUB(CURRENT_DATE, INTERVAL 1 MONTH)) AND e.date <= COALESCE(b.end_date,
CURRENT_DATE) THEN e.amount END` on one joined row; `monthAgo` and `today` are
the two dates computed from `CURRENT_DATE`. -/
def caseBudgetWindow (monthAgo today : Date) (b : Option BudgetRow) (e : Option ExpenseRow) :
    Option ℚ :=
  match e with
  | none => none
  | some x =>
    if x.type = TxType.expense ∧ x.date ≥ (b.map (·.start_date)).getD monthAgo
        ∧ x.date ≤ (b.map (·.end_date)).getD today
    then some x.amount else none

/-- The select list of `Category.findWithBudgets` for the group of category `c`
and joined budget `b`. -/
def budgetRowOf (s : Store) (monthAgo today : Date) (userId : Nat) (c : CategoryRow)
    (b : Option BudgetRow) : CategoryBudgetRow :=
  { category := c
    is_custom := c.user_id == some userId
    budget_id := b.map (·.id)
    budget_amount := b.map (·.amount)
    budget_period := b.map (·.period)
    budget_start := b.map (·.start_date)
    budget_end := b.map (·.end_date)
    budget_active := b.map (·.is_active)
    spent_amount :=
      coalesce (sqlSum ((leftJoinOn s.expenses
        (fun e => c.id == e.category_id && e.user_id == userId)).map
          (caseBudgetWindow monthAgo today b))) 0 }

/-- The `ORDER BY` clause of `Category.findWithBudgets` on result rows. -/
def budgetRowOrder (v w : CategoryBudgetRow) : Prop :=
  categoryOrder v.category w.category

instance budgetRowOrder.decidable : DecidableRel budgetRowOrder := fun v w => by
  unfold budgetRowOrder
  exact inferInstance

namespace Category

/-- Method `Category.findWithBudgets`: `FROM categories c LEFT JOIN budgets b ON
... LEFT JOIN expenses e ON c.id = e.category_id AND e.user_id = ? WHERE
c.user_id = ? OR c.is_default = TRUE GROUP BY c.id, b.id ORDER BY c.is_default
DESC, c.name ASC`.  The columns `id` are primary keys, so every pair of a
category row and a joined budget row (or NULL) is a group of its own. -/
def findWithBudgets (s : Store) (monthAgo today : Date) (userId : Nat) :
    List CategoryBudgetRow :=
  ((s.categories.filter (fun c => c.user_id == some userId || c.is_default)).flatMap fun c =>
    (leftJoinBudgets s.budgets userId c).map
      (budgetRowOf s monthAgo today userId c)).insertionSort budgetRowOrder

end Category

/-- Specification side: the budgets of user `u` on category `c` that have
`is_active` true. -/
def activeBudgets (s : Store) (u : Nat) (c : CategoryRow) : List BudgetRow :=
  s.budgets.filter (fun b => decide (b.category_id = c.id ∧ b.user_id = u ∧ b.is_active = true))

/-! ## `middleware/validation.js` and `routes/budgets.js` -/

/-- A date field of a request body: `missing` when the property is undefined or
the empty string, `valid d t` for a string that `validator.isDate` accepts, and
`invalid t` for any other value; `d` is the calendar date that the string names
and `t` the time value of `new Date(value)` (`none` for an Invalid Date).
JavaScript reads `YYYY-MM-DD` as midnight UTC and `YYYY/MM/DD`, which the
validator accepts too, as midnight in the time zone of the server. -/
inductive DateField where
  | missing
  | invalid (time : Option Int)
  | valid (d : Date) (time : Int)
deriving DecidableEq, Repr

/-- Truthiness of the field. -/
def DateField.truthy : DateField → Bool
  | DateField.missing => false
  | _ => true

/-- Test `validator.isDate(field)`. -/
def DateField.isDate : DateField → Bool
  | DateField.valid _ _ => true
  | _ => false

/-- Value of `new Date(field)`, `none` for an Invalid Date. -/
def DateField.time : DateField → Option Int
  | DateField.missing => none
  | DateField.invalid t => t
  | DateField.valid _ t => some t

/-- Comparison `x >= y` of two `Date` objects; false when either is invalid. -/
def timeGE : Option Int → Option Int → Bool
  | some x, some y => decide (x ≥ y)
  | _, _ => false

/-- The properties of `req.body` that the budget routes read.  `categoryId` and
`amount` are the JavaScript number of the property (a double, as an exact
rational), `none` when the property is missing or is not a number, numeric
strings not being modelled; `period` is the string, `none` when the property is
missing; `isActive` is `none` when the property is missing. -/
structure BudgetRequest where
  categoryId : Option ℚ
  amount : Option ℚ
  period : Option String
  startDate : DateField
  endDate : DateField
  isActive : Option Bool
deriving DecidableEq, Repr

/-- Test `validator.isInt(value.toString(), { min })` on a number: the string
is a run of digits for the integers below `10 ^ 21`, which JavaScript prints in
full, and for no other number. -/
def isInt (q : ℚ) (min : ℚ) : Bool :=
  q.den == 1 && decide (min ≤ q) && decide (q < 10 ^ 21)

/-- Test `validator.isFloat(value.toString(), { min })` on a number; `min` is a
JavaScript number, the double nearest to the literal. -/
def isFloat (q : ℚ) (min : ℚ) : Bool :=
  decide (roundDouble min ≤ q)

/-- What the middleware does: it answers `res.status(..).json({ success: false,
message, errors })`, or it calls `next()`. -/
inductive Validation where
  | rejected (status : Nat) (message : String) (errors : List String)
  | next
deriving DecidableEq, Repr

/-- The list `errors` that `validateBudget` collects. -/
def budgetErrors (r : BudgetRequest) : List String :=
  (if (match r.categoryId with
        | none => true
        | some c => decide (c = 0) || !isInt c 1)
    then ["Valid category ID is required"] else [])
  ++ (if (match r.amount with
          | none => true
          | some a => decide (a = 0) || !isFloat a (1 / 100))
      then ["Amount must be a positive number"] else [])
  ++ (if (match r.period with
          | none => false
          | some p => decide (p ≠ "") && !(["monthly", "yearly"].contains p))
      then ["Period must be either \"monthly\" or \"yearly\""] else [])
  ++ (if !r.startDate.truthy || !r.startDate.isDate
      then ["Valid start date is required (YYYY-MM-DD format)"] else [])
  ++ (if !r.endDate.truthy || !r.endDate.isDate
      then ["Valid end date is required (YYYY-MM-DD format)"] else [])
  ++ (if r.startDate.truthy && r.endDate.truthy && timeGE r.startDate.time r.endDate.time
      then ["End date must be after start date"] else [])

/-- Middleware `validateBudget`. -/
def validateBudget (r : BudgetRequest) : Validation :=
  if (budgetErrors r).length > 0 then
    Validation.rejected 400 "Validation failed" (budgetErrors r)
  else Validation.next

/-- The time values of the two dates of the request are ordered like the dates:
so it is when both strings have the same form, or when the server runs in
UTC. -/
def CalendarTimes (r : BudgetRequest) : Prop :=
  ∀ d1 t1 d2 t2, r.startDate = DateField.valid d1 t1 → r.endDate = DateField.valid d2 t2 →
    (t1 < t2 ↔ d1 < d2)

/-- The value of column `period` for a string: the `ENUM` has the two values
`'monthly'` and `'yearly'`. -/
def periodOfString (p : String) : Option Period :=
  if p = "monthly" then some Period.monthly
  else if p = "yearly" then some Period.yearly
  else none

/-- The outcome of a route: the answer of the validation middleware, or what the
handler does. -/
inductive RouteReply where
  | invalid (status : Nat) (message : String) (errors : List String)
  | handled (reply : Reply BudgetView)
deriving DecidableEq, Repr

/-- Route `POST /api/budgets`: `validateBudget`, then `createBudget`.  A `period`
that is a string outside the `ENUM` reaches the `INSERT`, which the engine
rejects, after the two checks of the handler, neither of which such a period
can fail for an accessible category. -/
def postBudget (s : Store) (now : Nat) (userId : Nat) (r : BudgetRequest) :
    Store × RouteReply :=
  match validateBudget r with
  | Validation.rejected status message errors =>
    (s, RouteReply.invalid status message errors)
  | Validation.next =>
    match r.categoryId, r.amount, r.startDate, r.endDate with
    | some c, some a, DateField.valid d1 _, DateField.valid d2 _ =>
      match r.period with
      | none =>
        let res := createBudget s now userId
          { categoryId := c.num.toNat, amount := a, period := none, startDate := d1,
            endDate := d2 }
        (res.1, RouteReply.handled res.2)
      | some p =>
        match periodOfString p with
        | some period =>
          let res := createBudget s now userId
            { categoryId := c.num.toNat, amount := a, period := some period, startDate := d1,
              endDate := d2 }
          (res.1, RouteReply.handled res.2)
        | none =>
          if !Category.canAccess s c.num.toNat userId then
            (s, RouteReply.handled (Reply.json 400 false (some "Invalid category") none))
          else (s, RouteReply.handled Reply.next)
    | _, _, _, _ => (s, RouteReply.handled Reply.next)

/-- Route `PUT /api/budgets/:id`: `validateBudget`, then `updateBudget`.  A
missing `period` or `isActive` is an undefined bind parameter and a `period`
outside the `ENUM` is rejected by the engine: the statement fails after the
lookup of the budget. -/
def putBudget (s : Store) (now : Nat) (userId : Nat) (id : Nat) (r : BudgetRequest) :
    Store × RouteReply :=
  match validateBudget r with
  | Validation.rejected status message errors =>
    (s, RouteReply.invalid status message errors)
  | Validation.next =>
    match r.amount, r.startDate, r.endDate with
    | some a, DateField.valid d1 _, DateField.valid d2 _ =>
      match r.period.bind periodOfString, r.isActive with
      | some period, some active =>
        let res := updateBudget s now userId id
          { amount := a, period := period, startDate := d1, endDate := d2, isActive := active }
        (res.1, RouteReply.handled res.2)
      | _, _ =>
        match Budget.findById s id userId with
        | none => (s, RouteReply.handled (Reply.json 404 false (some "Budget not found") none))
        | some _ => (s, RouteReply.handled Reply.next)
    | _, _, _ => (s, RouteReply.handled Reply.next)

/-- A request body that is valid but for its `period`, the empty string. -/
def emptyPeriodRequest : BudgetRequest :=
  { categoryId := some 11, amount := some 100, period := some "",
    startDate := DateField.valid 20240201 1706745600000,
    endDate := DateField.valid 20240229 1709164800000,
    isActive := none }

/-- A request body whose two dates name the same day, the start as `2024-01-02`,
read as midnight UTC, the end as `2024/01/02`, read as midnight of a server five
hours west of UTC. -/
def sameDayRequest : BudgetRequest :=
  { categoryId := some 11, amount := some 100, period := some "yearly",
    startDate := DateField.valid 20240102 1704153600000,
    endDate := DateField.valid 20240102 1704171600000,
    isActive := none }

/-- A valid request body for a budget of 100.00 on category 11 in February. -/
def februaryRequest : BudgetRequest :=
  { categoryId := some 11, amount := some 100, period := some "monthly",
    startDate := DateField.valid 20240201 1706745600000,
    endDate := DateField.valid 20240229 1709164800000,
    isActive := some true }

/-! ## Lemmas on the SQL helpers -/

theorem filter_eq_singleton_of_nodup {α : Type} (f : α → Nat) (p : α → Bool) :
    ∀ (l : List α) (b : α), (l.map f).Nodup → b ∈ l → p b = true →
      (∀ x ∈ l, p x = true → f x = f b) → l.filter p = [b] := by
  intro l
  induction l with
  | nil => intro b _ hb; simp at hb
  | cons a l ih =>
    intro b hnd hb hp hkey
    rw [List.map_cons, List.nodup_cons] at hnd
    obtain ⟨hna, hnd⟩ := hnd
    have htail : ∀ x ∈ l, p x = true → f x = f b := fun x hx => hkey x (List.mem_cons_of_mem a hx)
    rcases List.mem_cons.mp hb with rfl | hbl
    · have hnone : l.filter p = [] := by
        rw [List.filter_eq_nil_iff]
        intro x hx hpx
        exact hna (List.mem_map.mpr ⟨x, hx, htail x hx hpx⟩)
      rw [List.filter_cons_of_pos hp, hnone]
    · have hpa : ¬ p a = true := by
        intro hpa
        have hfa : f a = f b := hkey a (List.mem_cons_self a l) hpa
        exact hna (List.mem_map.mpr ⟨b, hbl, hfa.symm⟩)
      rw [List.filter_cons_of_neg hpa]
      exact ih b hnd hbl hp htail

theorem coalesce_sqlSum (xs : List (Option ℚ)) :
    coalesce (sqlSum xs) 0 = (xs.filterMap id).sum := by
  unfold sqlSum
  cases h : xs.filterMap id with
  | nil => simp [coalesce]
  | cons y ys => simp [coalesce]

theorem caseInWindow_somes {α : Type} (val : ExpenseRow → α) (b : BudgetRow) (c : CategoryRow) :
    ∀ l : List ExpenseRow,
      (((l.map some).map (fun e => ({ b := b, c := c, e := e } : JoinRow))).map
          (caseInWindow val)).filterMap id
        = (l.filter (fun e => decide (e.type = TxType.expense ∧ e.date ≥ b.start_date
            ∧ e.date ≤ b.end_date))).map val := by
  intro l
  induction l with
  | nil => rfl
  | cons a l ih =>
    simp only [List.map_cons, List.filterMap_cons, List.filter_cons]
    by_cases h : a.type = TxType.expense ∧ a.date ≥ b.start_date ∧ a.date ≤ b.end_date
    · simp only [caseInWindow, h, and_self, if_true, id, decide_True, List.map_cons]
      rw [← ih]
    · simp only [caseInWindow, h, if_false, id, decide_False]
      simpa using ih

theorem leftJoinExpenses_ne_nil (es : List ExpenseRow) (b : BudgetRow) :
    leftJoinExpenses es b ≠ [] := by
  unfold leftJoinExpenses
  split <;> simp

theorem filterMap_case_leftJoin {α : Type} (val : ExpenseRow → α) (s : Store) (b : BudgetRow)
    (c : CategoryRow) :
    ((((leftJoinExpenses s.expenses b).map
        (fun e => ({ b := b, c := c, e := e } : JoinRow))).map (caseInWindow val)).filterMap id)
      = (countedExpenses s b).map val := by
  have hfilter : countedExpenses s b
      = ((s.expenses.filter
          (fun e => b.category_id == e.category_id && e.user_id == b.user_id)).filter
          (fun e => decide (e.type = TxType.expense ∧ e.date ≥ b.start_date
            ∧ e.date ≤ b.end_date))) := by
    rw [List.filter_filter]
    unfold countedExpenses
    apply List.filter_congr
    intro t _
    rw [Bool.eq_iff_iff]
    simp only [decide_eq_true_eq, Bool.and_eq_true, beq_iff_eq, ge_iff_le]
    constructor
    · rintro ⟨h1, h2, h3, h4, h5⟩
      exact ⟨⟨h3, h4, h5⟩, h1.symm, h2⟩
    · rintro ⟨⟨h3, h4, h5⟩, h1, h2⟩
      exact ⟨h1.symm, h2, h3, h4, h5⟩
  rw [hfilter]
  unfold leftJoinExpenses
  cases hm : s.expenses.filter
      (fun e => b.category_id == e.category_id && e.user_id == b.user_id) with
  | nil => simp [caseInWindow]
  | cons m ms => exact caseInWindow_somes val b c (m :: ms)

theorem joinRows_of_category (s : Store) (b : BudgetRow) (c : CategoryRow)
    (hpk : (s.categories.map (·.id)).Nodup) (hc : c ∈ s.categories)
    (hid : c.id = b.category_id) :
    joinRows s b
      = (leftJoinExpenses s.expenses b).map fun e => ({ b := b, c := c, e := e } : JoinRow) := by
  have hsingle : s.categories.filter (fun c => b.category_id == c.id) = [c] := by
    apply filter_eq_singleton_of_nodup (·.id) _ s.categories c hpk hc
    · simp [hid]
    · intro x _ hx
      simp only [beq_iff_eq] at hx
      rw [← hx, hid]
  unfold joinRows
  rw [hsingle]
  simp

theorem selectRow_of_category (wr wc : Bool) (s : Store) (b : BudgetRow) (c : CategoryRow)
    (hpk : (s.categories.map (·.id)).Nodup) (hc : c ∈ s.categories)
    (hid : c.id = b.category_id) :
    selectRow wr wc s b = some (viewOf wr wc s b c) := by
  have hrows := joinRows_of_category s b c hpk hc hid
  have hspent : spentOf (joinRows s b) = ((countedExpenses s b).map (·.amount)).sum := by
    rw [hrows, spentOf, coalesce_sqlSum, filterMap_case_leftJoin]
  have hcount : sqlCount ((joinRows s b).map (caseInWindow (·.id)))
      = (countedExpenses s b).length := by
    rw [hrows, sqlCount, filterMap_case_leftJoin, List.length_map]
  have hne : joinRows s b ≠ [] := by
    rw [hrows]
    simpa using leftJoinExpenses_ne_nil s.expenses b
  have hhead : ∀ r ∈ joinRows s b, r.c = c := by
    rw [hrows]
    intro r hr
    obtain ⟨e, _, rfl⟩ := List.mem_map.mp hr
    rfl
  unfold selectRow viewOf
  cases hj : joinRows s b with
  | nil => exact absurd hj hne
  | cons r rs =>
    rw [hj] at hspent hcount hhead
    have hrc : r.c = c := hhead r (List.mem_cons_self r rs)
    simp only [hspent, hcount, hrc]

theorem joinRows_case {α : Type} (val : ExpenseRow → α) (s : Store) (b : BudgetRow) :
    ((joinRows s b).map (caseInWindow val)).filterMap id
      = (s.categories.filter (fun c => b.category_id == c.id)).flatMap
          (fun _ => (countedExpenses s b).map val) := by
  unfold joinRows
  induction s.categories.filter (fun c => b.category_id == c.id) with
  | nil => rfl
  | cons c cs ih =>
    rw [List.flatMap_cons, List.flatMap_cons, List.map_append, List.filterMap_append, ih,
      filterMap_case_leftJoin]

theorem joinRows_head (s : Store) (b : BudgetRow) :
    (joinRows s b).head?.map (·.c)
      = (s.categories.filter (fun c => b.category_id == c.id)).head? := by
  unfold joinRows
  cases s.categories.filter (fun c => b.category_id == c.id) with
  | nil => rfl
  | cons c cs =>
    rw [List.flatMap_cons]
    cases hl : leftJoinExpenses s.expenses b with
    | nil => exact absurd hl (leftJoinExpenses_ne_nil s.expenses b)
    | cons e es => rfl

theorem selectRow_eq (wr wc : Bool) (s : Store) (b : BudgetRow) :
    selectRow wr wc s b
      = ((joinRows s b).head?.map (·.c)).map fun c =>
          { budget := b
            category_name := c.name
            category_color := c.color
            category_icon := c.icon
            spent_amount := spentOf (joinRows s b)
            remaining_amount := if wr then some (b.amount - spentOf (joinRows s b)) else none
            usage_percentage := usageOf b.amount (spentOf (joinRows s b))
            transaction_count :=
              if wc then some (sqlCount ((joinRows s b).map (caseInWindow (·.id)))) else none } := by
  unfold selectRow
  cases joinRows s b with
  | nil => rfl
  | cons r rs => rfl

/-- The result row depends on the store only through the categories and the
counted transactions of the budget. -/
theorem selectRow_congr (wr wc : Bool) (s s' : Store) (b : BudgetRow)
    (hcat : s'.categories = s.categories)
    (hcounted : countedExpenses s' b = countedExpenses s b) :
    selectRow wr wc s' b = selectRow wr wc s b := by
  have hspent : spentOf (joinRows s' b) = spentOf (joinRows s b) := by
    unfold spentOf
    rw [coalesce_sqlSum, coalesce_sqlSum, joinRows_case, joinRows_case, hcat, hcounted]
  have hcount : sqlCount ((joinRows s' b).map (caseInWindow (·.id)))
      = sqlCount ((joinRows s b).map (caseInWindow (·.id))) := by
    unfold sqlCount
    rw [joinRows_case, joinRows_case, hcat, hcounted]
  rw [selectRow_eq, selectRow_eq, joinRows_head, joinRows_head, hcat, hspent, hcount]

/-- Shape of every result row: it carries its budget row, and the derived
columns are functions of the budget amount and the reported spent amount. -/
theorem selectRow_shape (wr wc : Bool) (s : Store) (b : BudgetRow) (v : BudgetView)
    (h : selectRow wr wc s b = some v) :
    v.budget = b ∧ v.spent_amount = spentOf (joinRows s b)
      ∧ v.remaining_amount = (if wr then some (b.amount - v.spent_amount) else none)
      ∧ v.usage_percentage = usageOf b.amount v.spent_amount := by
  rw [selectRow_eq] at h
  cases hc : (joinRows s b).head?.map (·.c) with
  | none => rw [hc] at h; exact absurd h (by simp)
  | some c =>
    rw [hc] at h
    simp only [Option.map_some', Option.some.injEq] at h
    subst h
    exact ⟨rfl, rfl, rfl, rfl⟩

theorem usageOf_pos (amount spent : ℚ) (h : amount > 0) :
    usageOf amount spent = some (100 * spent / amount) := by
  have hne : amount ≠ 0 := ne_of_gt h
  simp only [usageOf, h, if_true, sqlDiv, hne, if_false, Option.map_some', Option.some.injEq]
  ring

theorem usageOf_zero (spent : ℚ) : usageOf 0 spent = some 0 := by
  simp [usageOf]


/-! ## Lemmas on the budget queries -/

theorem budgets_filter_id (s : Store) (hpk : (s.budgets.map (·.id)).Nodup) (b : BudgetRow)
    (hb : b ∈ s.budgets) :
    s.budgets.filter (fun x => x.id == b.id && x.user_id == b.user_id) = [b] := by
  apply filter_eq_singleton_of_nodup (·.id) _ s.budgets b hpk hb
  · simp
  · intro x _ hx
    simp only [Bool.and_eq_true, beq_iff_eq] at hx
    exact hx.1

theorem getWithSpending_of_category (s : Store) (hwf : s.WellFormed) (b : BudgetRow)
    (hb : b ∈ s.budgets) (c : CategoryRow) (hc : c ∈ s.categories) (hid : c.id = b.category_id) :
    Budget.getWithSpending s b.id b.user_id = some (viewOf true true s b c) := by
  unfold Budget.getWithSpending
  rw [budgets_filter_id s hwf.budget_pk b hb]
  simp [selectRow_of_category true true s b c hwf.category_pk hc hid]

theorem scenarioStore_wellFormed : scenarioStore.WellFormed :=
  ⟨by decide, by decide, by decide⟩

theorem sharedStore_wellFormed : sharedStore.WellFormed :=
  ⟨by decide, by decide, by decide⟩

/-! ## The claims -/

/-- C1: in a store that satisfies the key constraints, `Budget.getWithSpending`
on a budget `b` of its owner returns a row for `b` whose `spent_amount` is the
sum of the amounts of exactly the transactions with the budget's category, the
budget's owner, type expense and a date within `[start_date, end_date]` (both
bounds included; the empty sum is 0), and whose `transaction_count` is the
number of those transactions.  Transactions of other users are outside that
set, also in a shared default category. -/
theorem getWithSpending_spent_and_count (s : Store) (hwf : s.WellFormed) (b : BudgetRow)
    (hb : b ∈ s.budgets) :
    ∃ v, Budget.getWithSpending s b.id b.user_id = some v ∧ v.budget = b
      ∧ v.spent_amount
          = ((s.expenses.filter fun t =>
              decide (t.category_id = b.category_id ∧ t.user_id = b.user_id
                ∧ t.type = TxType.expense ∧ b.start_date ≤ t.date ∧ t.date ≤ b.end_date)).map
              (·.amount)).sum
      ∧ v.transaction_count
          = some (s.expenses.filter fun t =>
              decide (t.category_id = b.category_id ∧ t.user_id = b.user_id
                ∧ t.type = TxType.expense ∧ b.start_date ≤ t.date ∧ t.date ≤ b.end_date)).length := by
  obtain ⟨c, hc, hid⟩ := hwf.budget_fk b hb
  exact ⟨viewOf true true s b c, getWithSpending_of_category s hwf b hb c hc hid, rfl, rfl, rfl⟩

/-- Witness of C1 on `sharedStore`: of the five transactions in the shared default
category only the two in-window expenses of user 1 are counted, so
`spent_amount` is 65.50 and `transaction_count` is 2; the 99.00 of user 2, the
out-of-window 10.00 and the income of 70.00 are not. -/
theorem getWithSpending_spent_and_count_witness :
    ∃ v, Budget.getWithSpending sharedStore 7 1 = some v ∧ v.spent_amount = 131 / 2
      ∧ v.transaction_count = some 2 := by
  obtain ⟨v, hv, _, hs, hn⟩ :=
    getWithSpending_spent_and_count sharedStore sharedStore_wellFormed
      { id := 7, category_id := 1, user_id := 1, amount := 300,
        period := Period.monthly, start_date := 20240101, end_date := 20240131,
        is_active := true, created_at := 0, updated_at := 0 } (by decide!)
  exact ⟨v, hv, hs.trans (by decide!), hn.trans (by decide!)⟩


theorem mem_getWithSpending (s : Store) (budgetId userId : Nat) (v : BudgetView)
    (h : Budget.getWithSpending s budgetId userId = some v) :
    ∃ b ∈ s.budgets, selectRow true true s b = some v := by
  unfold Budget.getWithSpending at h
  have hmem := List.mem_of_mem_head? (Option.mem_def.mpr h)
  obtain ⟨b, hb, hsel⟩ := List.mem_filterMap.mp hmem
  exact ⟨b, List.mem_of_mem_filter hb, hsel⟩

theorem mem_findByUser (s : Store) (userId : Nat) (f : BudgetFilters) (v : BudgetView)
    (h : v ∈ Budget.findByUser s userId f) :
    ∃ b ∈ s.budgets, selectRow true false s b = some v := by
  unfold Budget.findByUser at h
  rw [(List.perm_insertionSort _ _).mem_iff] at h
  obtain ⟨b, hb, hsel⟩ := List.mem_filterMap.mp h
  exact ⟨b, List.mem_of_mem_filter hb, hsel⟩

theorem mem_getCurrentMonth (s : Store) (today : Date) (userId : Nat) (v : BudgetView)
    (h : v ∈ Budget.getCurrentMonth s today userId) :
    ∃ b ∈ s.budgets, Budget.currentWhere today userId b = true
      ∧ selectRow true false s b = some v := by
  unfold Budget.getCurrentMonth at h
  rw [(List.perm_insertionSort _ _).mem_iff] at h
  obtain ⟨b, hb, hsel⟩ := List.mem_filterMap.mp h
  exact ⟨b, List.mem_of_mem_filter hb, (List.mem_filter.mp hb).2, hsel⟩

theorem mem_getAlerts (s : Store) (today : Date) (userId : Nat) (threshold : Option ℚ)
    (v : BudgetView) (h : v ∈ Budget.getAlerts s today userId threshold) :
    ∃ b ∈ s.budgets, Budget.currentWhere today userId b = true
      ∧ selectRow false false s b = some v ∧ havingUsage (threshold.getD 80) v = true := by
  unfold Budget.getAlerts at h
  rw [(List.perm_insertionSort _ _).mem_iff, List.mem_filter] at h
  obtain ⟨b, hb, hsel⟩ := List.mem_filterMap.mp h.1
  exact ⟨b, List.mem_of_mem_filter hb, (List.mem_filter.mp hb).2, hsel, h.2⟩

/-- C2: every row returned by `Budget.getWithSpending`, `Budget.findByUser` or
`Budget.getCurrentMonth` for a budget with amount > 0 has
`remaining_amount = amount - spent_amount` and
`usage_percentage = 100 * spent_amount / amount`, as rationals.  In the
scenario (amount 500.00, in-window expenses 120.00, 80.50, 50.00)
`getWithSpending` reports spent 250.50, remaining 249.50, usage 50.1 and
`transaction_count` 3. -/
theorem derived_metrics_exact :
    (∀ (s : Store) (today : Date) (budgetId userId : Nat) (f : BudgetFilters) (v : BudgetView),
      (Budget.getWithSpending s budgetId userId = some v ∨ v ∈ Budget.findByUser s userId f
        ∨ v ∈ Budget.getCurrentMonth s today userId) →
      v.budget.amount > 0 →
      v.remaining_amount = some (v.budget.amount - v.spent_amount)
        ∧ v.usage_percentage = some (100 * v.spent_amount / v.budget.amount))
    ∧ (Budget.getWithSpending scenarioStore 1 1).map
        (fun v => (v.budget.amount, v.spent_amount, v.remaining_amount, v.usage_percentage,
          v.transaction_count))
        = some (500, 501 / 2, some (499 / 2), some (501 / 10), some 3) := by
  refine ⟨?_, by decide!⟩
  intro s today budgetId userId f v hv hpos
  have hsel : ∃ wc b, selectRow true wc s b = some v := by
    rcases hv with h | h | h
    · obtain ⟨b, _, hb⟩ := mem_getWithSpending s budgetId userId v h
      exact ⟨true, b, hb⟩
    · obtain ⟨b, _, hb⟩ := mem_findByUser s userId f v h
      exact ⟨false, b, hb⟩
    · obtain ⟨b, _, _, hb⟩ := mem_getCurrentMonth s today userId v h
      exact ⟨false, b, hb⟩
  obtain ⟨wc, b, hb⟩ := hsel
  obtain ⟨hbud, _, hrem, huse⟩ := selectRow_shape true wc s b v hb
  rw [hbud]
  rw [hbud] at hpos
  exact ⟨by simpa using hrem, by rw [huse, usageOf_pos _ _ hpos]⟩

/-- Witness of C2: the row that `Budget.findByUser` returns for the scenario
budget. -/
theorem derived_metrics_exact_witness :
    ∃ v, v ∈ Budget.findByUser scenarioStore 1 { isActive := none, period := none, categoryId := none }
      ∧ v.budget.amount = 500 ∧ v.remaining_amount = some (499 / 2)
      ∧ v.usage_percentage = some (501 / 10) := by
  have hmem : viewOf true false scenarioStore groceryBudget groceries
      ∈ Budget.findByUser scenarioStore 1 { isActive := none, period := none, categoryId := none } := by
    decide!
  have h := derived_metrics_exact.1 scenarioStore 0 0 1 _ _ (Or.inr (Or.inl hmem)) (by decide!)
  exact ⟨_, hmem, by decide!, h.1.trans (by decide!), h.2.trans (by decide!)⟩

/-- C3: every row returned by one of the four views for a budget whose amount is
0 has `usage_percentage = 0`, whatever was spent; the `CASE` takes its `ELSE`
branch, the quotient by the amount (which would be NULL) is not formed. -/
theorem usage_zero_when_amount_zero :
    (∀ (s : Store) (today : Date) (budgetId userId : Nat) (f : BudgetFilters)
        (threshold : Option ℚ) (v : BudgetView),
      (Budget.getWithSpending s budgetId userId = some v ∨ v ∈ Budget.findByUser s userId f
        ∨ v ∈ Budget.getCurrentMonth s today userId
        ∨ v ∈ Budget.getAlerts s today userId threshold) →
      v.budget.amount = 0 → v.usage_percentage = some 0)
    ∧ (∀ spent : ℚ, usageOf 0 spent = some 0 ∧ sqlDiv spent 0 = none) := by
  refine ⟨?_, fun spent => ⟨usageOf_zero spent, by simp [sqlDiv]⟩⟩
  intro s today budgetId userId f threshold v hv hzero
  have hsel : ∃ wr wc b, selectRow wr wc s b = some v := by
    rcases hv with h | h | h | h
    · obtain ⟨b, _, hb⟩ := mem_getWithSpending s budgetId userId v h
      exact ⟨true, true, b, hb⟩
    · obtain ⟨b, _, hb⟩ := mem_findByUser s userId f v h
      exact ⟨true, false, b, hb⟩
    · obtain ⟨b, _, _, hb⟩ := mem_getCurrentMonth s today userId v h
      exact ⟨true, false, b, hb⟩
    · obtain ⟨b, _, _, hb, _⟩ := mem_getAlerts s today userId threshold v h
      exact ⟨false, false, b, hb⟩
  obtain ⟨wr, wc, b, hb⟩ := hsel
  obtain ⟨hbud, _, _, huse⟩ := selectRow_shape wr wc s b v hb
  rw [hbud] at hzero
  rw [huse, hzero, usageOf_zero]

/-- Witness of C3: with the scenario budget's amount set to 0 and 250.50 spent,
the alert query with threshold 0 returns the budget with usage 0. -/
theorem usage_zero_when_amount_zero_witness :
    ∃ v, v ∈ Budget.getAlerts zeroAmountStore 20240115 1 (some 0) ∧ v.spent_amount = 501 / 2
      ∧ v.usage_percentage = some 0 := by
  have hmem : viewOf false false zeroAmountStore { groceryBudget with amount := 0 } groceries
      ∈ Budget.getAlerts zeroAmountStore 20240115 1 (some 0) := by
    decide!
  exact ⟨_, hmem, by decide!,
    usage_zero_when_amount_zero.1 zeroAmountStore 20240115 0 1
      { isActive := none, period := none, categoryId := none } (some 0) _
      (Or.inr (Or.inr (Or.inr hmem))) (by decide!)⟩

theorem countedExpenses_create_income (s : Store) (d : ExpenseData)
    (hd : d.type = some TxType.income) (b : BudgetRow) :
    countedExpenses (Expense.create s d).1 b = countedExpenses s b := by
  simp [countedExpenses, Expense.create, List.filter_append, hd]

/-- C4: inserting a transaction of type income (any category, any date, any
owner) leaves the result of `Budget.getWithSpending` unchanged for every
budget: the same row with the same `spent_amount`, `remaining_amount`,
`usage_percentage` and `transaction_count`, or no row as before. -/
theorem income_leaves_budget_view (s : Store) (d : ExpenseData)
    (hd : d.type = some TxType.income) (budgetId userId : Nat) :
    Budget.getWithSpending (Expense.create s d).1 budgetId userId
      = Budget.getWithSpending s budgetId userId := by
  unfold Budget.getWithSpending
  have hb : (Expense.create s d).1.budgets = s.budgets := rfl
  rw [hb]
  congr 1
  apply List.filterMap_congr
  intro b _
  exact selectRow_congr true true s _ b rfl (countedExpenses_create_income s d hd b)

/-- Witness of C4: after the income of 1000.00 dated inside the window the
scenario budget still reports spent 250.50, remaining 249.50, usage 50.1 and
three transactions. -/
theorem income_leaves_budget_view_witness :
    (Budget.getWithSpending (Expense.create scenarioStore salary).1 1 1).map
        (fun v => (v.spent_amount, v.remaining_amount, v.usage_percentage, v.transaction_count))
      = some (501 / 2, some (499 / 2), some (501 / 10), some 3) := by
  rw [income_leaves_budget_view scenarioStore salary rfl 1 1]
  decide!

theorem havingUsage_eq (t : ℚ) (v : BudgetView) :
    havingUsage t v = decide (sqlLE (some t) v.usage_percentage) := by
  unfold havingUsage
  cases v.usage_percentage with
  | none => simp [sqlLE]
  | some x => simp [sqlLE]

theorem filterMap_filter_map {β γ : Type} (sel : β → Option γ) (h : γ → Bool) (key : γ → β)
    (cond : β → Bool) :
    ∀ l : List β, (∀ b ∈ l, ∃ v, sel b = some v ∧ key v = b ∧ h v = cond b) →
      ((l.filterMap sel).filter h).map key = l.filter cond := by
  intro l
  induction l with
  | nil => intro _; rfl
  | cons a l ih =>
    intro hall
    obtain ⟨v, hsel, hkey, hcond⟩ := hall a (List.mem_cons_self a l)
    have htail := ih fun b hb => hall b (List.mem_cons_of_mem a hb)
    rw [List.filterMap_cons_some hsel, List.filter_cons, List.filter_cons, hcond]
    by_cases hc : cond a = true
    · simp only [hc, if_true, List.map_cons, hkey, htail]
    · simpa [hc] using htail

/-- The derived usage percentage of a budget, from the counted transactions. -/
theorem selectRow_usage (wr wc : Bool) (s : Store) (hwf : s.WellFormed) (b : BudgetRow)
    (hb : b ∈ s.budgets) :
    ∃ v, selectRow wr wc s b = some v ∧ v.budget = b
      ∧ v.spent_amount = ((countedExpenses s b).map (·.amount)).sum
      ∧ v.usage_percentage = usageOf b.amount ((countedExpenses s b).map (·.amount)).sum := by
  obtain ⟨c, hc, hid⟩ := hwf.budget_fk b hb
  exact ⟨viewOf wr wc s b c, selectRow_of_category wr wc s b c hwf.category_pk hc hid,
    rfl, rfl, rfl⟩

/-- C5: in a store that satisfies the key constraints, the budgets that
`Budget.getAlerts(u, t)` returns are exactly (as a permutation, each once) the
budgets of `u` with `is_active` true, `start_date <= today <= end_date` and a
usage percentage that is a number at least `t`; each row reports that usage
percentage, and the rows are in descending order of it.  Without a threshold
the model method and the handler `getBudgetAlerts` use 80.  In the scenario the
budget of 500.00 with 250.50 spent (50.1%) is absent from the alerts at 80, and
after one more expense of 200.00 (450.50, 90.1%) it is present. -/
theorem getAlerts_spec :
    (∀ (s : Store), s.WellFormed → ∀ (today : Date) (u : Nat) (t : ℚ),
      ((Budget.getAlerts s today u (some t)).map (·.budget)).Perm
        (s.budgets.filter fun b =>
          decide (b.user_id = u ∧ b.is_active = true ∧ b.start_date ≤ today ∧ today ≤ b.end_date
            ∧ sqlLE (some t) (usageOf b.amount ((countedExpenses s b).map (·.amount)).sum)))
      ∧ (∀ v ∈ Budget.getAlerts s today u (some t),
          v.usage_percentage
            = usageOf v.budget.amount ((countedExpenses s v.budget).map (·.amount)).sum)
      ∧ (Budget.getAlerts s today u (some t)).Sorted usageDesc)
    ∧ (∀ (s : Store) (today : Date) (u : Nat),
        Budget.getAlerts s today u none = Budget.getAlerts s today u (some 80)
        ∧ getBudgetAlerts s today u none = getBudgetAlerts s today u (some 80))
    ∧ (groceryBudget ∉ (Budget.getAlerts scenarioStore 20240131 1 (some 80)).map (·.budget)
        ∧ (Budget.getAlerts (Expense.create scenarioStore bigShop).1 20240131 1 (some 80)).map
            (fun v => (v.budget, v.spent_amount, v.usage_percentage))
          = [(groceryBudget, 901 / 2, some (901 / 10))]) := by
  refine ⟨?_, fun s today u => ⟨rfl, rfl⟩, by decide!, by decide!⟩
  intro s hwf today u t
  refine ⟨?_, ?_, List.sorted_insertionSort usageDesc _⟩
  · unfold Budget.getAlerts
    refine (List.Perm.map _ (List.perm_insertionSort usageDesc _)).trans ?_
    have hrows := filterMap_filter_map (selectRow false false s) (havingUsage t) (·.budget)
      (fun b => decide (sqlLE (some t)
        (usageOf b.amount ((countedExpenses s b).map (·.amount)).sum)))
      (s.budgets.filter (Budget.currentWhere today u)) (by
        intro b hb
        obtain ⟨v, hv, hbud, _, huse⟩ :=
          selectRow_usage false false s hwf b (List.mem_of_mem_filter hb)
        exact ⟨v, hv, hbud, by rw [havingUsage_eq, huse]⟩)
    rw [Option.getD_some, hrows, List.filter_filter]
    apply List.Perm.of_eq
    apply List.filter_congr
    intro b _
    rw [Bool.eq_iff_iff]
    simp only [Budget.currentWhere, Bool.and_eq_true, decide_eq_true_eq, beq_iff_eq, ge_iff_le]
    tauto
  · intro v hv
    obtain ⟨b, hb, _, hsel, _⟩ := mem_getAlerts s today u (some t) v hv
    obtain ⟨w, hw, hbud, _, huse⟩ := selectRow_usage false false s hwf b hb
    rw [hsel] at hw
    cases hw
    rw [hbud, huse]

/-- Witness of C5 on `sharedStore`: on 2024-01-31 the alerts of user 1 at
threshold 20 are exactly the budget 7 (65.50 of 300.00 spent), and at
threshold 80 there are none. -/
theorem getAlerts_spec_witness :
    ((Budget.getAlerts sharedStore 20240131 1 (some 20)).map (·.budget)).Perm sharedStore.budgets
      ∧ (Budget.getAlerts sharedStore 20240131 1 (some 80)).map (·.budget) = [] := by
  have h := (getAlerts_spec.1 sharedStore sharedStore_wellFormed 20240131 1 20).1
  exact ⟨h.trans (List.Perm.of_eq (by decide!)), by decide!⟩

theorem returned_selectRow (s : Store) (v : BudgetView)
    (hv : ReturnedWithRemaining s v ∨ ReturnedByAlerts s v) :
    ∃ wr wc b, selectRow wr wc s b = some v := by
  rcases hv with (⟨i, u, h⟩ | ⟨u, f, h⟩ | ⟨d, u, h⟩) | ⟨d, u, t, h⟩
  · obtain ⟨b, _, hb⟩ := mem_getWithSpending s i u v h
    exact ⟨true, true, b, hb⟩
  · obtain ⟨b, _, hb⟩ := mem_findByUser s u f v h
    exact ⟨true, false, b, hb⟩
  · obtain ⟨b, _, _, hb⟩ := mem_getCurrentMonth s d u v h
    exact ⟨true, false, b, hb⟩
  · obtain ⟨b, _, _, hb, _⟩ := mem_getAlerts s d u t v h
    exact ⟨false, false, b, hb⟩

/-- C6, as stated, fails: in `alertStore` the scenario budget is returned both by
`Budget.getAlerts` and by `Budget.getWithSpending`; the latter reports
`remaining_amount` 49.50, the alert row has no `remaining_amount`. -/
theorem getAlerts_lacks_remaining :
    (Budget.getAlerts alertStore 20240131 1 (some 80)).map
        (fun v => (v.budget, v.remaining_amount)) = [(groceryBudget, none)]
    ∧ (Budget.getWithSpending alertStore 1 1).map
        (fun v => (v.budget, v.remaining_amount)) = some (groceryBudget, some (99 / 2)) := by
  decide!

/-- C6, amended: two rows that any two of the four views return for the same
budget in the same store report the same `spent_amount` and the same
`usage_percentage`; a row of `getWithSpending`, `findByUser` or
`getCurrentMonth` reports `remaining_amount = amount - spent_amount`, and a row
of `getAlerts` carries no `remaining_amount`. -/
theorem views_agree (s : Store) (v w : BudgetView)
    (hv : ReturnedWithRemaining s v ∨ ReturnedByAlerts s v)
    (hw : ReturnedWithRemaining s w ∨ ReturnedByAlerts s w)
    (hb : v.budget = w.budget) :
    v.spent_amount = w.spent_amount ∧ v.usage_percentage = w.usage_percentage
      ∧ (ReturnedWithRemaining s v →
          v.remaining_amount = some (v.budget.amount - v.spent_amount))
      ∧ (ReturnedByAlerts s v → v.remaining_amount = none) := by
  obtain ⟨wr, wc, b, hsv⟩ := returned_selectRow s v hv
  obtain ⟨wr', wc', b', hsw⟩ := returned_selectRow s w hw
  obtain ⟨hvb, hvs, _, hvu⟩ := selectRow_shape wr wc s b v hsv
  obtain ⟨hwb, hws, _, hwu⟩ := selectRow_shape wr' wc' s b' w hsw
  have hbb : b = b' := by rw [← hvb, ← hwb, hb]
  subst hbb
  have hspent : v.spent_amount = w.spent_amount := by rw [hvs, hws]
  refine ⟨hspent, by rw [hvu, hwu, hspent], ?_, ?_⟩
  · intro hr
    obtain ⟨wc2, b2, h2⟩ : ∃ wc2 b2, selectRow true wc2 s b2 = some v := by
      rcases hr with ⟨i, u, h⟩ | ⟨u, f, h⟩ | ⟨d, u, h⟩
      · obtain ⟨b2, _, h2⟩ := mem_getWithSpending s i u v h
        exact ⟨true, b2, h2⟩
      · obtain ⟨b2, _, h2⟩ := mem_findByUser s u f v h
        exact ⟨false, b2, h2⟩
      · obtain ⟨b2, _, _, h2⟩ := mem_getCurrentMonth s d u v h
        exact ⟨false, b2, h2⟩
    obtain ⟨hb2, _, hrem, _⟩ := selectRow_shape true wc2 s b2 v h2
    rw [hb2]
    simpa using hrem
  · rintro ⟨d, u, t, h⟩
    obtain ⟨b2, _, _, h2, _⟩ := mem_getAlerts s d u t v h
    obtain ⟨_, _, hrem, _⟩ := selectRow_shape false false s b2 v h2
    simpa using hrem

/-- Witness of the amended C6: the alert row and the `getWithSpending` row of the
scenario budget in `alertStore` both report 450.50 spent and 90.1% used. -/
theorem views_agree_witness :
    ∃ v w, v ∈ Budget.getAlerts alertStore 20240131 1 (some 80)
      ∧ Budget.getWithSpending alertStore 1 1 = some w
      ∧ v.spent_amount = 901 / 2 ∧ w.spent_amount = 901 / 2
      ∧ v.usage_percentage = w.usage_percentage ∧ v.remaining_amount = none := by
  have hv : viewOf false false alertStore groceryBudget groceries
      ∈ Budget.getAlerts alertStore 20240131 1 (some 80) := by decide!
  have hw : Budget.getWithSpending alertStore 1 1
      = some (viewOf true true alertStore groceryBudget groceries) := by decide!
  have h := views_agree alertStore _ _ (Or.inr ⟨20240131, 1, some 80, hv⟩)
    (Or.inl (Or.inl ⟨1, 1, hw⟩)) rfl
  exact ⟨_, _, hv, hw, by decide!, h.1 ▸ (by decide!), h.2.1, h.2.2.2 ⟨20240131, 1, some 80, hv⟩⟩

/-! ## Lemmas on the budget writes -/

theorem budget_eq_of_id_eq (s : Store) (hpk : (s.budgets.map (·.id)).Nodup) (x y : BudgetRow)
    (hx : x ∈ s.budgets) (hy : y ∈ s.budgets) (hid : x.id = y.id) : x = y :=
  List.inj_on_of_nodup_map hpk hx hy hid

theorem findById_of_category (s : Store) (hwf : s.WellFormed) (b : BudgetRow)
    (hb : b ∈ s.budgets) (c : CategoryRow) (hc : c ∈ s.categories) (hid : c.id = b.category_id) :
    Budget.findById s b.id b.user_id = some (b, c) := by
  have hcat : s.categories.filter (fun c => b.category_id == c.id) = [c] := by
    apply filter_eq_singleton_of_nodup (·.id) _ s.categories c hwf.category_pk hc
    · simp [hid]
    · intro x _ hx
      simp only [beq_iff_eq] at hx
      rw [← hx, hid]
  unfold Budget.findById
  rw [budgets_filter_id s hwf.budget_pk b hb]
  simp [hcat]

/-- With `id` a key, `Budget.update` on a budget of its owner rewrites that one
row and matches it. -/
theorem update_of_mem (s : Store) (hpk : (s.budgets.map (·.id)).Nodup) (b : BudgetRow)
    (hb : b ∈ s.budgets) (now : Nat) (u : BudgetUpdates) :
    Budget.update s now b.id b.user_id u
      = (s.replaceBudget b
          { b with amount := u.amount, period := u.period, start_date := u.startDate,
                   end_date := u.endDate, is_active := u.isActive, updated_at := now }, true) := by
  unfold Budget.update Store.replaceBudget
  have hany : s.budgets.any (fun x => x.id == b.id && x.user_id == b.user_id) = true :=
    List.any_eq_true.mpr ⟨b, hb, by simp⟩
  rw [hany]
  congr 2
  apply List.map_congr_left
  intro x hx
  by_cases hxb : x = b
  · subst hxb
    simp
  · have hne : ¬ x.id = b.id := fun h => hxb (budget_eq_of_id_eq s hpk x b hx hb h)
    simp [hxb, hne]

/-- Rewriting the non-key columns of one budget row keeps the key constraints. -/
theorem wellFormed_replaceBudget (s : Store) (hwf : s.WellFormed) (b b' : BudgetRow)
    (hid : b'.id = b.id) (hcat : b'.category_id = b.category_id) :
    (s.replaceBudget b b').WellFormed := by
  have hsame : ∀ x : BudgetRow, (if x = b then b' else x).id = x.id
      ∧ (if x = b then b' else x).category_id = x.category_id := by
    intro x
    by_cases hx : x = b
    · subst hx
      simp [hid, hcat]
    · simp [hx]
  refine ⟨?_, hwf.category_pk, ?_⟩
  · have hmap : (s.budgets.map fun x => if x = b then b' else x).map (·.id)
        = s.budgets.map (·.id) := by
      rw [List.map_map]
      apply List.map_congr_left
      intro x _
      exact (hsame x).1
    show ((s.budgets.map fun x => if x = b then b' else x).map (·.id)).Nodup
    rw [hmap]
    exact hwf.budget_pk
  · intro y hy
    obtain ⟨x, hx, rfl⟩ := List.mem_map.mp hy
    obtain ⟨c, hc, hcid⟩ := hwf.budget_fk x hx
    exact ⟨c, hc, by rw [hcid, (hsame x).2]⟩

theorem mem_replaceBudget (s : Store) (b b' : BudgetRow) (hb : b ∈ s.budgets) :
    b' ∈ (s.replaceBudget b b').budgets :=
  List.mem_map.mpr ⟨b, hb, by simp⟩

/-- One toggle of budget `b` by its owner at time `now`, in a store that
satisfies the key constraints. -/
theorem toggleBudgetStatus_once (s : Store) (hwf : s.WellFormed) (b : BudgetRow)
    (hb : b ∈ s.budgets) (now : Nat) (c : CategoryRow) (hc : c ∈ s.categories)
    (hcid : c.id = b.category_id) :
    toggleBudgetStatus s now b.user_id b.id
      = (s.replaceBudget b (toggledRow b now),
         Reply.json 200 true
          (some (if !b.is_active then "Budget activated successfully"
                 else "Budget deactivated successfully"))
          (some (viewOf true true (s.replaceBudget b (toggledRow b now)) (toggledRow b now) c))) := by
  have hwf1 := wellFormed_replaceBudget s hwf b (toggledRow b now) rfl rfl
  have hmem1 := mem_replaceBudget s b (toggledRow b now) hb
  have hget := getWithSpending_of_category _ hwf1 (toggledRow b now) hmem1 c hc hcid
  have hupd : Budget.update s now b.id b.user_id
      { amount := b.amount, period := b.period, startDate := b.start_date,
        endDate := b.end_date, isActive := !b.is_active }
      = (s.replaceBudget b (toggledRow b now), true) :=
    update_of_mem s hwf.budget_pk b hb now _
  unfold toggleBudgetStatus
  rw [findById_of_category s hwf b hb c hc hcid]
  simp only [hupd, Bool.not_true, Bool.false_eq_true, if_false]
  have hget' : Budget.getWithSpending (s.replaceBudget b (toggledRow b now)) b.id b.user_id
      = some (viewOf true true (s.replaceBudget b (toggledRow b now)) (toggledRow b now) c) := hget
  rw [hget']
  rfl

theorem toggledRow_toggledRow (b : BudgetRow) (now1 now2 : Nat) :
    toggledRow (toggledRow b now1) now2 = { b with updated_at := now2 } := by
  simp [toggledRow]

/-- C7: in a store that satisfies the key constraints, two successive calls of
`toggleBudgetStatus` on a budget `b` by its owner both succeed (status 200);
the first stores and returns `b` with `is_active` negated, the second stores
and returns `b` with its original `is_active`, and with `amount`, `period`,
`start_date`, `end_date` and `category_id` as they were (the row differs from the
original only in `updated_at`). -/
theorem toggle_twice_restores (s : Store) (hwf : s.WellFormed) (b : BudgetRow)
    (hb : b ∈ s.budgets) (now1 now2 : Nat) :
    ∃ (s1 s2 : Store) (v1 v2 : BudgetView) (m1 m2 : String),
      toggleBudgetStatus s now1 b.user_id b.id = (s1, Reply.json 200 true (some m1) (some v1))
      ∧ v1.budget ∈ s1.budgets
      ∧ v1.budget = { b with is_active := !b.is_active, updated_at := now1 }
      ∧ toggleBudgetStatus s1 now2 b.user_id b.id = (s2, Reply.json 200 true (some m2) (some v2))
      ∧ v2.budget ∈ s2.budgets
      ∧ v2.budget = { b with updated_at := now2 }
      ∧ v2.budget.is_active = b.is_active ∧ v2.budget.amount = b.amount
      ∧ v2.budget.period = b.period ∧ v2.budget.start_date = b.start_date
      ∧ v2.budget.end_date = b.end_date ∧ v2.budget.category_id = b.category_id := by
  obtain ⟨c, hc, hcid⟩ := hwf.budget_fk b hb
  have hwf1 := wellFormed_replaceBudget s hwf b (toggledRow b now1) rfl rfl
  have hmem1 := mem_replaceBudget s b (toggledRow b now1) hb
  have h1 := toggleBudgetStatus_once s hwf b hb now1 c hc hcid
  have h2 := toggleBudgetStatus_once (s.replaceBudget b (toggledRow b now1)) hwf1
    (toggledRow b now1) hmem1 now2 c hc hcid
  have hmem2 := mem_replaceBudget (s.replaceBudget b (toggledRow b now1)) (toggledRow b now1)
    (toggledRow (toggledRow b now1) now2) hmem1
  have hrow := toggledRow_toggledRow b now1 now2
  refine ⟨_, _, _, _, _, _, h1, hmem1, rfl, h2, hmem2, hrow, ?_, ?_, ?_, ?_, ?_, ?_⟩ <;>
    simp [viewOf, toggledRow]

/-- Witness of C7 on the scenario store: the active budget of 500.00 is
returned inactive by the first toggle, and active again with amount 500.00 and
its window by the second. -/
theorem toggle_twice_restores_witness :
    ∃ (s1 s2 : Store) (v1 v2 : BudgetView) (m1 m2 : String),
      toggleBudgetStatus scenarioStore 5 1 1 = (s1, Reply.json 200 true (some m1) (some v1))
      ∧ v1.budget.is_active = false
      ∧ toggleBudgetStatus s1 6 1 1 = (s2, Reply.json 200 true (some m2) (some v2))
      ∧ v2.budget.is_active = true ∧ v2.budget.amount = 500
      ∧ v2.budget.start_date = 20240101 ∧ v2.budget.end_date = 20240131 := by
  obtain ⟨s1, s2, v1, v2, m1, m2, h1, _, hv1, h2, _, _, ha, hamt, _, hs, he, _⟩ :=
    toggle_twice_restores scenarioStore scenarioStore_wellFormed groceryBudget
      (List.mem_singleton.mpr rfl) 5 6
  exact ⟨s1, s2, v1, v2, m1, m2, h1, by rw [hv1]; rfl, h2, ha, hamt, hs, he⟩


theorem existsForCategoryAndPeriod_of_mem (s : Store) (b : BudgetRow) (hb : b ∈ s.budgets) :
    Budget.existsForCategoryAndPeriod s b.category_id b.user_id b.period b.start_date = true := by
  unfold Budget.existsForCategoryAndPeriod
  rw [decide_eq_true_eq]
  apply List.length_pos_of_mem 
  exact List.mem_filter.mpr ⟨hb, by simp⟩

theorem existsForCategoryAndPeriod_false (s : Store) (categoryId userId : Nat) (period : Period)
    (startDate : Date)
    (h : Budget.existsForCategoryAndPeriod s categoryId userId period startDate = false) :
    (userId, categoryId, period, startDate) ∉ s.budgets.map budgetKey := by
  intro hmem
  obtain ⟨b, hb, hkey⟩ := List.mem_map.mp hmem
  simp only [budgetKey, Prod.mk.injEq] at hkey
  obtain ⟨hu, hc, hp, hs⟩ := hkey
  have htrue := existsForCategoryAndPeriod_of_mem s b hb
  rw [hu, hc, hp, hs, h] at htrue
  exact Bool.false_ne_true htrue

theorem canAccess_false_of (s : Store) (categoryId userId : Nat)
    (h : ∀ c ∈ s.categories, c.id = categoryId → c.is_default = false ∧ c.user_id ≠ some userId) :
    Category.canAccess s categoryId userId = false := by
  unfold Category.canAccess
  have hnil : s.categories.filter
      (fun c => c.id == categoryId && (c.user_id == some userId || c.is_default)) = [] := by
    rw [List.filter_eq_nil_iff]
    intro c hc hp
    simp only [Bool.and_eq_true, beq_iff_eq, Bool.or_eq_true] at hp
    obtain ⟨hd, hu⟩ := h c hc hp.1
    rcases hp.2 with h1 | h1
    · exact hu h1
    · rw [hd] at h1
      exact Bool.false_ne_true h1
  rw [hnil]
  rfl

/-- Every budget that `createBudget` stores is on a category its owner can
access when that holds of the budgets stored before: the handler inserts only
after `Category.canAccess` has answered true, and it writes no category. -/
theorem createBudget_keeps_accessible (s : Store) (now u : Nat) (body : CreateBudgetBody)
    (h : ∀ b ∈ s.budgets, Category.canAccess s b.category_id b.user_id = true) :
    ∀ b ∈ (createBudget s now u body).1.budgets,
      Category.canAccess (createBudget s now u body).1 b.category_id b.user_id = true := by
  unfold createBudget
  by_cases hacc : Category.canAccess s body.categoryId u = true
  · cases hex : Budget.existsForCategoryAndPeriod s body.categoryId u
        (body.period.getD Period.monthly) body.startDate with
    | true => simpa [hacc, hex] using h
    | false =>
      simp only [hacc, hex, Bool.not_true, Bool.false_eq_true, if_false]
      intro b hb
      have hb' : b ∈ s.budgets ++ [_] := hb
      rcases List.mem_append.mp hb' with hold | hnew
      · exact h b hold
      · rw [List.mem_singleton] at hnew
        subst hnew
        exact hacc
  · simpa [hacc] using h

/-- C8: when the store holds a budget `b` of user `u` whose category `u` can
access, a `createBudget` request by `u` with `b`'s category, period (an omitted
period counting as monthly) and start date is answered 400 'Budget already
exists for this category and period' and the store is unchanged, whatever the
amount and the end date of the request are. -/
theorem createBudget_duplicate (s : Store) (now u : Nat) (b : BudgetRow) (hb : b ∈ s.budgets)
    (hu : b.user_id = u) (hacc : Category.canAccess s b.category_id u = true)
    (body : CreateBudgetBody) (hc : body.categoryId = b.category_id)
    (hp : body.period.getD Period.monthly = b.period) (hs : body.startDate = b.start_date) :
    createBudget s now u body
      = (s, Reply.json 400 false (some "Budget already exists for this category and period")
          none) := by
  subst hu
  have hex := existsForCategoryAndPeriod_of_mem s b hb
  unfold createBudget
  simp only [hc, hp, hs, hacc, hex, Bool.not_true, Bool.false_eq_true, if_false, if_true]

/-- Witness of C8: in the scenario store a request for "Groceries" with no
period, the start date 2024-01-01, the amount 42.00 and the end date 2024-12-31
(the existing budget ends 2024-01-31) is rejected as a duplicate. -/
theorem createBudget_duplicate_witness :
    createBudget scenarioStore 9 1 sameStartBody
      = (scenarioStore,
          Reply.json 400 false (some "Budget already exists for this category and period")
            none) :=
  createBudget_duplicate scenarioStore 9 1 groceryBudget (List.mem_singleton.mpr rfl) rfl
    (by decide) sameStartBody rfl rfl rfl

/-- C9: when the `categoryId` of a `createBudget` request by `u` names no
category that is a default or owned by `u` (none at all included), the answer
is 400 'Invalid category' and the store is unchanged; the answer is not the
duplicate-budget message, whatever budgets the store holds. -/
theorem createBudget_invalid_category (s : Store) (now u : Nat) (body : CreateBudgetBody)
    (h : ∀ c ∈ s.categories, c.id = body.categoryId →
      c.is_default = false ∧ c.user_id ≠ some u) :
    createBudget s now u body = (s, Reply.json 400 false (some "Invalid category") none)
      ∧ (createBudget s now u body).2
          ≠ Reply.json 400 false (some "Budget already exists for this category and period")
              none := by
  have hacc := canAccess_false_of s body.categoryId u h
  have hreply : createBudget s now u body
      = (s, Reply.json 400 false (some "Invalid category") none) := by
    unfold createBudget
    simp only [hacc, Bool.not_false, if_true]
  refine ⟨hreply, ?_⟩
  rw [hreply]
  intro hsame
  simp only [Reply.json.injEq, Option.some.injEq] at hsame
  exact absurd hsame.2.2.1 (by decide)

/-- Witness of C9: user 2 asks for a budget on "Groceries", a category of user
1, with the key of the existing budget: 'Invalid category', 400. -/
theorem createBudget_invalid_category_witness :
    createBudget scenarioStore 9 2 sameStartBody
      = (scenarioStore, Reply.json 400 false (some "Invalid category") none) :=
  (createBudget_invalid_category scenarioStore 9 2 sameStartBody (by decide)).1


theorem findById_mem (s : Store) (id u : Nat) (r : BudgetRow × CategoryRow)
    (h : Budget.findById s id u = some r) :
    r.1 ∈ s.budgets ∧ r.1.id = id ∧ r.1.user_id = u := by
  unfold Budget.findById at h
  have hmem := List.mem_of_mem_head? (Option.mem_def.mpr h)
  obtain ⟨b, hb, hr⟩ := List.mem_flatMap.mp hmem
  obtain ⟨c, _, rfl⟩ := List.mem_map.mp hr
  obtain ⟨hbs, hcond⟩ := List.mem_filter.mp hb
  simp only [Bool.and_eq_true, beq_iff_eq] at hcond
  exact ⟨hbs, hcond.1, hcond.2⟩

/-- Method `Budget.update` keeps the unique key when `id` is a key and the new key of
the updated row is the key of no other row. -/
theorem update_uniqueBudgetKey (s : Store) (now id u : Nat) (upd : BudgetUpdates)
    (hpk : (s.budgets.map (·.id)).Nodup) (huniq : UniqueBudgetKey s)
    (hfree : ∀ b ∈ s.budgets, b.id = id → b.user_id = u →
      ∀ x ∈ s.budgets, x.id ≠ id → budgetKey x ≠ (u, b.category_id, upd.period, upd.startDate)) :
    UniqueBudgetKey (Budget.update s now id u upd).1 := by
  unfold UniqueBudgetKey Budget.update
  show ((s.budgets.map _).map budgetKey).Nodup
  rw [List.map_map]
  apply List.Nodup.map_on _ (List.Nodup.of_map _ hpk)
  intro x hx y hy hxy
  simp only [Function.comp] at hxy
  by_cases hmx : (x.id == id && x.user_id == u) = true
  · by_cases hmy : (y.id == id && y.user_id == u) = true
    · simp only [Bool.and_eq_true, beq_iff_eq] at hmx hmy
      exact budget_eq_of_id_eq s hpk x y hx hy (hmx.1.trans hmy.1.symm)
    · have hmx' := hmx
      simp only [Bool.and_eq_true, beq_iff_eq] at hmx'
      have hyid : y.id ≠ id := by
        intro hyid
        have hyx := budget_eq_of_id_eq s hpk y x hy hx (hyid.trans hmx'.1.symm)
        rw [hyx] at hmy
        exact hmy hmx
      rw [if_pos hmx, if_neg hmy] at hxy
      exact absurd (by rw [← hxy, ← hmx'.2]; rfl) (hfree x hx hmx'.1 hmx'.2 y hy hyid)
  · by_cases hmy : (y.id == id && y.user_id == u) = true
    · have hmy' := hmy
      simp only [Bool.and_eq_true, beq_iff_eq] at hmy'
      have hxid : x.id ≠ id := by
        intro hxid
        have hxy' := budget_eq_of_id_eq s hpk x y hx hy (hxid.trans hmy'.1.symm)
        rw [hxy'] at hmx
        exact hmx hmy
      rw [if_neg hmx, if_pos hmy] at hxy
      exact absurd (by rw [hxy, ← hmy'.2]; rfl) (hfree y hy hmy'.1 hmy'.2 x hx hxid)
    · rw [if_neg hmx, if_neg hmy] at hxy
      exact List.inj_on_of_nodup_map huniq hx hy hxy

/-- C10, as stated, fails for `updateBudget`: `twoMonthsStore` satisfies the key
constraints and the uniqueness predicate (one budget starting 2024-01-01, one
starting 2024-02-01, same user, category and period); moving the second budget
to start on 2024-01-01 is answered 200, and afterwards two budgets share one
`(user_id, category_id, period, start_date)`. -/
theorem updateBudget_breaks_uniqueBudgetKey :
    (twoMonthsStore.budgets.map (·.id)).Nodup ∧ UniqueBudgetKey twoMonthsStore
      ∧ (∃ v, (updateBudget twoMonthsStore 9 1 2 toJanuary).2
          = Reply.json 200 true (some "Budget updated successfully") (some v))
      ∧ ¬ UniqueBudgetKey (updateBudget twoMonthsStore 9 1 2 toJanuary).1
      ∧ (updateBudget twoMonthsStore 9 1 2 toJanuary).1.budgets.map budgetKey
          = [(1, 11, Period.monthly, 20240101), (1, 11, Period.monthly, 20240101)] := by
  refine ⟨by decide, by decide, ?_, by decide!, by decide!⟩
  exact ⟨viewOf true true (updateBudget twoMonthsStore 9 1 2 toJanuary).1
    { groceryBudget with id := 2, amount := 400, start_date := 20240101, end_date := 20240131,
                         updated_at := 9 } groceries, by decide!⟩

/-- C10, amended: from a state in which no two budgets share
`(user_id, category_id, period, start_date)`, `createBudget` and `deleteBudget`
lead to such a state; so does `toggleBudgetStatus` when `id` is a key of the
budgets; and so does `updateBudget` when `id` is a key and no other budget has
the key that the request gives the updated budget (its user and category with
the new period and start date) - `updateBudget` itself makes no such check. -/
theorem uniqueBudgetKey_preserved :
    (∀ (s : Store) (now u : Nat) (body : CreateBudgetBody),
      UniqueBudgetKey s → UniqueBudgetKey (createBudget s now u body).1)
    ∧ (∀ (s : Store) (u id : Nat), UniqueBudgetKey s → UniqueBudgetKey (deleteBudget s u id).1)
    ∧ (∀ (s : Store) (now u id : Nat), (s.budgets.map (·.id)).Nodup →
        UniqueBudgetKey s → UniqueBudgetKey (toggleBudgetStatus s now u id).1)
    ∧ (∀ (s : Store) (now u id : Nat) (body : BudgetUpdates), (s.budgets.map (·.id)).Nodup →
        UniqueBudgetKey s →
        (∀ b ∈ s.budgets, b.id = id → b.user_id = u → ∀ x ∈ s.budgets, x.id ≠ id →
          budgetKey x ≠ (u, b.category_id, body.period, body.startDate)) →
        UniqueBudgetKey (updateBudget s now u id body).1) := by
  refine ⟨?_, ?_, ?_, ?_⟩
  · intro s now u body huniq
    unfold createBudget
    by_cases hacc : Category.canAccess s body.categoryId u = true
    · cases hex : Budget.existsForCategoryAndPeriod s body.categoryId u
          (body.period.getD Period.monthly) body.startDate with
      | true => simpa [hacc, hex] using huniq
      | false =>
        have hfresh := existsForCategoryAndPeriod_false s _ _ _ _ hex
        simp only [hacc, hex, Bool.not_true, Bool.false_eq_true, if_false]
        unfold UniqueBudgetKey Budget.create
        show ((s.budgets ++ [_]).map budgetKey).Nodup
        rw [List.map_append, List.map_singleton]
        apply List.Nodup.append huniq (List.nodup_singleton _)
        intro k hk hk'
        rw [List.mem_singleton] at hk'
        subst hk'
        exact hfresh hk
    · simpa [hacc] using huniq
  · intro s u id huniq
    have hsub : UniqueBudgetKey (Budget.delete s id u).1 :=
      List.Nodup.sublist (List.Sublist.map budgetKey (List.filter_sublist s.budgets)) huniq
    unfold deleteBudget
    by_cases hdel : (Budget.delete s id u).2 = true
    · simpa [hdel] using hsub
    · simpa [hdel] using hsub
  · intro s now u id hpk huniq
    unfold toggleBudgetStatus
    cases hfind : Budget.findById s id u with
    | none => exact huniq
    | some r =>
      obtain ⟨budget, c⟩ := r
      obtain ⟨hmem, hid, hu⟩ := findById_mem s id u (budget, c) hfind
      have hupd := update_uniqueBudgetKey s now id u
        { amount := budget.amount, period := budget.period, startDate := budget.start_date,
          endDate := budget.end_date, isActive := !budget.is_active } hpk huniq (by
          intro b hb hbid hbu x hx hxid hkey
          have hbb : b = budget := budget_eq_of_id_eq s hpk b budget hb hmem (hbid.trans hid.symm)
          subst hbb
          have hkey' : budgetKey x = budgetKey b := by rw [hkey, ← hbu]; rfl
          have hxb : x = b := List.inj_on_of_nodup_map huniq hx hb hkey'
          exact hxid (by rw [hxb, hbid]))
      simp only
      split
      · exact hupd
      · split <;> exact hupd
  · intro s now u id body hpk huniq hfree
    unfold updateBudget
    cases hfind : Budget.findById s id u with
    | none => exact huniq
    | some r =>
      have hupd := update_uniqueBudgetKey s now id u body hpk huniq hfree
      simp only
      split <;> exact hupd

/-- Witness of the amended C10: moving the February budget of `twoMonthsStore` to
March (a start date no other budget has) keeps the budgets' keys distinct. -/
theorem uniqueBudgetKey_preserved_witness :
    UniqueBudgetKey (updateBudget twoMonthsStore 9 1 2
      { toJanuary with startDate := 20240301, endDate := 20240331 }).1 :=
  uniqueBudgetKey_preserved.2.2.2 twoMonthsStore 9 1 2
    { toJanuary with startDate := 20240301, endDate := 20240331 } (by decide) (by decide)
    (by decide)


/-! ## Lemmas on the category store -/

theorem categories_filter_id (s : Store) (hpk : (s.categories.map (·.id)).Nodup)
    (c : CategoryRow) (hc : c ∈ s.categories) (p : CategoryRow → Bool) (hp : p c = true) :
    s.categories.filter (fun x => x.id == c.id && p x) = [c] := by
  apply filter_eq_singleton_of_nodup (·.id) _ s.categories c hpk hc
  · simp [hp]
  · intro x _ hx
    simp only [Bool.and_eq_true, beq_iff_eq] at hx
    exact hx.1

theorem category_eq_of_id_eq (s : Store) (hpk : (s.categories.map (·.id)).Nodup)
    (x y : CategoryRow) (hx : x ∈ s.categories) (hy : y ∈ s.categories) (hid : x.id = y.id) :
    x = y :=
  List.inj_on_of_nodup_map hpk hx hy hid

theorem findById_of_visible (s : Store) (hpk : (s.categories.map (·.id)).Nodup)
    (c : CategoryRow) (hc : c ∈ s.categories) (u : Nat)
    (hvis : c.user_id = some u ∨ c.is_default = true) :
    Category.findById s c.id (some u) = some c := by
  unfold Category.findById
  rw [categories_filter_id s hpk c hc]
  · rfl
  · by_cases hu : u = 0
    · simp [hu]
    · rcases hvis with h | h <;> simp [hu, h]

theorem any_ownWhere_iff (s : Store) (categoryId userId : Nat) :
    s.categories.any (Category.ownWhere categoryId userId) = true
      ↔ ∃ row ∈ s.categories,
          row.id = categoryId ∧ row.user_id = some userId ∧ row.is_default = false := by
  rw [List.any_eq_true]
  constructor
  · rintro ⟨row, hrow, hw⟩
    simp only [Category.ownWhere, Bool.and_eq_true, beq_iff_eq] at hw
    exact ⟨row, hrow, hw.1.1, hw.1.2, hw.2⟩
  · rintro ⟨row, hrow, h1, h2, h3⟩
    exact ⟨row, hrow, by simp [Category.ownWhere, h1, h2, h3]⟩

theorem canAccess_iff_exists (s : Store) (c u : Nat) :
    Category.canAccess s c u = true
      ↔ ∃ row ∈ s.categories, row.id = c ∧ (row.is_default = true ∨ row.user_id = some u) := by
  unfold Category.canAccess
  rw [decide_eq_true_eq, gt_iff_lt, List.length_pos_iff_exists_mem]
  constructor
  · rintro ⟨row, hrow⟩
    obtain ⟨hmem, hp⟩ := List.mem_filter.mp hrow
    simp only [Bool.and_eq_true, beq_iff_eq, Bool.or_eq_true] at hp
    exact ⟨row, hmem, hp.1, hp.2.symm⟩
  · rintro ⟨row, hmem, hid, hvis⟩
    refine ⟨row, List.mem_filter.mpr ⟨hmem, ?_⟩⟩
    simp only [Bool.and_eq_true, beq_iff_eq, Bool.or_eq_true]
    exact ⟨hid, hvis.symm⟩

/-- C15: `Category.canAccess(c, u)` is true iff the store holds a category with
id `c` that is a default or is owned by `u`; and for a user id `u` (ids start at
1) `Category.findById(c, u)` returns a row iff `Category.canAccess(c, u)` is
true, the row returned being such a category. -/
theorem canAccess_iff_findById (s : Store) (c u : Nat) :
    (Category.canAccess s c u = true
      ↔ ∃ row ∈ s.categories, row.id = c ∧ (row.is_default = true ∨ row.user_id = some u))
    ∧ (0 < u →
        ((Category.findById s c (some u)).isSome = true ↔ Category.canAccess s c u = true)
        ∧ ∀ row, Category.findById s c (some u) = some row →
            row ∈ s.categories ∧ row.id = c
              ∧ (row.is_default = true ∨ row.user_id = some u)) := by
  refine ⟨canAccess_iff_exists s c u, fun hu => ?_⟩
  have hne : u ≠ 0 := Nat.pos_iff_ne_zero.mp hu
  have hfilter : (s.categories.filter fun x =>
      x.id == c && (match some u with
        | some u => if u = 0 then true else (x.user_id == some u || x.is_default)
        | none => true))
      = s.categories.filter
          (fun x => x.id == c && (x.user_id == some u || x.is_default)) := by
    apply List.filter_congr
    intro x _
    simp [hne]
  constructor
  · unfold Category.findById Category.canAccess
    rw [hfilter]
    cases s.categories.filter
      (fun x => x.id == c && (x.user_id == some u || x.is_default)) with
    | nil => simp
    | cons a l => simp
  · intro row hrow
    unfold Category.findById at hrow
    rw [hfilter] at hrow
    have hmem := List.mem_of_mem_head? (Option.mem_def.mpr hrow)
    obtain ⟨hin, hp⟩ := List.mem_filter.mp hmem
    simp only [Bool.and_eq_true, beq_iff_eq, Bool.or_eq_true] at hp
    exact ⟨hin, hp.1, hp.2.symm⟩

/-- Witness of C15 on the scenario store: user 1 can access "Groceries" and
`findById` returns it; user 2 cannot and gets nothing. -/
theorem canAccess_iff_findById_witness :
    Category.findById scenarioStore 11 (some 1) = some groceries
      ∧ Category.canAccess scenarioStore 11 1 = true
      ∧ Category.findById scenarioStore 11 (some 2) = none
      ∧ Category.canAccess scenarioStore 11 2 = false := by
  have h1 := ((canAccess_iff_findById scenarioStore 11 1).2 (by decide)).1
  have h2 := ((canAccess_iff_findById scenarioStore 11 2).2 (by decide)).1
  refine ⟨by decide, h1.mp (by decide), by decide, ?_⟩
  cases hacc : Category.canAccess scenarioStore 11 2 with
  | false => rfl
  | true => exact absurd (h2.mpr hacc) (by decide)

/-- C16: `Category.update(c, u, fields)` returns true iff the store holds a
category with id `c` that is owned by `u` and is not a default; when it returns
false the store is unchanged. -/
theorem update_category_iff (s : Store) (now c u : Nat) (f : CategoryUpdates) :
    ((Category.update s now c u f).2 = true
      ↔ ∃ row ∈ s.categories, row.id = c ∧ row.user_id = some u ∧ row.is_default = false)
    ∧ ((Category.update s now c u f).2 = false → (Category.update s now c u f).1 = s) := by
  refine ⟨any_ownWhere_iff s c u, ?_⟩
  intro hfalse
  have hnone : ∀ x ∈ s.categories, Category.ownWhere c u x = false := by
    intro x hx
    cases hw : Category.ownWhere c u x with
    | false => rfl
    | true =>
      have hany : s.categories.any (Category.ownWhere c u) = true :=
        List.any_eq_true.mpr ⟨x, hx, hw⟩
      have : (Category.update s now c u f).2 = true := hany
      rw [hfalse] at this
      exact absurd this (by decide)
  have hmap : (s.categories.map fun x =>
      if Category.ownWhere c u x then
        { x with name := f.name, description := f.description, color := f.color,
                 icon := f.icon, updated_at := now }
      else x) = s.categories := by
    conv_rhs => rw [← List.map_id s.categories]
    apply List.map_congr_left
    intro x hx
    simp [hnone x hx]
  show ({ s with categories := _ } : Store) = s
  rw [hmap]

/-- Witness of C16 on `sharedStore` and the scenario store: an update of the
default category "Food" by user 1 returns false and changes nothing; an update
of "Groceries" by its owner returns true. -/
theorem update_category_iff_witness :
    (Category.update sharedStore 9 1 1 renameFields).1 = sharedStore
      ∧ (Category.update scenarioStore 9 11 1 renameFields).2 = true := by
  exact ⟨(update_category_iff sharedStore 9 1 1 renameFields).2 (by decide),
    (update_category_iff scenarioStore 9 11 1 renameFields).1.mpr
      ⟨groceries, List.mem_singleton.mpr rfl, rfl, rfl, rfl⟩⟩

theorem delete_throws_of_expense (s : Store) (categoryId u : Nat) (t : ExpenseRow)
    (ht : t ∈ s.expenses) (hcat : t.category_id = categoryId) (hu : t.user_id = u) :
    Category.delete s categoryId u = DeleteResult.threw DeleteError.hasExpenses := by
  have hpos : (s.expenses.filter
      (fun e => e.category_id == categoryId && e.user_id == u)).length > 0 :=
    List.length_pos_of_mem (List.mem_filter.mpr ⟨ht, by simp [hcat, hu]⟩)
  unfold Category.delete
  rw [if_pos hpos]

/-- C11: for a category `c` that is owned by `u`, is not a default and is
referenced by a transaction of `u`, `Category.delete(c, u)` throws 'Cannot
delete category with existing expenses', the handler `deleteCategory` answers
400 with that message and leaves the store as it was, and
`Category.findById(c, u)` afterwards still returns `c`. -/
theorem delete_category_with_expenses (s : Store) (hpk : (s.categories.map (·.id)).Nodup)
    (c : CategoryRow) (hc : c ∈ s.categories) (u : Nat) (howner : c.user_id = some u)
    (hcustom : c.is_default = false) (t : ExpenseRow) (ht : t ∈ s.expenses)
    (hcat : t.category_id = c.id) (hu : t.user_id = u) :
    Category.delete s c.id u = DeleteResult.threw DeleteError.hasExpenses
      ∧ deleteCategory s u c.id
          = (s, Reply.json 400 false (some "Cannot delete category with existing expenses") none)
      ∧ Category.findById (deleteCategory s u c.id).1 c.id (some u) = some c := by
  have hthrow := delete_throws_of_expense s c.id u t ht hcat hu
  have hfind := findById_of_visible s hpk c hc u (Or.inl howner)
  have hreply : deleteCategory s u c.id
      = (s, Reply.json 400 false (some "Cannot delete category with existing expenses")
          none) := by
    unfold deleteCategory
    rw [hfind]
    simp only [hcustom, Bool.false_eq_true, if_false, hthrow]
  refine ⟨hthrow, hreply, ?_⟩
  rw [hreply]
  exact hfind

/-- Witness of C11 on the scenario store: "Groceries" of user 1 holds three
expenses of user 1; the deletion is refused and the category is still found. -/
theorem delete_category_with_expenses_witness :
    deleteCategory scenarioStore 1 11
        = (scenarioStore,
            Reply.json 400 false (some "Cannot delete category with existing expenses") none)
      ∧ Category.findById (deleteCategory scenarioStore 1 11).1 11 (some 1) = some groceries := by
  have h := delete_category_with_expenses scenarioStore (by decide) groceries
    (List.mem_singleton.mpr rfl) 1 rfl rfl (groceryExpense 1 120 20240105)
    (List.mem_cons_self _ _) rfl rfl
  exact ⟨h.2.1, h.2.2⟩

/-- C17, as stated, fails: `sharedStore` holds the default category "Food" (id
1) and expenses of user 1 in it; `Category.delete(1, 1)` does not return false,
it throws 'Cannot delete category with existing expenses'. -/
theorem delete_default_throws :
    (Category.findById sharedStore 1 (some 1)).map (·.is_default) = some true
      ∧ Category.delete sharedStore 1 1 = DeleteResult.threw DeleteError.hasExpenses
      ∧ Category.delete sharedStore 1 1 ≠ DeleteResult.returned sharedStore false := by
  decide!

/-- C17, amended: for a default category `d` and any caller `u`,
`Category.delete(d, u)` removes nothing: it throws 'Cannot delete category with
existing expenses' when `u` has a transaction in `d`, and otherwise returns
false with the store unchanged; the handler `deleteCategory` answers 400
'Cannot delete default categories' in every state, leaving the store as it
was. -/
theorem delete_default_category (s : Store) (hpk : (s.categories.map (·.id)).Nodup)
    (d : CategoryRow) (hd : d ∈ s.categories) (hdef : d.is_default = true) (u : Nat) :
    ((∃ t ∈ s.expenses, t.category_id = d.id ∧ t.user_id = u) →
        Category.delete s d.id u = DeleteResult.threw DeleteError.hasExpenses)
      ∧ ((¬ ∃ t ∈ s.expenses, t.category_id = d.id ∧ t.user_id = u) →
        Category.delete s d.id u = DeleteResult.returned s false)
      ∧ deleteCategory s u d.id
          = (s, Reply.json 400 false (some "Cannot delete default categories") none) := by
  have hnone : ∀ x ∈ s.categories, Category.ownWhere d.id u x = false := by
    intro x hx
    cases hw : Category.ownWhere d.id u x with
    | false => rfl
    | true =>
      simp only [Category.ownWhere, Bool.and_eq_true, beq_iff_eq] at hw
      have hxd : x = d := category_eq_of_id_eq s hpk x d hx hd hw.1.1
      rw [hxd, hdef] at hw
      exact absurd hw.2 (by decide)
  have hany : s.categories.any (Category.ownWhere d.id u) = false := by
    rw [List.any_eq_false]
    intro x hx
    rw [hnone x hx]
    decide
  have hkeep : s.categories.filter (fun c => !Category.ownWhere d.id u c) = s.categories := by
    rw [List.filter_eq_self]
    intro x hx
    rw [hnone x hx]
    rfl
  refine ⟨?_, ?_, ?_⟩
  · rintro ⟨t, ht, hcat, hu⟩
    exact delete_throws_of_expense s d.id u t ht hcat hu
  · intro hno
    have hzero : ¬ (s.expenses.filter
        (fun e => e.category_id == d.id && e.user_id == u)).length > 0 := by
      intro hpos
      obtain ⟨t, ht⟩ := List.length_pos_iff_exists_mem.mp hpos
      obtain ⟨hmem, hp⟩ := List.mem_filter.mp ht
      simp only [Bool.and_eq_true, beq_iff_eq] at hp
      exact hno ⟨t, hmem, hp.1, hp.2⟩
    unfold Category.delete
    rw [if_neg hzero, hany, hkeep]
    simp only [Bool.false_and, Bool.false_eq_true, if_false]
  · unfold deleteCategory
    rw [findById_of_visible s hpk d hd u (Or.inr hdef)]
    simp only [hdef, if_true]

/-- Witness of the amended C17 on `sharedStore`: for the default "Food", user 1
(with transactions in it) and user 3 (without) both get 400 'Cannot delete
default categories' from the handler; the model method throws for user 1 and
returns false for user 3. -/
theorem delete_default_category_witness :
    deleteCategory sharedStore 1 1
        = (sharedStore, Reply.json 400 false (some "Cannot delete default categories") none)
      ∧ Category.delete sharedStore 1 3 = DeleteResult.returned sharedStore false := by
  have hfood : foodCategory ∈ sharedStore.categories := by decide
  exact ⟨(delete_default_category sharedStore (by decide) foodCategory hfood rfl 1).2.2,
    (delete_default_category sharedStore (by decide) foodCategory hfood rfl 3).2.1 (by decide)⟩


/-! ## Lemmas on the expense queries -/

theorem expenseFiltersOf_defaults (q : ExpenseQuery) (hpage : q.page = none)
    (hlimit : q.limit = none) :
    expenseFiltersOf q = expenseFiltersOf { q with page := some 1, limit := some 50 } := by
  simp [expenseFiltersOf, hpage, hlimit]

/-- C12: for a `getExpenses` request with page `p >= 1` and limit `L >= 1`, and
`n` the total that `Expense.getCount` reports for the request's filters, the
response is 200 with `currentPage = p`, `totalCount = n`,
`totalPages = ceil(n / L)` (the least `k` with `n <= k * L`),
`hasNextPage = (p < totalPages)` and `hasPrevPage = (p > 1)`; a request without
page and limit is answered like one with page 1 and limit 50. -/
theorem getExpenses_pagination :
    (∀ (s : Store) (u : Nat) (q : ExpenseQuery) (p L : Nat),
      1 ≤ p → 1 ≤ L → q.page = some p → q.limit = some L →
      getExpenses s u q
        = Reply.json 200 true none (some {
            expenses := Expense.findByUser s u (expenseFiltersOf q)
            pagination := {
              currentPage := p
              totalPages := some ⌈(Expense.getCount s u (expenseFiltersOf q) : ℚ) / (L : ℚ)⌉₊
              totalCount := Expense.getCount s u (expenseFiltersOf q)
              hasNextPage :=
                decide (p < ⌈(Expense.getCount s u (expenseFiltersOf q) : ℚ) / (L : ℚ)⌉₊)
              hasPrevPage := decide (p > 1) } })
      ∧ ∀ k : Nat, ⌈(Expense.getCount s u (expenseFiltersOf q) : ℚ) / (L : ℚ)⌉₊ ≤ k
          ↔ Expense.getCount s u (expenseFiltersOf q) ≤ k * L)
    ∧ (∀ (s : Store) (u : Nat) (q : ExpenseQuery), q.page = none → q.limit = none →
        getExpenses s u q = getExpenses s u { q with page := some 1, limit := some 50 }) := by
  constructor
  · intro s u q p L hp hL hpage hlimit
    have hL0 : L ≠ 0 := Nat.one_le_iff_ne_zero.mp hL
    have hp0 : p ≠ 0 := Nat.one_le_iff_ne_zero.mp hp
    constructor
    · unfold getExpenses
      simp [hpage, hlimit, hL0, hp0]
    · intro k
      have hLpos : (0 : ℚ) < (L : ℚ) := by exact_mod_cast Nat.pos_of_ne_zero hL0
      rw [Nat.ceil_le, div_le_iff₀ hLpos]
      exact_mod_cast Iff.rfl
  · intro s u q hpage hlimit
    unfold getExpenses
    rw [expenseFiltersOf_defaults q hpage hlimit]
    simp [hpage, hlimit]

/-- Witness of C12 on the scenario store (three expenses of user 1): page 2 with
limit 2 has `totalCount` 3, `totalPages` 2, no next page and a previous page. -/
theorem getExpenses_pagination_witness :
    getExpenses scenarioStore 1 pageTwoQuery
      = Reply.json 200 true none (some {
          expenses := Expense.findByUser scenarioStore 1 (expenseFiltersOf pageTwoQuery)
          pagination := { currentPage := 2, totalPages := some 2, totalCount := 3,
                          hasNextPage := false, hasPrevPage := true } }) :=
  ((getExpenses_pagination.1 scenarioStore 1 pageTwoQuery 2 2 (by decide) (by decide)
    rfl rfl).1).trans (by decide!)


theorem length_flatMap_of_singletons {α β : Type} (g : α → List β) :
    ∀ l : List α, (∀ a ∈ l, (g a).length = 1) → (l.flatMap g).length = l.length := by
  intro l
  induction l with
  | nil => intro _; rfl
  | cons a l ih =>
    intro h
    rw [List.flatMap_cons, List.length_append, h a (List.mem_cons_self a l),
      ih (fun b hb => h b (List.mem_cons_of_mem a hb)), List.length_cons, Nat.add_comm]

/-- Where no amount filter is set (or it is 0) and no limit is given,
`Expense.getCount` is the number of rows of `Expense.findByUser`, in a store in
which every expense has its category (`id` a key of `categories`). -/
theorem getCount_eq_length_without_amount (s : Store)
    (hpk : (s.categories.map (·.id)).Nodup)
    (hfk : ∀ e ∈ s.expenses, ∃ c ∈ s.categories, c.id = e.category_id)
    (u : Nat) (f : ExpenseFilters)
    (hmin : f.minAmount = none ∨ f.minAmount = some 0)
    (hmax : f.maxAmount = none ∨ f.maxAmount = some 0) (hlimit : f.limit = none) :
    Expense.getCount s u f = (Expense.findByUser s u f).length := by
  have hwhere : ∀ e, Expense.findByUserWhere u f e = Expense.getCountWhere u f e := by
    intro e
    unfold Expense.findByUserWhere Expense.getCountWhere
    rcases hmin with h1 | h1 <;> rcases hmax with h2 | h2 <;> simp [h1, h2]
  have hfilter : s.expenses.filter (Expense.findByUserWhere u f)
      = s.expenses.filter (Expense.getCountWhere u f) :=
    List.filter_congr (fun e _ => hwhere e)
  unfold Expense.getCount Expense.findByUser
  simp only [hlimit]
  rw [(List.perm_insertionSort _ _).length_eq, hfilter]
  symm
  apply length_flatMap_of_singletons
  intro e he
  obtain ⟨c, hc, hid⟩ := hfk e (List.mem_of_mem_filter he)
  have hsingle : s.categories.filter (fun c => e.category_id == c.id) = [c] := by
    apply filter_eq_singleton_of_nodup (·.id) _ s.categories c hpk hc
    · simp [hid]
    · intro x _ hx
      simp only [beq_iff_eq] at hx
      rw [← hx, hid]
  rw [hsingle]
  rfl

/-- C13 fails on the code: in the scenario store (expenses 120.00, 80.50 and
50.00 of user 1) the filter `minAmount = 100` leaves one row in
`Expense.findByUser` while `Expense.getCount`, which reads neither `minAmount`
nor `maxAmount`, reports 3; `getExpenses` then answers one row with
`totalCount` 3. -/
theorem getCount_ignores_amount_filters :
    (Expense.findByUser scenarioStore 1 atLeastHundred).map (·.expense.amount) = [120]
      ∧ Expense.getCount scenarioStore 1 atLeastHundred = 3
      ∧ getExpenses scenarioStore 1 { noExpenseQuery with minAmount := some 100 }
          = Reply.json 200 true none (some {
              expenses := [{ expense := groceryExpense 1 120 20240105,
                             category_name := "Groceries", category_color := "#ff0000",
                             category_icon := "cart" }]
              pagination := { currentPage := 1, totalPages := some 1, totalCount := 3,
                              hasNextPage := false, hasPrevPage := false } }) := by
  decide!

theorem findById_create (s : Store) (hfresh : ∀ e ∈ s.expenses, e.id < s.nextExpenseId)
    (d : ExpenseData) (w : Nat) :
    (Expense.create s d).1.expenses.filter
        (fun e => e.id == s.nextExpenseId && e.user_id == w)
      = if w = d.userId then [insertedRow s d] else [] := by
  have hold : s.expenses.filter (fun e => e.id == s.nextExpenseId && e.user_id == w) = [] := by
    rw [List.filter_eq_nil_iff]
    intro e he hp
    simp only [Bool.and_eq_true, beq_iff_eq] at hp
    exact absurd hp.1 (Nat.ne_of_lt (hfresh e he))
  show (s.expenses ++ [insertedRow s d]).filter
    (fun e : ExpenseRow => e.id == s.nextExpenseId && e.user_id == w) = _
  rw [List.filter_append, hold, List.nil_append]
  by_cases hw : w = d.userId
  · subst hw
    simp [insertedRow]
  · have hw' : ¬ d.userId = w := fun h => hw h.symm
    simp [hw, hw', insertedRow]

/-- C14: after `createExpense` by user `u` with an accessible category, in a
store whose expense ids lie below the `AUTO_INCREMENT` counter, the handler
answers 201 with the row that `Expense.findById(id, u)` returns for the new id,
and that row has the title, amount, category, kind (`'expense'` when omitted),
description and date of the request; `Expense.findById(id, v)` is absent for
every other user `v`. -/
theorem createExpense_round_trip (s : Store)
    (hfresh : ∀ e ∈ s.expenses, e.id < s.nextExpenseId) (u : Nat) (body : CreateExpenseBody)
    (hacc : Category.canAccess s body.categoryId u = true) :
    ∃ v : ExpenseView,
      (createExpense s u body).2
          = Reply.json 201 true (some "Expense created successfully") (some v)
      ∧ Expense.findById (createExpense s u body).1 s.nextExpenseId u = some v
      ∧ v.expense.id = s.nextExpenseId ∧ v.expense.user_id = u
      ∧ v.expense.title = body.title ∧ v.expense.amount = body.amount
      ∧ v.expense.category_id = body.categoryId
      ∧ v.expense.type = body.type.getD TxType.expense
      ∧ v.expense.description = body.description ∧ v.expense.date = body.date
      ∧ ∀ w, w ≠ u → Expense.findById (createExpense s u body).1 s.nextExpenseId w = none := by
  obtain ⟨c, hc, hcid, _⟩ := (canAccess_iff_exists s body.categoryId u).mp hacc
  have hstore : createExpense s u body
      = ((Expense.create s (expenseDataOf u body)).1,
         Reply.json 201 true (some "Expense created successfully")
          (Expense.findById (Expense.create s (expenseDataOf u body)).1 s.nextExpenseId u)) := by
    unfold createExpense
    simp only [hacc, Bool.not_true, Bool.false_eq_true, if_false]
    rfl
  have hcats : ∃ c0 cs, s.categories.filter (fun x => body.categoryId == x.id) = c0 :: cs := by
    cases hl : s.categories.filter (fun x => body.categoryId == x.id) with
    | nil =>
      have : c ∈ s.categories.filter (fun x => body.categoryId == x.id) :=
        List.mem_filter.mpr ⟨hc, by simp [hcid]⟩
      rw [hl] at this
      exact absurd this (List.not_mem_nil c)
    | cons c0 cs => exact ⟨c0, cs, rfl⟩
  obtain ⟨c0, cs, hfilter⟩ := hcats
  have hfind : ∀ w, Expense.findById (Expense.create s (expenseDataOf u body)).1
      s.nextExpenseId w
      = if w = u then
          some { expense := insertedRow s (expenseDataOf u body),
                 category_name := c0.name, category_color := c0.color,
                 category_icon := c0.icon }
        else none := by
    intro w
    unfold Expense.findById
    rw [findById_create s hfresh (expenseDataOf u body) w]
    have hcat : (Expense.create s (expenseDataOf u body)).1.categories = s.categories := rfl
    rw [hcat]
    have hu : (expenseDataOf u body).userId = u := rfl
    rw [hu]
    by_cases hw : w = u
    · have hf : s.categories.filter
          (fun x => (insertedRow s (expenseDataOf u body)).category_id == x.id) = c0 :: cs :=
        hfilter
      simp only [hw, if_true, List.flatMap_cons, List.flatMap_nil, List.append_nil, hf,
        List.map_cons, List.head?_cons]
    · simp only [hw, if_false, List.flatMap_nil, List.head?_nil]
  rw [hstore]
  refine ⟨{ expense := insertedRow s (expenseDataOf u body), category_name := c0.name,
            category_color := c0.color, category_icon := c0.icon },
    ?_, ?_, rfl, rfl, rfl, rfl, rfl, ?_, rfl, rfl, ?_⟩
  · simp only [hfind u, if_true]
  · simp only [hfind u, if_true]
  · simp [insertedRow, expenseDataOf]
  · intro w hw
    simp only [hfind w, hw, if_false]

/-- Witness of C14 on the scenario store: the request `lunchBody` (12.34, kind
omitted) gets id 4 and is read back as an expense of 12.34 by user 1, and not
at all by user 2. -/
theorem createExpense_round_trip_witness :
    ∃ v : ExpenseView,
      Expense.findById (createExpense scenarioStore 1 lunchBody).1 4 1 = some v
      ∧ v.expense.title = "lunch" ∧ v.expense.amount = 617 / 50
      ∧ v.expense.type = TxType.expense
      ∧ Expense.findById (createExpense scenarioStore 1 lunchBody).1 4 2 = none := by
  obtain ⟨v, _, hfind, _, _, ht, ha, _, hty, _, _, hother⟩ :=
    createExpense_round_trip scenarioStore (by decide) 1 lunchBody (by decide)
  exact ⟨v, hfind, ht, ha, hty, hother 2 (by decide)⟩


/-! ## Lemmas on absent rows -/

theorem budget_handlers_notFound (s : Store) (u x now : Nat) (body : BudgetUpdates)
    (h : ∀ r ∈ s.budgets, ¬ (r.id = x ∧ r.user_id = u)) :
    getBudgetById s u x = Reply.json 404 false (some "Budget not found") none
      ∧ updateBudget s now u x body = (s, Reply.json 404 false (some "Budget not found") none)
      ∧ deleteBudget s u x = (s, Reply.json 404 false (some "Budget not found") none)
      ∧ toggleBudgetStatus s now u x
          = (s, Reply.json 404 false (some "Budget not found") none) := by
  have hcond : ∀ r ∈ s.budgets, (r.id == x && r.user_id == u) = false := by
    intro r hr
    cases hc : (r.id == x && r.user_id == u) with
    | false => rfl
    | true =>
      simp only [Bool.and_eq_true, beq_iff_eq] at hc
      exact absurd hc (h r hr)
  have hfilter : s.budgets.filter (fun r => r.id == x && r.user_id == u) = [] := by
    rw [List.filter_eq_nil_iff]
    intro r hr hp
    rw [hcond r hr] at hp
    exact Bool.false_ne_true hp
  have hget : Budget.getWithSpending s x u = none := by
    unfold Budget.getWithSpending
    rw [hfilter]
    rfl
  have hfind : Budget.findById s x u = none := by
    unfold Budget.findById
    rw [hfilter]
    rfl
  have hany : s.budgets.any (fun r => r.id == x && r.user_id == u) = false := by
    rw [List.any_eq_false]
    intro r hr
    rw [hcond r hr]
    exact Bool.false_ne_true
  have hkeep : s.budgets.filter (fun r => !(r.id == x && r.user_id == u)) = s.budgets := by
    rw [List.filter_eq_self]
    intro r hr
    rw [hcond r hr]
    rfl
  refine ⟨?_, ?_, ?_, ?_⟩
  · unfold getBudgetById
    rw [hget]
  · unfold updateBudget
    rw [hfind]
  · unfold deleteBudget Budget.delete
    simp only [hany, hkeep, Bool.not_false, if_true]
  · unfold toggleBudgetStatus
    rw [hfind]

theorem expense_handlers_notFound (s : Store) (u x : Nat) (body : ExpenseUpdates)
    (h : ∀ r ∈ s.expenses, ¬ (r.id = x ∧ r.user_id = u)) :
    getExpenseById s u x = Reply.json 404 false (some "Expense not found") none
      ∧ updateExpense s u x body = (s, Reply.json 404 false (some "Expense not found") none)
      ∧ deleteExpense s u x
          = (s, Reply.json 404 false (some "Expense not found") none) := by
  have hcond : ∀ r ∈ s.expenses, (r.id == x && r.user_id == u) = false := by
    intro r hr
    cases hc : (r.id == x && r.user_id == u) with
    | false => rfl
    | true =>
      simp only [Bool.and_eq_true, beq_iff_eq] at hc
      exact absurd hc (h r hr)
  have hfilter : s.expenses.filter (fun r => r.id == x && r.user_id == u) = [] := by
    rw [List.filter_eq_nil_iff]
    intro r hr hp
    rw [hcond r hr] at hp
    exact Bool.false_ne_true hp
  have hfind : Expense.findById s x u = none := by
    unfold Expense.findById
    rw [hfilter]
    rfl
  have hany : s.expenses.any (fun r => r.id == x && r.user_id == u) = false := by
    rw [List.any_eq_false]
    intro r hr
    rw [hcond r hr]
    exact Bool.false_ne_true
  have hkeep : s.expenses.filter (fun r => !(r.id == x && r.user_id == u)) = s.expenses := by
    rw [List.filter_eq_self]
    intro r hr
    rw [hcond r hr]
    rfl
  refine ⟨?_, ?_, ?_⟩
  · unfold getExpenseById
    rw [hfind]
  · unfold updateExpense
    rw [hfind]
  · unfold deleteExpense Expense.delete
    simp only [hany, hkeep, Bool.not_false, if_true]

/-- C18: take a store in which no budget has id `x`, and the store that differs
from it only by one more budget row with id `x` owned by a user other than the
caller `u`.  In both, `getBudgetById`, `updateBudget`, `deleteBudget` and
`toggleBudgetStatus` called by `u` on `x` give the same reply, 404 'Budget not
found', and leave the store they ran on as it was.  The same holds for
`getExpenseById`, `updateExpense` and `deleteExpense` with an expense row and
404 'Expense not found'. -/
theorem notFound_does_not_leak :
    (∀ (s : Store) (l1 l2 : List BudgetRow) (b : BudgetRow) (u now : Nat) (body : BudgetUpdates),
      s.budgets = l1 ++ l2 → (∀ r ∈ s.budgets, r.id ≠ b.id) → b.user_id ≠ u →
      (getBudgetById s u b.id = Reply.json 404 false (some "Budget not found") none
        ∧ getBudgetById { s with budgets := l1 ++ b :: l2 } u b.id
            = Reply.json 404 false (some "Budget not found") none)
      ∧ (updateBudget s now u b.id body
            = (s, Reply.json 404 false (some "Budget not found") none)
        ∧ updateBudget { s with budgets := l1 ++ b :: l2 } now u b.id body
            = ({ s with budgets := l1 ++ b :: l2 },
                Reply.json 404 false (some "Budget not found") none))
      ∧ (deleteBudget s u b.id = (s, Reply.json 404 false (some "Budget not found") none)
        ∧ deleteBudget { s with budgets := l1 ++ b :: l2 } u b.id
            = ({ s with budgets := l1 ++ b :: l2 },
                Reply.json 404 false (some "Budget not found") none))
      ∧ (toggleBudgetStatus s now u b.id
            = (s, Reply.json 404 false (some "Budget not found") none)
        ∧ toggleBudgetStatus { s with budgets := l1 ++ b :: l2 } now u b.id
            = ({ s with budgets := l1 ++ b :: l2 },
                Reply.json 404 false (some "Budget not found") none)))
    ∧ (∀ (s : Store) (l1 l2 : List ExpenseRow) (e : ExpenseRow) (u : Nat)
        (body : ExpenseUpdates),
      s.expenses = l1 ++ l2 → (∀ r ∈ s.expenses, r.id ≠ e.id) → e.user_id ≠ u →
      (getExpenseById s u e.id = Reply.json 404 false (some "Expense not found") none
        ∧ getExpenseById { s with expenses := l1 ++ e :: l2 } u e.id
            = Reply.json 404 false (some "Expense not found") none)
      ∧ (updateExpense s u e.id body
            = (s, Reply.json 404 false (some "Expense not found") none)
        ∧ updateExpense { s with expenses := l1 ++ e :: l2 } u e.id body
            = ({ s with expenses := l1 ++ e :: l2 },
                Reply.json 404 false (some "Expense not found") none))
      ∧ (deleteExpense s u e.id = (s, Reply.json 404 false (some "Expense not found") none)
        ∧ deleteExpense { s with expenses := l1 ++ e :: l2 } u e.id
            = ({ s with expenses := l1 ++ e :: l2 },
                Reply.json 404 false (some "Expense not found") none))) := by
  constructor
  · intro s l1 l2 b u now body hsplit habsent hother
    have h1 : ∀ r ∈ s.budgets, ¬ (r.id = b.id ∧ r.user_id = u) :=
      fun r hr hc => habsent r hr hc.1
    have h2 : ∀ r ∈ ({ s with budgets := l1 ++ b :: l2 } : Store).budgets,
        ¬ (r.id = b.id ∧ r.user_id = u) := by
      intro r hr hc
      have hr' : r ∈ l1 ++ b :: l2 := hr
      rcases List.mem_append.mp hr' with hl | hl
      · exact habsent r (hsplit ▸ List.mem_append_left l2 hl) hc.1
      · rcases List.mem_cons.mp hl with hb | hl2
        · exact hother (hb ▸ hc.2)
        · exact habsent r (hsplit ▸ List.mem_append_right l1 hl2) hc.1
    obtain ⟨a1, a2, a3, a4⟩ := budget_handlers_notFound s u b.id now body h1
    obtain ⟨b1, b2, b3, b4⟩ := budget_handlers_notFound _ u b.id now body h2
    exact ⟨⟨a1, b1⟩, ⟨a2, b2⟩, ⟨a3, b3⟩, ⟨a4, b4⟩⟩
  · intro s l1 l2 e u body hsplit habsent hother
    have h1 : ∀ r ∈ s.expenses, ¬ (r.id = e.id ∧ r.user_id = u) :=
      fun r hr hc => habsent r hr hc.1
    have h2 : ∀ r ∈ ({ s with expenses := l1 ++ e :: l2 } : Store).expenses,
        ¬ (r.id = e.id ∧ r.user_id = u) := by
      intro r hr hc
      have hr' : r ∈ l1 ++ e :: l2 := hr
      rcases List.mem_append.mp hr' with hl | hl
      · exact habsent r (hsplit ▸ List.mem_append_left l2 hl) hc.1
      · rcases List.mem_cons.mp hl with hb | hl2
        · exact hother (hb ▸ hc.2)
        · exact habsent r (hsplit ▸ List.mem_append_right l1 hl2) hc.1
    obtain ⟨a1, a2, a3⟩ := expense_handlers_notFound s u e.id body h1
    obtain ⟨b1, b2, b3⟩ := expense_handlers_notFound _ u e.id body h2
    exact ⟨⟨a1, b1⟩, ⟨a2, b2⟩, ⟨a3, b3⟩⟩

/-- Witness of C18: user 2 asks to delete budget 1 in the scenario store, where
it belongs to user 1, and in the same store without it; both answers are 404
'Budget not found'.  Likewise for expense 1. -/
theorem notFound_does_not_leak_witness :
    (deleteBudget noBudgetStore 2 1).2 = (deleteBudget scenarioStore 2 1).2
      ∧ (deleteBudget scenarioStore 2 1).1 = scenarioStore
      ∧ (updateExpense twoExpenseStore 2 1 expenseFields).2
          = (updateExpense scenarioStore 2 1 expenseFields).2
      ∧ (updateExpense scenarioStore 2 1 expenseFields).1 = scenarioStore := by
  have hb := (notFound_does_not_leak.1 noBudgetStore [] [] groceryBudget 2 0 toJanuary rfl
    (by decide) (by decide)).2.2.1
  have he := (notFound_does_not_leak.2 twoExpenseStore [] twoExpenseStore.expenses
    (groceryExpense 1 120 20240105) 2 expenseFields rfl (by decide) (by decide)).2.1
  have hs1 : ({ noBudgetStore with budgets := [] ++ groceryBudget :: [] } : Store)
      = scenarioStore := rfl
  have hs2 : ({ twoExpenseStore with
      expenses := [] ++ groceryExpense 1 120 20240105 :: twoExpenseStore.expenses } : Store)
      = scenarioStore := rfl
  rw [hs1] at hb
  rw [hs2] at he
  have hb1 : deleteBudget noBudgetStore 2 1
      = (noBudgetStore, Reply.json 404 false (some "Budget not found") none) := hb.1
  have hb2 : deleteBudget scenarioStore 2 1
      = (scenarioStore, Reply.json 404 false (some "Budget not found") none) := hb.2
  have he1 : updateExpense twoExpenseStore 2 1 expenseFields
      = (twoExpenseStore, Reply.json 404 false (some "Expense not found") none) := he.1
  have he2 : updateExpense scenarioStore 2 1 expenseFields
      = (scenarioStore, Reply.json 404 false (some "Expense not found") none) := he.2
  refine ⟨?_, ?_, ?_, ?_⟩
  · rw [hb1, hb2]
  · rw [hb2]
  · rw [he1, he2]
  · rw [he2]


/-! ## Lemmas on the current budgets -/

theorem filterMap_map_key {β γ : Type} (sel : β → Option γ) (key : γ → β) :
    ∀ l : List β, (∀ b ∈ l, ∃ v, sel b = some v ∧ key v = b) →
      (l.filterMap sel).map key = l := by
  intro l
  induction l with
  | nil => intro _; rfl
  | cons a l ih =>
    intro hall
    obtain ⟨v, hsel, hkey⟩ := hall a (List.mem_cons_self a l)
    rw [List.filterMap_cons_some hsel, List.map_cons, hkey,
      ih (fun b hb => hall b (List.mem_cons_of_mem a hb))]

/-- C19: in a store that satisfies the key constraints, the budgets of the rows
of `Budget.getCurrentMonth(u)` are exactly (as a permutation, each once) the
budgets of `u` with `is_active` true and `start_date <= today <= end_date`,
both bounds included, and the rows are in descending order of
`usage_percentage`.  In any store, every row is a budget of `u` that is active
and whose window contains today, so no inactive or out-of-window budget
appears. -/
theorem getCurrentMonth_spec :
    (∀ (s : Store), s.WellFormed → ∀ (today : Date) (u : Nat),
      ((Budget.getCurrentMonth s today u).map (·.budget)).Perm
        (s.budgets.filter fun b =>
          decide (b.user_id = u ∧ b.is_active = true ∧ b.start_date ≤ today
            ∧ today ≤ b.end_date))
      ∧ ((Budget.getCurrentMonth s today u).map (·.budget)).Nodup
      ∧ (Budget.getCurrentMonth s today u).Sorted usageDesc)
    ∧ (∀ (s : Store) (today : Date) (u : Nat), ∀ v ∈ Budget.getCurrentMonth s today u,
        v.budget ∈ s.budgets ∧ v.budget.user_id = u ∧ v.budget.is_active = true
          ∧ v.budget.start_date ≤ today ∧ today ≤ v.budget.end_date) := by
  constructor
  · intro s hwf today u
    have hperm : ((Budget.getCurrentMonth s today u).map (·.budget)).Perm
        (s.budgets.filter fun b =>
          decide (b.user_id = u ∧ b.is_active = true ∧ b.start_date ≤ today
            ∧ today ≤ b.end_date)) := by
      unfold Budget.getCurrentMonth
      refine (List.Perm.map _ (List.perm_insertionSort usageDesc _)).trans ?_
      rw [filterMap_map_key (selectRow true false s) (·.budget)
        (s.budgets.filter (Budget.currentWhere today u)) (by
          intro b hb
          obtain ⟨v, hv, hbud, _⟩ :=
            selectRow_usage true false s hwf b (List.mem_of_mem_filter hb)
          exact ⟨v, hv, hbud⟩)]
      apply List.Perm.of_eq
      apply List.filter_congr
      intro b _
      rw [Bool.eq_iff_iff]
      simp only [Budget.currentWhere, Bool.and_eq_true, decide_eq_true_eq, beq_iff_eq,
        ge_iff_le]
      tauto
    refine ⟨hperm, ?_, List.sorted_insertionSort usageDesc _⟩
    exact hperm.nodup_iff.mpr ((List.Nodup.of_map _ hwf.budget_pk).filter _)
  · intro s today u v hv
    obtain ⟨b, hb, hwhere, hsel⟩ := mem_getCurrentMonth s today u v hv
    obtain ⟨hbud, _⟩ := selectRow_shape true false s b v hsel
    simp only [Budget.currentWhere, Bool.and_eq_true, decide_eq_true_eq, beq_iff_eq,
      ge_iff_le] at hwhere
    rw [hbud]
    exact ⟨hb, hwhere.1.1.1, hwhere.1.1.2, hwhere.1.2, hwhere.2⟩

/-- Witness of C19 on `sharedStore`: on 2024-01-31, the last day of the window,
the current budgets of user 1 are the budget 7; on 2024-02-01 there are none. -/
theorem getCurrentMonth_spec_witness :
    ((Budget.getCurrentMonth sharedStore 20240131 1).map (·.budget)).Perm sharedStore.budgets
      ∧ Budget.getCurrentMonth sharedStore 20240201 1 = [] := by
  have h := (getCurrentMonth_spec.1 sharedStore sharedStore_wellFormed 20240131 1).1
  exact ⟨h.trans (List.Perm.of_eq (by decide!)), by decide!⟩


/-! ## Lemmas on the summary -/

theorem countedExpenses_eq_join_window (s : Store) (b : BudgetRow) :
    countedExpenses s b
      = (s.expenses.filter
          (fun e => b.category_id == e.category_id && e.user_id == b.user_id)).filter
          (fun e => decide (e.type = TxType.expense ∧ e.date ≥ b.start_date
            ∧ e.date ≤ b.end_date)) := by
  rw [List.filter_filter]
  unfold countedExpenses
  apply List.filter_congr
  intro t _
  rw [Bool.eq_iff_iff]
  simp only [decide_eq_true_eq, Bool.and_eq_true, beq_iff_eq, ge_iff_le]
  constructor
  · rintro ⟨h1, h2, h3, h4, h5⟩
    exact ⟨⟨h3, h4, h5⟩, h1.symm, h2⟩
  · rintro ⟨⟨h3, h4, h5⟩, h1, h2⟩
    exact ⟨h1.symm, h2, h3, h4, h5⟩

theorem sqlSum_map_some {α : Type} (g : α → ℚ) (l : List α) (hne : l ≠ []) :
    sqlSum (l.map fun x => some (g x)) = some (l.map g).sum := by
  have hfm : (l.map fun x => some (g x)).filterMap id = l.map g := by
    induction l with
    | nil => rfl
    | cons a l ih =>
      by_cases hl : l = []
      · subst hl
        rfl
      · simp only [List.map_cons, List.filterMap_cons, id]
        rw [ih hl]
  unfold sqlSum
  rw [hfm]
  cases hl : l.map g with
  | nil =>
    have : l = [] := List.map_eq_nil_iff.mp hl
    exact absurd this hne
  | cons y ys => rfl

theorem sqlAvg_map_some {α : Type} (g : α → ℚ) (l : List α) (hne : l ≠ []) :
    sqlAvg (l.map fun x => some (g x)) = some ((l.map g).sum / (l.length : ℚ)) := by
  have hfm : (l.map fun x => some (g x)).filterMap id = l.map g := by
    induction l with
    | nil => rfl
    | cons a l ih =>
      by_cases hl : l = []
      · subst hl
        rfl
      · simp only [List.map_cons, List.filterMap_cons, id]
        rw [ih hl]
  unfold sqlAvg
  rw [hfm]
  cases hl : l.map g with
  | nil =>
    have : l = [] := List.map_eq_nil_iff.mp hl
    exact absurd this hne
  | cons y ys =>
    have hlen : (y :: ys).length = l.length := by rw [← hl, List.length_map]
    show some ((y :: ys).sum / ((y :: ys).length : ℚ)) = some ((y :: ys).sum / (l.length : ℚ))
    rw [hlen]

theorem sum_window_values (b : BudgetRow) :
    ∀ l : List ExpenseRow,
      (l.map fun e =>
        if e.type = TxType.expense ∧ e.date ≥ b.start_date ∧ e.date ≤ b.end_date
        then e.amount else 0).sum
        = ((l.filter (fun e => decide (e.type = TxType.expense ∧ e.date ≥ b.start_date
            ∧ e.date ≤ b.end_date))).map (·.amount)).sum := by
  intro l
  induction l with
  | nil => rfl
  | cons a l ih =>
    by_cases h : a.type = TxType.expense ∧ a.date ≥ b.start_date ∧ a.date ≤ b.end_date
    · rw [List.map_cons, List.sum_cons, ih, List.filter_cons_of_pos (by simpa using h),
        List.map_cons, List.sum_cons, if_pos h]
    · rw [List.map_cons, List.sum_cons, ih, List.filter_cons_of_neg (by simpa using h),
        if_neg h, zero_add]

/-- The `SUM` of the derived table `spent` for budget `b` is its spent amount. -/
theorem sqlSum_caseElseZero (s : Store) (b : BudgetRow) :
    sqlSum ((leftJoinExpenses s.expenses b).map (caseElseZero b)) = some (spentSpec s b) := by
  unfold spentSpec
  rw [countedExpenses_eq_join_window]
  unfold leftJoinExpenses
  cases hm : s.expenses.filter
      (fun e => b.category_id == e.category_id && e.user_id == b.user_id) with
  | nil => simp [sqlSum, caseElseZero]
  | cons m ms =>
    have hmap : ((m :: ms).map some).map (caseElseZero b)
        = (m :: ms).map fun e => some
            (if e.type = TxType.expense ∧ e.date ≥ b.start_date ∧ e.date ≤ b.end_date
             then e.amount else 0) := by
      rw [List.map_map]
      apply List.map_congr_left
      intro e _
      simp only [Function.comp, caseElseZero]
      split <;> rfl
    simp only [hmap]
    rw [sqlSum_map_some _ (m :: ms) (List.cons_ne_nil m ms), sum_window_values]

theorem flatMap_eq_map_of_singleton {α β : Type} (g : α → List β) (h : α → β) :
    ∀ l : List α, (∀ a ∈ l, g a = [h a]) → l.flatMap g = l.map h := by
  intro l
  induction l with
  | nil => intro _; rfl
  | cons a l ih =>
    intro hall
    rw [List.flatMap_cons, hall a (List.mem_cons_self a l),
      ih (fun b hb => hall b (List.mem_cons_of_mem a hb))]
    rfl

/-- With `id` a key of `budgets`, every budget of the user joins exactly its
own row of the derived table. -/
theorem summaryRows_eq (s : Store) (hpk : (s.budgets.map (·.id)).Nodup) (u : Nat) :
    summaryRows s u
      = (s.budgets.filter (fun b => b.user_id == u)).map fun b =>
          (b, some ({ id := b.id, amount := some (spentSpec s b) } : SpentRow)) := by
  have hsub : spentSubquery s u
      = (s.budgets.filter (fun b => b.user_id == u)).map fun b =>
          ({ id := b.id, amount := some (spentSpec s b) } : SpentRow) := by
    unfold spentSubquery
    apply List.map_congr_left
    intro b _
    rw [sqlSum_caseElseZero]
  have hmine : ((s.budgets.filter (fun b => b.user_id == u)).map (·.id)).Nodup :=
    List.Nodup.sublist (List.Sublist.map _ (List.filter_sublist s.budgets)) hpk
  unfold summaryRows
  apply flatMap_eq_map_of_singleton
  intro b hb
  have hone : (s.budgets.filter (fun b => b.user_id == u)).filter (fun b2 => b.id == b2.id)
      = [b] := by
    apply filter_eq_singleton_of_nodup (·.id) _ _ b hmine hb
    · simp
    · intro x _ hx
      simp only [beq_iff_eq] at hx
      exact hx.symm
  rw [hsub, List.filter_map]
  have hcomp : ((fun sp : SpentRow => b.id == sp.id) ∘ fun b : BudgetRow =>
      ({ id := b.id, amount := some (spentSpec s b) } : SpentRow))
      = fun b2 : BudgetRow => b.id == b2.id := rfl
  rw [hcomp, hone]
  rfl

theorem sqlCount_active (l : List BudgetRow) :
    sqlCount (l.map fun b => if b.is_active = true then some (1 : Nat) else none)
      = (l.filter (·.is_active)).length := by
  unfold sqlCount
  induction l with
  | nil => rfl
  | cons a l ih =>
    by_cases h : a.is_active = true
    · simp only [List.map_cons, h, if_true, List.filterMap_cons, id, List.length_cons, ih,
        List.filter_cons_of_pos]
    · simp only [List.map_cons, h, if_false, List.filterMap_cons, id, ih, Bool.false_eq_true,
        List.filter_cons_of_neg, not_false_eq_true]

theorem usageOf_eq_some (amount spent : ℚ) :
    usageOf amount spent = some (if amount > 0 then 100 * spent / amount else 0) := by
  by_cases h : amount > 0
  · rw [usageOf_pos amount spent h, if_pos h]
  · simp [usageOf, h]

theorem filterMap_map_eq {β γ δ : Type} (sel : β → Option γ) (val : γ → δ) (g : β → δ) :
    ∀ l : List β, (∀ b ∈ l, ∃ v, sel b = some v ∧ val v = g b) →
      (l.filterMap sel).map val = l.map g := by
  intro l
  induction l with
  | nil => intro _; rfl
  | cons a l ih =>
    intro hall
    obtain ⟨v, hsel, hval⟩ := hall a (List.mem_cons_self a l)
    rw [List.filterMap_cons_some hsel, List.map_cons, hval,
      ih (fun b hb => hall b (List.mem_cons_of_mem a hb)), List.map_cons]

theorem findByUserWhere_noFilters (u : Nat) (b : BudgetRow) :
    Budget.findByUserWhere u noBudgetFilters b = (b.user_id == u) := by
  simp [Budget.findByUserWhere, noBudgetFilters]

/-- C20: in a store that satisfies the key constraints, for a user `u` with at
least one budget, `Budget.getSummary(u)` has `total_budgets` the number of
`u`'s budgets, `active_budgets` the number of those with `is_active` true,
`total_budget_amount` the sum of their amounts, `total_spent` the sum of their
spent amounts and `avg_usage_percentage` the arithmetic mean of their usage
percentages (0 for a budget whose amount is 0), whatever their active flags and
windows are.  `Budget.findByUser(u, {})` returns a row for exactly these
budgets, each reporting that spent amount and that usage percentage, so
`total_spent` is the sum of the `spent_amount`s it reports. -/
theorem getSummary_spec (s : Store) (hwf : s.WellFormed) (u : Nat)
    (hsome : ∃ b ∈ s.budgets, b.user_id = u) :
    Budget.getSummary s u
        = { total_budgets := (s.budgets.filter (fun b => b.user_id == u)).length
            active_budgets :=
              ((s.budgets.filter (fun b => b.user_id == u)).filter (·.is_active)).length
            total_budget_amount :=
              some ((s.budgets.filter (fun b => b.user_id == u)).map (·.amount)).sum
            total_spent :=
              some ((s.budgets.filter (fun b => b.user_id == u)).map (spentSpec s)).sum
            avg_usage_percentage :=
              some (((s.budgets.filter (fun b => b.user_id == u)).map (usageSpec s)).sum
                / ((s.budgets.filter (fun b => b.user_id == u)).length : ℚ)) }
      ∧ ((Budget.findByUser s u noBudgetFilters).map (·.budget)).Perm
          (s.budgets.filter (fun b => b.user_id == u))
      ∧ (∀ v ∈ Budget.findByUser s u noBudgetFilters,
          v.spent_amount = spentSpec s v.budget
            ∧ v.usage_percentage = some (usageSpec s v.budget))
      ∧ (Budget.getSummary s u).total_spent
          = some ((Budget.findByUser s u noBudgetFilters).map (·.spent_amount)).sum := by
  have hne : s.budgets.filter (fun b => b.user_id == u) ≠ [] := by
    obtain ⟨b, hb, hbu⟩ := hsome
    intro hnil
    have : b ∈ s.budgets.filter (fun b => b.user_id == u) :=
      List.mem_filter.mpr ⟨hb, by simp [hbu]⟩
    rw [hnil] at this
    exact absurd this (List.not_mem_nil b)
  have hrows := summaryRows_eq s hwf.budget_pk u
  have hsummary : Budget.getSummary s u
      = { total_budgets := (s.budgets.filter (fun b => b.user_id == u)).length
          active_budgets :=
            ((s.budgets.filter (fun b => b.user_id == u)).filter (·.is_active)).length
          total_budget_amount :=
            some ((s.budgets.filter (fun b => b.user_id == u)).map (·.amount)).sum
          total_spent :=
            some ((s.budgets.filter (fun b => b.user_id == u)).map (spentSpec s)).sum
          avg_usage_percentage :=
            some (((s.budgets.filter (fun b => b.user_id == u)).map (usageSpec s)).sum
              / ((s.budgets.filter (fun b => b.user_id == u)).length : ℚ)) } := by
    have h0 : (summaryRows s u).length = (s.budgets.filter (fun b => b.user_id == u)).length := by
      rw [hrows, List.length_map]
    have h1 : ((summaryRows s u).map fun r => if r.1.is_active = true then some 1 else none)
        = (s.budgets.filter (fun b => b.user_id == u)).map
            fun b => if b.is_active = true then some (1 : Nat) else none := by
      rw [hrows, List.map_map]
      rfl
    have h2 : ((summaryRows s u).map fun r => some r.1.amount)
        = (s.budgets.filter (fun b => b.user_id == u)).map fun b => some b.amount := by
      rw [hrows, List.map_map]
      rfl
    have h3 : ((summaryRows s u).map fun r => some (summarySpent r))
        = (s.budgets.filter (fun b => b.user_id == u)).map fun b => some (spentSpec s b) := by
      rw [hrows, List.map_map]
      rfl
    have h4 : ((summaryRows s u).map fun r => usageOf r.1.amount (summarySpent r))
        = (s.budgets.filter (fun b => b.user_id == u)).map fun b => some (usageSpec s b) := by
      rw [hrows, List.map_map]
      apply List.map_congr_left
      intro b _
      simp only [Function.comp]
      rw [usageOf_eq_some]
      rfl
    unfold Budget.getSummary
    rw [h0, h1, h2, h3, h4, sqlCount_active, sqlSum_map_some (·.amount) _ hne,
      sqlSum_map_some (spentSpec s) _ hne, sqlAvg_map_some (usageSpec s) _ hne]
  have hfilter : s.budgets.filter (Budget.findByUserWhere u noBudgetFilters)
      = s.budgets.filter (fun b => b.user_id == u) :=
    List.filter_congr (fun b _ => findByUserWhere_noFilters u b)
  have hall : ∀ b ∈ s.budgets.filter (fun b => b.user_id == u),
      ∃ v, selectRow true false s b = some v ∧ v.budget = b
        ∧ v.spent_amount = spentSpec s b ∧ v.usage_percentage = some (usageSpec s b) := by
    intro b hb
    obtain ⟨v, hv, hbud, hsp, huse⟩ :=
      selectRow_usage true false s hwf b (List.mem_of_mem_filter hb)
    refine ⟨v, hv, hbud, hsp, ?_⟩
    rw [huse, usageOf_eq_some]
    rfl
  have hperm : ((Budget.findByUser s u noBudgetFilters).map (·.budget)).Perm
      (s.budgets.filter (fun b => b.user_id == u)) := by
    unfold Budget.findByUser
    refine (List.Perm.map _ (List.perm_insertionSort createdDesc _)).trans ?_
    rw [hfilter, filterMap_map_key (selectRow true false s) (·.budget) _ (by
      intro b hb
      obtain ⟨v, hv, hbud, _⟩ := hall b hb
      exact ⟨v, hv, hbud⟩)]
  have hrowvals : ∀ v ∈ Budget.findByUser s u noBudgetFilters,
      v.spent_amount = spentSpec s v.budget
        ∧ v.usage_percentage = some (usageSpec s v.budget) := by
    intro v hv
    obtain ⟨b, hb, hsel⟩ := mem_findByUser s u noBudgetFilters v hv
    obtain ⟨w, hw, hbud, hsp, huse⟩ := selectRow_usage true false s hwf b hb
    rw [hsel] at hw
    cases hw
    rw [hbud]
    refine ⟨hsp, ?_⟩
    rw [huse, usageOf_eq_some]
    rfl
  refine ⟨hsummary, hperm, hrowvals, ?_⟩
  rw [hsummary]
  show some _ = some _
  congr 1
  have hsum : ((Budget.findByUser s u noBudgetFilters).map (·.spent_amount)).Perm
      ((s.budgets.filter (fun b => b.user_id == u)).map (spentSpec s)) := by
    unfold Budget.findByUser
    refine (List.Perm.map _ (List.perm_insertionSort createdDesc _)).trans ?_
    rw [hfilter, filterMap_map_eq (selectRow true false s) (·.spent_amount) (spentSpec s) _ (by
      intro b hb
      obtain ⟨v, hv, _, hsp, _⟩ := hall b hb
      exact ⟨v, hv, hsp⟩)]
  exact hsum.sum_eq.symm

/-- Witness of C20 on `summaryStore`: user 1 has the active January budget of
500.00 with 250.50 spent (50.1%) and an inactive February budget of 0.00 with
nothing spent (0%); the summary counts 2 budgets, 1 active, 500.00 budgeted,
250.50 spent and a mean usage of 25.05. -/
theorem getSummary_spec_witness :
    Budget.getSummary summaryStore 1
      = { total_budgets := 2, active_budgets := 1, total_budget_amount := some 500,
          total_spent := some (501 / 2), avg_usage_percentage := some (501 / 20) } := by
  have h := (getSummary_spec summaryStore ⟨by decide, by decide, by decide⟩ 1
    ⟨groceryBudget, by decide!, rfl⟩).1
  exact h.trans (by decide!)


/-! ## Lemmas on the expense writes -/

theorem canAccess_congr (s s' : Store) (hcat : s'.categories = s.categories) (c u : Nat) :
    Category.canAccess s' c u = Category.canAccess s c u := by
  unfold Category.canAccess
  rw [hcat]

theorem createExpense_of_inaccessible (s : Store) (u : Nat) (body : CreateExpenseBody)
    (h : Category.canAccess s body.categoryId u = false) :
    createExpense s u body = (s, Reply.json 400 false (some "Invalid category") none) := by
  unfold createExpense
  simp only [h, Bool.not_false, if_true]

theorem updateExpense_of_inaccessible (s : Store) (u id : Nat) (body : ExpenseUpdates)
    (h : Category.canAccess s body.categoryId u = false) :
    (updateExpense s u id body).1 = s
      ∧ ((Expense.findById s id u).isSome = true →
          updateExpense s u id body
            = (s, Reply.json 400 false (some "Invalid category") none)) := by
  unfold updateExpense
  cases hfind : Expense.findById s id u with
  | none => exact ⟨rfl, fun hsome => absurd hsome (by simp)⟩
  | some v =>
    simp [h]

/-- C23: the predicate 'every transaction's category is a default or is owned by
the transaction's user' is preserved by `createExpense` and by `updateExpense`.
A `createExpense` request with a category the caller cannot access is answered
400 'Invalid category' and leaves the store as it was; an `updateExpense`
request with such a category leaves the store as it was and, on an existing
transaction of the caller, is answered 400 'Invalid category', the check coming
before the write. -/
theorem expense_category_invariant :
    (∀ (s : Store) (u : Nat) (body : CreateExpenseBody),
      ExpensesAccessible s → ExpensesAccessible (createExpense s u body).1)
    ∧ (∀ (s : Store) (u id : Nat) (body : ExpenseUpdates),
      ExpensesAccessible s → ExpensesAccessible (updateExpense s u id body).1)
    ∧ (∀ (s : Store) (u : Nat) (body : CreateExpenseBody),
      Category.canAccess s body.categoryId u = false →
      createExpense s u body = (s, Reply.json 400 false (some "Invalid category") none))
    ∧ (∀ (s : Store) (u id : Nat) (body : ExpenseUpdates),
      Category.canAccess s body.categoryId u = false →
      (updateExpense s u id body).1 = s
        ∧ ((Expense.findById s id u).isSome = true →
            updateExpense s u id body
              = (s, Reply.json 400 false (some "Invalid category") none))) := by
  refine ⟨?_, ?_, createExpense_of_inaccessible, updateExpense_of_inaccessible⟩
  · intro s u body hinv
    cases hacc : Category.canAccess s body.categoryId u with
    | false =>
      rw [createExpense_of_inaccessible s u body hacc]
      exact hinv
    | true =>
      have hstore : (createExpense s u body).1 = (Expense.create s (expenseDataOf u body)).1 := by
        unfold createExpense
        simp only [hacc, Bool.not_true, Bool.false_eq_true, if_false]
        rfl
      rw [hstore]
      intro e he
      rw [canAccess_congr s (Expense.create s (expenseDataOf u body)).1 rfl]
      have he' : e ∈ s.expenses ++ [insertedRow s (expenseDataOf u body)] := he
      rcases List.mem_append.mp he' with hold | hnew
      · exact hinv e hold
      · rw [List.mem_singleton] at hnew
        subst hnew
        exact hacc
  · intro s u id body hinv
    cases hacc : Category.canAccess s body.categoryId u with
    | false =>
      rw [(updateExpense_of_inaccessible s u id body hacc).1]
      exact hinv
    | true =>
      have hupd : ExpensesAccessible (Expense.update s id u body).1 := by
        intro e he
        rw [canAccess_congr s (Expense.update s id u body).1 rfl]
        have he' : e ∈ s.expenses.map _ := he
        obtain ⟨x, hx, rfl⟩ := List.mem_map.mp he'
        by_cases hm : (x.id == id && x.user_id == u) = true
        · rw [if_pos hm]
          simp only [Bool.and_eq_true, beq_iff_eq] at hm
          show Category.canAccess s body.categoryId x.user_id = true
          rw [hm.2]
          exact hacc
        · rw [if_neg hm]
          exact hinv x hx
      unfold updateExpense
      cases hfind : Expense.findById s id u with
      | none => exact hinv
      | some v =>
        simp only [hacc, Bool.not_true, Bool.false_eq_true, if_false]
        split <;> exact hupd

/-- Witness of C23 on the scenario store: user 1 asks to move the own expense 1
to category 99, which does not exist; the answer is 400 'Invalid category' and
the store is unchanged. -/
theorem expense_category_invariant_witness :
    updateExpense scenarioStore 1 1 strayFields
      = (scenarioStore, Reply.json 400 false (some "Invalid category") none) :=
  (expense_category_invariant.2.2.2 scenarioStore 1 1 strayFields (by decide)).2 (by decide!)

/-! ## Lemmas on pagination -/

theorem flatMap_range_chunks {α : Type} (l : List α) (size : Nat) :
    ∀ k : Nat, (List.range k).flatMap (fun i => (l.drop (i * size)).take size)
      = l.take (k * size) := by
  intro k
  induction k with
  | zero => simp
  | succ k ih =>
    rw [List.range_succ, List.flatMap_append, ih, List.flatMap_singleton, Nat.succ_mul,
      List.take_add]

theorem findByUser_eq_cutPage (s : Store) (u : Nat) (f : ExpenseFilters) :
    Expense.findByUser s u f
      = Expense.cutPage f ((Expense.selectedRows s u f).insertionSort (expenseOrder f)) :=
  rfl

theorem columnLE_total (col : SortColumn) (a b : ExpenseRow) :
    columnLE col a b = true ∨ columnLE col b a = true := by
  cases col <;> simp only [columnLE, decide_eq_true_eq]
  · exact le_total _ _
  · exact le_total _ _
  · exact le_total _ _
  · exact le_total _ _
  · cases a.type <;> cases b.type <;> simp
  · cases a.description <;> cases b.description <;> simp [le_total]
  · exact le_total _ _
  · exact le_total _ _

theorem columnLE_trans (col : SortColumn) (a b c : ExpenseRow)
    (hab : columnLE col a b = true) (hbc : columnLE col b c = true) :
    columnLE col a c = true := by
  cases col <;> simp only [columnLE, decide_eq_true_eq] at hab hbc ⊢
  · exact le_trans hab hbc
  · exact le_trans hab hbc
  · exact le_trans hab hbc
  · exact le_trans hab hbc
  · revert hab hbc
    cases a.type <;> cases b.type <;> cases c.type <;> simp
  · revert hab hbc
    cases a.description <;> cases b.description <;> cases c.description <;> simp
    exact fun h1 h2 => le_trans h1 h2
  · exact le_trans hab hbc
  · exact le_trans hab hbc

theorem insertionSort_expenseOrder_sorted (f : ExpenseFilters) (l : List ExpenseView) :
    (l.insertionSort (expenseOrder f)).Sorted (expenseOrder f) := by
  haveI : IsTotal ExpenseView (expenseOrder f) := ⟨fun v w => by
    unfold expenseOrder
    by_cases h : f.sortOrder = some "asc"
    · simp only [h, if_true]
      exact columnLE_total _ _ _
    · simp only [h, if_false]
      exact (columnLE_total _ _ _).symm⟩
  haveI : IsTrans ExpenseView (expenseOrder f) := ⟨fun x y z => by
    unfold expenseOrder
    by_cases h : f.sortOrder = some "asc"
    · simp only [h, if_true]
      exact columnLE_trans _ _ _ _
    · simp only [h, if_false]
      exact fun h1 h2 => columnLE_trans _ _ _ _ h2 h1⟩
  exact List.sorted_insertionSort _ _

/-- The rows of the sorting model are among the answers the engine may give. -/
theorem mayReturn_findByUser (s : Store) (u : Nat) (f : ExpenseFilters) :
    Expense.MayReturn s u f (Expense.findByUser s u f) :=
  ⟨(Expense.selectedRows s u f).insertionSort (expenseOrder f), List.perm_insertionSort _ _,
    insertionSort_expenseOrder_sorted f _, findByUser_eq_cutPage s u f⟩

theorem cutPage_page (q : ExpenseQuery) (p l : Nat) (hl : l ≠ 0) (sorted : List ExpenseView) :
    Expense.cutPage (expenseFiltersOf (pageOf q p l)) sorted
      = (sorted.drop ((p - 1) * l)).take l := by
  unfold Expense.cutPage
  simp only [expenseFiltersOf, pageOf, Option.getD_some, hl, if_false]
  by_cases ho : (p - 1) * l = 0
  · simp only [ho, if_true, List.drop_zero]
  · simp only [ho, if_false]

/-- Every answer to the statement of a page is the cut of an answer to the
statement without `LIMIT`. -/
theorem mayReturn_page (s : Store) (u : Nat) (q : ExpenseQuery) (p l : Nat) (hl : l ≠ 0)
    (rows : List ExpenseView)
    (h : Expense.MayReturn s u (expenseFiltersOf (pageOf q p l)) rows) :
    ∃ full, Expense.MayReturn s u (unpagedFilters q) full
      ∧ rows = (full.drop ((p - 1) * l)).take l := by
  obtain ⟨sorted, hperm, hsorted, hrows⟩ := h
  refine ⟨sorted, ⟨sorted, hperm, hsorted, rfl⟩, ?_⟩
  rw [hrows, cutPage_page q p l hl]

/-- Rows that are pairwise distinct on the sort key have one sorted arrangement. -/
theorem sorted_arrangement_unique {α : Type} (r : α → α → Prop) (l₁ l₂ : List α)
    (hperm : l₁.Perm l₂) (h₁ : l₁.Sorted r) (h₂ : l₂.Sorted r)
    (hkeys : ∀ a ∈ l₁, ∀ b ∈ l₁, r a b → r b a → a = b) : l₁ = l₂ := by
  haveI : IsAntisymm α (fun a b => r a b ∧ (r b a → a = b)) :=
    ⟨fun _ _ hab hba => hab.2 hba.1⟩
  have h₁' : l₁.Sorted (fun a b => r a b ∧ (r b a → a = b)) :=
    List.Pairwise.imp_of_mem (fun ha hb hab => ⟨hab, hkeys _ ha _ hb hab⟩) h₁
  have h₂' : l₂.Sorted (fun a b => r a b ∧ (r b a → a = b)) :=
    List.Pairwise.imp_of_mem
      (fun ha hb hab => ⟨hab, hkeys _ (hperm.mem_iff.mpr ha) _ (hperm.mem_iff.mpr hb) hab⟩) h₂
  exact List.eq_of_perm_of_sorted hperm h₁' h₂'

theorem getExpenses_rows (s : Store) (u : Nat) (q : ExpenseQuery)
    (h : ¬ (q.page.getD 1 = 0 ∧ q.limit.getD 50 ≠ 0)) :
    ∃ data, getExpenses s u q = Reply.json 200 true none (some data)
      ∧ data.expenses = Expense.findByUser s u (expenseFiltersOf q) := by
  unfold getExpenses
  rw [if_neg h]
  exact ⟨_, rfl, rfl⟩

/-- C30 fails on the code: the two expenses of the tie store have the same date,
so the statement of page 1 (limit 1) may be answered from the arrangement that
puts expense 1 first and the statement of page 2 from the one that puts it
last; both pages then hold expense 1, and the two pages together are no
arrangement of the two rows: expense 1 is repeated and expense 2 skipped. -/
theorem pages_repeat_on_ties :
    Expense.MayReturn tieStore 1 (expenseFiltersOf (pageOf noExpenseQuery 1 1)) [tieView 1 120]
      ∧ Expense.MayReturn tieStore 1 (expenseFiltersOf (pageOf noExpenseQuery 2 1))
          [tieView 1 120]
      ∧ Expense.MayReturn tieStore 1 (unpagedFilters noExpenseQuery)
          [tieView 1 120, tieView 2 50]
      ∧ ¬ Expense.MayReturn tieStore 1 (unpagedFilters noExpenseQuery)
          ([tieView 1 120] ++ [tieView 1 120]) := by
  refine ⟨⟨[tieView 1 120, tieView 2 50], by decide!, by decide!, by decide!⟩,
    ⟨[tieView 2 50, tieView 1 120], by decide!, by decide!, by decide!⟩,
    ⟨[tieView 1 120, tieView 2 50], by decide!, by decide!, by decide!⟩, ?_⟩
  rintro ⟨sorted, hperm, _, hrows⟩
  have hcut : Expense.cutPage (unpagedFilters noExpenseQuery) sorted = sorted := rfl
  rw [hcut] at hrows
  rw [← hrows] at hperm
  revert hperm
  decide!

/-- C30, amended: for a `getExpenses` request with page `p >= 1` and limit
`L >= 1` the filters passed to `Expense.findByUser` carry `limit = L` and
`offset = (p - 1) * L`; every answer the engine may give to the statement of
the page consists of the elements at positions `(p - 1) * L` up to but
excluding `p * L` of a sorted arrangement of the full filtered list (the first
`L` for page 1), so a page has at most `L` rows, and the rows in the handler's
200 response are such an answer; when no two filtered rows agree on the sort
column, or when all pages are cut from one arrangement, the pages 1 to
`ceil(n / L)` concatenated are the full list of `n` rows. -/
theorem getExpenses_pages :
    (∀ (q : ExpenseQuery) (p L : Nat), 1 ≤ p → 1 ≤ L → q.page = some p → q.limit = some L →
      (expenseFiltersOf q).limit = some L
        ∧ (expenseFiltersOf q).offset = some ((p - 1) * L))
    ∧ (∀ (s : Store) (u : Nat) (q : ExpenseQuery) (p L : Nat), 1 ≤ p → 1 ≤ L →
      (∀ rows, Expense.MayReturn s u (expenseFiltersOf (pageOf q p L)) rows →
        ∃ full, Expense.MayReturn s u (unpagedFilters q) full
          ∧ rows = (full.drop ((p - 1) * L)).take L
          ∧ rows.length ≤ L
          ∧ (p = 1 → rows = full.take L))
      ∧ ∃ data, getExpenses s u (pageOf q p L) = Reply.json 200 true none (some data)
          ∧ Expense.MayReturn s u (expenseFiltersOf (pageOf q p L)) data.expenses)
    ∧ (∀ (s : Store) (u : Nat) (q : ExpenseQuery) (L : Nat), 1 ≤ L →
      ∀ full, Expense.MayReturn s u (unpagedFilters q) full →
        (List.range ⌈(full.length : ℚ) / (L : ℚ)⌉₊).flatMap
            (fun i => Expense.cutPage (expenseFiltersOf (pageOf q (i + 1) L)) full) = full
        ∧ (DistinctSortKeys s u (unpagedFilters q) →
            ∀ pages : Nat → List ExpenseView,
              (∀ i, Expense.MayReturn s u (expenseFiltersOf (pageOf q (i + 1) L)) (pages i)) →
              (List.range ⌈(full.length : ℚ) / (L : ℚ)⌉₊).flatMap pages = full)) := by
  refine ⟨?_, ?_, ?_⟩
  · intro q p L _ _ hpage hlimit
    simp [expenseFiltersOf, hpage, hlimit]
  · intro s u q p L hp hL
    have hL0 : L ≠ 0 := Nat.one_le_iff_ne_zero.mp hL
    have hp0 : p ≠ 0 := Nat.one_le_iff_ne_zero.mp hp
    constructor
    · intro rows hrows
      obtain ⟨full, hfull, hcut⟩ := mayReturn_page s u q p L hL0 rows hrows
      refine ⟨full, hfull, hcut, ?_, ?_⟩
      · rw [hcut]
        exact List.length_take_le L _
      · intro hone
        rw [hcut, hone]
        simp
    · obtain ⟨data, hdata, hrows⟩ := getExpenses_rows s u (pageOf q p L) (by
        simp [pageOf, hp0])
      exact ⟨data, hdata, hrows ▸ mayReturn_findByUser s u _⟩
  · intro s u q L hL full hfull
    have hL0 : L ≠ 0 := Nat.one_le_iff_ne_zero.mp hL
    have hLpos : (0 : ℚ) < (L : ℚ) := by exact_mod_cast Nat.pos_of_ne_zero hL0
    have hchunks : (List.range ⌈(full.length : ℚ) / (L : ℚ)⌉₊).flatMap
        (fun i => (full.drop (i * L)).take L) = full := by
      rw [flatMap_range_chunks]
      apply List.take_of_length_le
      have hceil := (Nat.ceil_le (a := (full.length : ℚ) / (L : ℚ))
        (n := ⌈(full.length : ℚ) / (L : ℚ)⌉₊)).mp le_rfl
      rw [div_le_iff₀ hLpos] at hceil
      exact_mod_cast hceil
    constructor
    · have hcut : ∀ i : Nat, Expense.cutPage (expenseFiltersOf (pageOf q (i + 1) L)) full
          = (full.drop (i * L)).take L := by
        intro i
        rw [cutPage_page q (i + 1) L hL0, Nat.add_sub_cancel]
      simp only [hcut]
      exact hchunks
    · intro hkeys pages hpages
      obtain ⟨sorted, hperm, hsorted, hfullEq⟩ := hfull
      have hfs : full = sorted := hfullEq
      have hpage : ∀ i : Nat, pages i = (full.drop (i * L)).take L := by
        intro i
        obtain ⟨full', ⟨sorted', hperm', hsorted', hfull'⟩, hcut⟩ :=
          mayReturn_page s u q (i + 1) L hL0 (pages i) (hpages i)
        have hfs' : full' = sorted' := hfull'
        have hsame : sorted = sorted' :=
          sorted_arrangement_unique (expenseOrder (unpagedFilters q)) sorted sorted'
            (hperm.trans hperm'.symm) hsorted hsorted'
            (fun a ha b hb => hkeys a (hperm.mem_iff.mp ha) b (hperm.mem_iff.mp hb))
        rw [hcut, hfs', ← hsame, ← hfs, Nat.add_sub_cancel]
      rw [funext hpage]
      exact hchunks

/-- Witness of C30 (amended) on the scenario store, whose three expenses of user
1 have three dates: with limit 2, page 1 holds the expenses 3 and 2, and any two
answers for the pages 1 and 2 make up the full list. -/
theorem getExpenses_pages_witness :
    (Expense.findByUser scenarioStore 1 (expenseFiltersOf (pageOf noExpenseQuery 1 2))).map
        (·.expense.id) = [3, 2]
      ∧ ∀ pages : Nat → List ExpenseView,
          (∀ i, Expense.MayReturn scenarioStore 1
            (expenseFiltersOf (pageOf noExpenseQuery (i + 1) 2)) (pages i)) →
          (List.range 2).flatMap pages
            = Expense.findByUser scenarioStore 1 (unpagedFilters noExpenseQuery) := by
  refine ⟨by decide!, ?_⟩
  have h := (getExpenses_pages.2.2 scenarioStore 1 noExpenseQuery 2 (by decide)
    (Expense.findByUser scenarioStore 1 (unpagedFilters noExpenseQuery))
    (mayReturn_findByUser scenarioStore 1 _)).2 (by unfold DistinctSortKeys; decide!)
  have hlen : ⌈((Expense.findByUser scenarioStore 1 (unpagedFilters noExpenseQuery)).length : ℚ)
      / ((2 : Nat) : ℚ)⌉₊ = 2 := by decide!
  rw [hlen] at h
  exact h

/-! ## Lemmas on the search filter -/

theorem likeMatch_cons (p : Char) (ps t : List Char) :
    likeMatch (p :: ps) t =
      if p = '%' then t.tails.any (likeMatch ps)
      else if p = '_' then
        match t with
        | [] => false
        | _ :: ts => likeMatch ps ts
      else if p = likeEscape then
        match ps, t with
        | x :: rest, c :: ts => (x.toLower == c.toLower) && likeMatch rest ts
        | [], c :: ts => (c == likeEscape) && ts.isEmpty
        | _, [] => false
      else
        match t with
        | [] => false
        | c :: ts => (p.toLower == c.toLower) && likeMatch ps ts := by
  cases ps <;> cases t <;> rfl

theorem likeMatch_percent_cons (ps t : List Char) :
    likeMatch ('%' :: ps) t = t.tails.any (likeMatch ps) := by
  rw [likeMatch_cons]
  simp only [if_true]

theorem likeMatch_plain_cons (p : Char) (ps t : List Char)
    (hp : p ≠ '%' ∧ p ≠ '_' ∧ p ≠ likeEscape) :
    likeMatch (p :: ps) t
      = match t with
        | [] => false
        | c :: ts => (p.toLower == c.toLower) && likeMatch ps ts := by
  rw [likeMatch_cons]
  simp only [hp.1, hp.2.1, hp.2.2, if_false]

theorem likeMatch_percent (t : List Char) : likeMatch ['%'] t = true := by
  rw [likeMatch_percent_cons, List.any_eq_true]
  exact ⟨[], (List.mem_tails _ _).mpr (List.nil_suffix), rfl⟩

theorem likeMatch_plain_prefix (q : List Char) (hq : PlainPattern q) :
    ∀ t : List Char, likeMatch (q ++ ['%']) t = true
      ↔ (q.map Char.toLower) <+: (t.map Char.toLower) := by
  induction q with
  | nil => intro t; simp [likeMatch_percent]
  | cons p ps ih =>
    intro t
    have hp := hq p (List.mem_cons_self _ _)
    have hps : PlainPattern ps := fun c hc => hq c (List.mem_cons_of_mem _ hc)
    rw [List.cons_append, likeMatch_plain_cons p _ t hp]
    cases t with
    | nil => simp
    | cons c ts =>
      simp only [Bool.and_eq_true, beq_iff_eq, List.map_cons, List.cons_prefix_cons, ih hps ts]

/-- For a search string without pattern characters, `text LIKE '%q%'` holds
exactly when `text` contains `q`, letter case ignored. -/
theorem likeMatch_plain_contains (q : List Char) (hq : PlainPattern q) (t : List Char) :
    likeMatch (('%' :: q) ++ ['%']) t = true ↔ ContainsIgnoreCase q t := by
  rw [List.cons_append, likeMatch_percent_cons]
  simp only [List.any_eq_true, List.mem_tails, likeMatch_plain_prefix q hq]
  unfold ContainsIgnoreCase
  rw [List.infix_iff_prefix_suffix]
  constructor
  · rintro ⟨r, hr, hpre⟩
    exact ⟨r.map Char.toLower, hpre, hr.map _⟩
  · rintro ⟨r, hpre, hsuf⟩
    obtain ⟨a, ha⟩ := hsuf
    obtain ⟨a', r', rfl, rfl, rfl⟩ := List.map_eq_append_iff.mp ha.symm
    exact ⟨r', List.suffix_append _ _, hpre⟩

theorem searchMatches_plain (q : String) (hq : PlainPattern q.toList) (e : ExpenseRow) :
    searchMatches q e = true ↔ SearchHit q e := by
  unfold searchMatches SearchHit
  rw [Bool.or_eq_true, likeMatch_plain_contains q.toList hq]
  cases e.description with
  | none => simp
  | some d => simp only [likeMatch_plain_contains q.toList hq]

/-- In a store in which every expense has its category (`id` a key of
`categories`), the unlimited listing consists of the expenses that pass the
`WHERE` clause, one row each. -/
theorem findByUser_expenses_perm (s : Store)
    (hpk : (s.categories.map (·.id)).Nodup)
    (hfk : ∀ e ∈ s.expenses, ∃ c ∈ s.categories, c.id = e.category_id)
    (u : Nat) (f : ExpenseFilters) (hlimit : f.limit = none) :
    ((Expense.findByUser s u f).map (·.expense)).Perm
      (s.expenses.filter (Expense.findByUserWhere u f)) := by
  unfold Expense.findByUser
  simp only [hlimit]
  refine ((List.perm_insertionSort _ _).map _).trans ?_
  rw [List.map_flatMap]
  have hone : ∀ e ∈ s.expenses.filter (Expense.findByUserWhere u f),
      ((s.categories.filter (fun c => e.category_id == c.id)).map fun c =>
        ({ expense := e, category_name := c.name, category_color := c.color,
           category_icon := c.icon } : ExpenseView)).map (·.expense) = [e] := by
    intro e he
    obtain ⟨c, hc, hid⟩ := hfk e (List.mem_of_mem_filter he)
    have hsingle : s.categories.filter (fun c => e.category_id == c.id) = [c] := by
      apply filter_eq_singleton_of_nodup (·.id) _ s.categories c hpk hc
      · simp [hid]
      · intro x _ hx
        simp only [beq_iff_eq] at hx
        rw [← hx, hid]
    rw [hsingle]
    rfl
  rw [flatMap_eq_map_of_singleton _ id _ hone]
  simp

/-- C24 fails on the code: in the scenario store the three expenses of user 1
are titled "shop" and have no description, so none contains "s_op" or "%"; yet
the searches "s_op" and "%" each return all three, since `_` and `%` of the
search string act as wildcards of the `LIKE` pattern. -/
theorem search_wildcards_match :
    (Expense.findByUser scenarioStore 1 (searchFilters "s_op")).map (·.expense.id) = [3, 2, 1]
      ∧ (Expense.findByUser scenarioStore 1 (searchFilters "%")).map (·.expense.id) = [3, 2, 1]
      ∧ scenarioStore.expenses.filter
          (fun e => decide (e.user_id = 1 ∧ SearchHit "s_op" e)) = []
      ∧ scenarioStore.expenses.filter
          (fun e => decide (e.user_id = 1 ∧ SearchHit "%" e)) = [] := by
  decide!

/-- C24, amended: for a non-empty search string `q` none of whose characters is
`%`, `_` or the escape character, in a store in which every expense has its
category, `Expense.findByUser(u, {search: q})` returns exactly the transactions
of `u` whose title or description contains `q` as a case-insensitive substring,
one row each, and `Expense.getCount` reports their number. -/
theorem search_plain_substring (s : Store)
    (hpk : (s.categories.map (·.id)).Nodup)
    (hfk : ∀ e ∈ s.expenses, ∃ c ∈ s.categories, c.id = e.category_id)
    (u : Nat) (q : String) (hq : q ≠ "") (hplain : PlainPattern q.toList) :
    ((Expense.findByUser s u (searchFilters q)).map (·.expense)).Perm
        (s.expenses.filter (fun e => decide (e.user_id = u ∧ SearchHit q e)))
      ∧ Expense.getCount s u (searchFilters q)
        = (s.expenses.filter (fun e => decide (e.user_id = u ∧ SearchHit q e))).length := by
  have hwhere : ∀ e, Expense.findByUserWhere u (searchFilters q) e
      = decide (e.user_id = u ∧ SearchHit q e) := by
    intro e
    rw [Bool.eq_iff_iff]
    simp only [Expense.findByUserWhere, searchFilters, noExpenseFilters, hq, if_false,
      Bool.and_true, Bool.and_eq_true, beq_iff_eq, decide_eq_true_eq,
      searchMatches_plain q hplain e]
  have hperm := findByUser_expenses_perm s hpk hfk u (searchFilters q) rfl
  rw [List.filter_congr (fun e _ => hwhere e)] at hperm
  refine ⟨hperm, ?_⟩
  rw [getCount_eq_length_without_amount s hpk hfk u (searchFilters q) (Or.inl rfl) (Or.inl rfl)
    rfl, ← hperm.length_eq, List.length_map]

/-- Witness of C24 (amended) on the scenario store: the search "HO" returns the
three expenses titled "shop". -/
theorem search_plain_substring_witness :
    ((Expense.findByUser scenarioStore 1 (searchFilters "HO")).map (·.expense)).Perm
        (scenarioStore.expenses.filter (fun e => decide (e.user_id = 1 ∧ SearchHit "HO" e)))
      ∧ (scenarioStore.expenses.filter
          (fun e => decide (e.user_id = 1 ∧ SearchHit "HO" e))).length = 3 :=
  ⟨(search_plain_substring scenarioStore (by decide) (by decide) 1 "HO" (by decide)
      (by decide)).1, by decide!⟩


/-! ## Lemmas on the order of the expense listing -/

/-- The listing is sorted by its `ORDER BY` clause. -/
theorem findByUser_sorted (s : Store) (u : Nat) (f : ExpenseFilters) (hlimit : f.limit = none) :
    (Expense.findByUser s u f).Sorted (expenseOrder f) := by
  haveI : IsTotal ExpenseView (expenseOrder f) := ⟨fun v w => by
    unfold expenseOrder
    by_cases h : f.sortOrder = some "asc"
    · simp only [h, if_true]
      exact columnLE_total _ _ _
    · simp only [h, if_false]
      exact (columnLE_total _ _ _).symm⟩
  haveI : IsTrans ExpenseView (expenseOrder f) := ⟨fun x y z => by
    unfold expenseOrder
    by_cases h : f.sortOrder = some "asc"
    · simp only [h, if_true]
      exact columnLE_trans _ _ _ _
    · simp only [h, if_false]
      exact fun h1 h2 => columnLE_trans _ _ _ _ h2 h1⟩
  unfold Expense.findByUser
  simp only [hlimit]
  exact List.sorted_insertionSort _ _

theorem searchMatches_empty (e : ExpenseRow) : searchMatches "" e = true := by
  unfold searchMatches
  have h : likeMatch (('%' :: "".toList) ++ ['%']) e.title.toList = true := by
    show likeMatch ('%' :: ['%']) e.title.toList = true
    rw [likeMatch_percent_cons, List.any_eq_true]
    exact ⟨[], (List.mem_tails _ _).mpr (List.nil_suffix), rfl⟩
  rw [h]
  rfl

/-- Where no filter of `f` has the value 0, the `WHERE` clause of
`Expense.findByUser` holds exactly for the transactions of the user that satisfy
every filter that `f` sets. -/
theorem findByUserWhere_iff (u : Nat) (f : ExpenseFilters) (e : ExpenseRow)
    (hcat : f.categoryId ≠ some 0) (hmin : f.minAmount ≠ some 0)
    (hmax : f.maxAmount ≠ some 0) :
    Expense.findByUserWhere u f e = true ↔ SatisfiesFilters u f e := by
  unfold Expense.findByUserWhere SatisfiesFilters
  simp only [Bool.and_eq_true, beq_iff_eq]
  have h1 : (match f.type with
      | some t => e.type == t
      | none => true) = true ↔ ∀ t, f.type = some t → e.type = t := by
    cases f.type <;> simp
  have h2 : (match f.categoryId with
      | some c => if c = 0 then true else e.category_id == c
      | none => true) = true ↔ ∀ c, f.categoryId = some c → e.category_id = c := by
    cases hc : f.categoryId with
    | none => simp
    | some c =>
      have hc0 : c ≠ 0 := fun h => hcat (by rw [hc, h])
      simp [hc0]
  have h3 : (match f.startDate with
      | some d => decide (e.date ≥ d)
      | none => true) = true ↔ ∀ d, f.startDate = some d → e.date ≥ d := by
    cases f.startDate <;> simp
  have h4 : (match f.endDate with
      | some d => decide (e.date ≤ d)
      | none => true) = true ↔ ∀ d, f.endDate = some d → e.date ≤ d := by
    cases f.endDate <;> simp
  have h5 : (match f.minAmount with
      | some m => if m = 0 then true else decide (e.amount ≥ m)
      | none => true) = true ↔ ∀ m, f.minAmount = some m → e.amount ≥ m := by
    cases hm : f.minAmount with
    | none => simp
    | some m =>
      have hm0 : m ≠ 0 := fun h => hmin (by rw [hm, h])
      simp [hm0]
  have h6 : (match f.maxAmount with
      | some m => if m = 0 then true else decide (e.amount ≤ m)
      | none => true) = true ↔ ∀ m, f.maxAmount = some m → e.amount ≤ m := by
    cases hm : f.maxAmount with
    | none => simp
    | some m =>
      have hm0 : m ≠ 0 := fun h => hmax (by rw [hm, h])
      simp [hm0]
  have h7 : (match f.search with
      | some q => if q = "" then true else searchMatches q e
      | none => true) = true ↔ ∀ q, f.search = some q → searchMatches q e = true := by
    cases f.search with
    | none => simp
    | some q =>
      by_cases hq : q = ""
      · simp [hq, searchMatches_empty]
      · simp [hq]
  constructor
  · rintro ⟨⟨⟨⟨⟨⟨⟨h0, a1⟩, a2⟩, a3⟩, a4⟩, a5⟩, a6⟩, a7⟩
    exact ⟨h0, h1.mp a1, h2.mp a2, h3.mp a3, h4.mp a4, h5.mp a5, h6.mp a6, h7.mp a7⟩
  · rintro ⟨h0, a1, a2, a3, a4, a5, a6, a7⟩
    exact ⟨⟨⟨⟨⟨⟨⟨h0, h1.mpr a1⟩, h2.mpr a2⟩, h3.mpr a3⟩, h4.mpr a4⟩, h5.mpr a5⟩, h6.mpr a6⟩,
      h7.mpr a7⟩

/-- Off the zero-valued filters the listing is as specified: for a filter object
without limit none of whose `categoryId`, `minAmount`, `maxAmount` is 0, in a
store in which every expense has its category, `Expense.findByUser` returns,
one row each, the transactions of the user that satisfy every filter set, all
of the user's transactions for the empty filter object, sorted by the `ORDER
BY` clause: by date descending when neither `sortBy` nor `sortOrder` is given,
and descending for every `sortOrder` other than `'asc'`. -/
theorem findByUser_filters (s : Store)
    (hpk : (s.categories.map (·.id)).Nodup)
    (hfk : ∀ e ∈ s.expenses, ∃ c ∈ s.categories, c.id = e.category_id)
    (u : Nat) (f : ExpenseFilters) (hlimit : f.limit = none)
    (hcat : f.categoryId ≠ some 0) (hmin : f.minAmount ≠ some 0)
    (hmax : f.maxAmount ≠ some 0) :
    ((Expense.findByUser s u f).map (·.expense)).Perm
        (s.expenses.filter (Expense.findByUserWhere u f))
      ∧ (∀ e, Expense.findByUserWhere u f e = true ↔ SatisfiesFilters u f e)
      ∧ ((Expense.findByUser s u noExpenseFilters).map (·.expense)).Perm
          (s.expenses.filter (fun e => e.user_id == u))
      ∧ (Expense.findByUser s u f).Sorted (expenseOrder f)
      ∧ (f.sortBy = none → f.sortOrder = none →
          ∀ v w, expenseOrder f v w ↔ w.expense.date ≤ v.expense.date)
      ∧ (f.sortOrder ≠ some "asc" →
          ∀ v w, expenseOrder f v w
            ↔ columnLE (f.sortBy.getD SortColumn.date) w.expense v.expense = true) := by
  refine ⟨findByUser_expenses_perm s hpk hfk u f hlimit,
    fun e => findByUserWhere_iff u f e hcat hmin hmax, ?_,
    findByUser_sorted s u f hlimit, ?_, ?_⟩
  · have h := findByUser_expenses_perm s hpk hfk u noExpenseFilters rfl
    have hw : ∀ e, Expense.findByUserWhere u noExpenseFilters e = (e.user_id == u) := by
      intro e
      simp [Expense.findByUserWhere, noExpenseFilters]
    rwa [List.filter_congr (fun e _ => hw e)] at h
  · intro hby hord v w
    simp [expenseOrder, hby, hord, columnLE]
  · intro hord v w
    simp [expenseOrder, hord]

/-- C25 fails on the code: in the scenario store no expense of user 1 has an
amount of at most 0 and none is in a category 0, so the filter objects
`{maxAmount: 0}` and `{categoryId: 0}` should return no row; `Expense.findByUser`
tests the filters for truthiness, drops both conditions and returns all three
expenses. -/
theorem zero_filters_ignored :
    (Expense.findByUser scenarioStore 1 atMostZero).map (·.expense.id) = [3, 2, 1]
      ∧ scenarioStore.expenses.filter (fun e => decide (e.user_id = 1 ∧ e.amount ≤ 0)) = []
      ∧ (Expense.findByUser scenarioStore 1 categoryZero).map (·.expense.id) = [3, 2, 1]
      ∧ scenarioStore.expenses.filter (fun e => decide (e.user_id = 1 ∧ e.category_id = 0))
          = [] := by
  decide!


/-! ## Lemmas on the category listing -/

theorem filterMap_leftJoinOn {α : Type} (es : List ExpenseRow) (cond : ExpenseRow → Bool)
    (g : Option ExpenseRow → Option α) (hg : g none = none) :
    ((leftJoinOn es cond).map g).filterMap id = (es.filter cond).filterMap (fun e => g (some e)) := by
  unfold leftJoinOn
  cases h : es.filter cond with
  | nil => simp [hg]
  | cons m ms =>
    simp only [List.map_map, List.filterMap_map]
    rfl

theorem filterMap_caseType {α : Type} (k : TxType) (val : ExpenseRow → α) :
    ∀ l : List ExpenseRow, l.filterMap (fun e => caseType k val (some e))
      = (l.filter (fun e => decide (e.type = k))).map val := by
  intro l
  induction l with
  | nil => rfl
  | cons e l ih =>
    simp only [caseType] at ih ⊢
    by_cases h : e.type = k
    · simp [List.filterMap_cons, h, ih]
    · simp [List.filterMap_cons, h, ih]

theorem sqlCount_leftJoinOn (es : List ExpenseRow) (cond : ExpenseRow → Bool) :
    sqlCount ((leftJoinOn es cond).map (Option.map (·.id))) = (es.filter cond).length := by
  unfold sqlCount
  rw [filterMap_leftJoinOn es cond _ rfl]
  simp

theorem sum_caseType_leftJoinOn (k : TxType) (es : List ExpenseRow) (cond : ExpenseRow → Bool) :
    coalesce (sqlSum ((leftJoinOn es cond).map (caseType k (·.amount)))) 0
      = (amountsOf k (es.filter cond)).sum := by
  rw [coalesce_sqlSum, filterMap_leftJoinOn es cond _ rfl, filterMap_caseType]
  rfl

theorem categoryOrder_total (a b : CategoryRow) : categoryOrder a b ∨ categoryOrder b a := by
  unfold categoryOrder
  rcases le_total a.name b.name with h | h <;>
    cases a.is_default <;> cases b.is_default <;> simp [h]

theorem categoryOrder_trans (a b c : CategoryRow) (hab : categoryOrder a b)
    (hbc : categoryOrder b c) : categoryOrder a c := by
  unfold categoryOrder at *
  rcases hab with ⟨h1, h2⟩ | ⟨h1, h2⟩ <;> rcases hbc with ⟨h3, h4⟩ | ⟨h3, h4⟩
  · rw [h2] at h3; cases h3
  · exact Or.inl ⟨h1, h3 ▸ h2⟩
  · exact Or.inl ⟨h1 ▸ h3, h4⟩
  · exact Or.inr ⟨h1.trans h3, le_trans h2 h4⟩

theorem ownTransactions_eq (s : Store) (u : Nat) (c : CategoryRow) :
    s.expenses.filter (fun e => c.id == e.category_id && e.user_id == u)
      = ownTransactions s u c := by
  unfold ownTransactions
  apply List.filter_congr
  intro e _
  rw [Bool.eq_iff_iff]
  simp only [Bool.and_eq_true, beq_iff_eq, decide_eq_true_eq]
  constructor
  · rintro ⟨h1, h2⟩; exact ⟨h1.symm, h2⟩
  · rintro ⟨h1, h2⟩; exact ⟨h1.symm, h2⟩

/-- C21: for every caller `u`, in a store with `id` a key of `categories`,
`Category.findByUser(u)` returns exactly the categories owned by `u` and the
default categories, each once, the defaults before the others and the names
ascending among the defaults and among the others; in each row `is_custom` is
true exactly when the owner is `u`, `expense_count` is the number of
transactions of `u`, of either kind, in the category, and `total_expenses` and
`total_income` are the sums of the amounts of the expenses and of the incomes of
`u` in it. -/
theorem findByUser_listing (s : Store) (hpk : (s.categories.map (·.id)).Nodup) (u : Nat) :
    ((Category.findByUser s u).map (·.category)).Perm
        (s.categories.filter (fun c => decide (c.user_id = some u ∨ c.is_default = true)))
      ∧ ((Category.findByUser s u).map (·.category.id)).Nodup
      ∧ (Category.findByUser s u).Pairwise (fun v w =>
          (w.category.is_default = true → v.category.is_default = true)
          ∧ (v.category.is_default = w.category.is_default
              → v.category.name ≤ w.category.name))
      ∧ ∀ v ∈ Category.findByUser s u,
          (v.is_custom = true ↔ v.category.user_id = some u)
          ∧ v.expense_count = (ownTransactions s u v.category).length
          ∧ v.total_expenses = (amountsOf TxType.expense (ownTransactions s u v.category)).sum
          ∧ v.total_income = (amountsOf TxType.income (ownTransactions s u v.category)).sum := by
  haveI : IsTotal CategoryListing listingOrder :=
    ⟨fun v w => categoryOrder_total v.category w.category⟩
  haveI : IsTrans CategoryListing listingOrder :=
    ⟨fun x y z => categoryOrder_trans x.category y.category z.category⟩
  have hfilter : s.categories.filter (fun c => c.user_id == some u || c.is_default)
      = s.categories.filter (fun c => decide (c.user_id = some u ∨ c.is_default = true)) := by
    apply List.filter_congr
    intro c _
    rw [Bool.eq_iff_iff]
    simp
  have hperm : ((Category.findByUser s u).map (·.category)).Perm
      (s.categories.filter (fun c => decide (c.user_id = some u ∨ c.is_default = true))) := by
    unfold Category.findByUser
    refine ((List.perm_insertionSort _ _).map _).trans ?_
    rw [List.map_map, hfilter]
    simp [Function.comp_def]
  refine ⟨hperm, ?_, ?_, ?_⟩
  · have hids : ((Category.findByUser s u).map (·.category.id)).Perm
        ((s.categories.filter
          (fun c => decide (c.user_id = some u ∨ c.is_default = true))).map (·.id)) := by
      have h := hperm.map (·.id)
      rwa [List.map_map] at h
    rw [hids.nodup_iff]
    exact (List.filter_sublist _).map _ |>.nodup hpk
  · have hsorted : (Category.findByUser s u).Sorted listingOrder := by
      unfold Category.findByUser
      exact List.sorted_insertionSort _ _
    refine List.Pairwise.imp ?_ hsorted
    intro v w hvw
    unfold listingOrder categoryOrder at hvw
    rcases hvw with ⟨h1, h2⟩ | ⟨h1, h2⟩
    · refine ⟨fun _ => h1, fun h => ?_⟩
      rw [h1, h2] at h
      cases h
    · exact ⟨fun h => h1 ▸ h, fun _ => h2⟩
  · intro v hv
    unfold Category.findByUser at hv
    rw [(List.perm_insertionSort _ _).mem_iff, List.mem_map] at hv
    obtain ⟨c, _, rfl⟩ := hv
    simp only [sqlCount_leftJoinOn, sum_caseType_leftJoinOn, ownTransactions_eq, beq_iff_eq,
      and_self, and_true]

/-- Witness of C21 on the listing store: user 1 sees the defaults "Food" and
"Transport", then the own "Groceries", not "Rent" of user 2; in "Food" the
expense of user 2 is not counted. -/
theorem findByUser_listing_witness :
    (Category.findByUser listingStore 1).map
        (fun v => (v.category.name, v.is_custom, v.expense_count, v.total_expenses,
          v.total_income))
        = [("Food", false, 4, 151 / 2, 70), ("Transport", false, 0, 0, 0),
           ("Groceries", true, 1, 120, 0)]
      ∧ ((Category.findByUser listingStore 1).map (·.category.id)).Nodup :=
  ⟨by decide!, (findByUser_listing listingStore (by decide) 1).2.1⟩


/-! ## Lemmas on the summary by category -/

theorem sum_leftJoinOn (es : List ExpenseRow) (cond : ExpenseRow → Bool) :
    coalesce (sqlSum ((leftJoinOn es cond).map (Option.map (·.amount)))) 0
      = ((es.filter cond).map (·.amount)).sum := by
  rw [coalesce_sqlSum, filterMap_leftJoinOn es cond _ rfl]
  have h : (fun e : ExpenseRow => Option.map (fun x => x.amount) (some e))
      = some ∘ (fun x => x.amount) := rfl
  rw [h, List.filterMap_eq_map]

theorem matchingTransactions_eq (s : Store) (u : Nat) (sd ed : Date) (k : Option TxType)
    (c : CategoryRow) :
    s.expenses.filter (summaryOn u sd ed k c) = matchingTransactions s u sd ed k c := by
  unfold matchingTransactions
  apply List.filter_congr
  intro e _
  rw [Bool.eq_iff_iff]
  unfold summaryOn
  cases k with
  | none =>
    simp only [Bool.and_eq_true, beq_iff_eq, decide_eq_true_eq, Bool.and_true, ge_iff_le]
    constructor
    · rintro ⟨⟨⟨h1, h2⟩, h3⟩, h4⟩
      exact ⟨h1.symm, h2, h3, h4, fun t ht => by cases ht⟩
    · rintro ⟨h1, h2, h3, h4, _⟩
      exact ⟨⟨⟨h1.symm, h2⟩, h3⟩, h4⟩
  | some t =>
    simp only [Bool.and_eq_true, beq_iff_eq, decide_eq_true_eq, ge_iff_le]
    constructor
    · rintro ⟨⟨⟨⟨h1, h2⟩, h3⟩, h4⟩, h5⟩
      exact ⟨h1.symm, h2, h3, h4, fun t' ht => by cases ht; exact h5⟩
    · rintro ⟨h1, h2, h3, h4, h5⟩
      exact ⟨⟨⟨⟨h1.symm, h2⟩, h3⟩, h4⟩, h5 t rfl⟩

/-- The rows of the summary before `ORDER BY`: the specified row of every
visible category that is a default or has a matching transaction. -/
theorem getSummaryByCategory_perm (s : Store) (u : Nat) (sd ed : Date) (k : Option TxType) :
    (Expense.getSummaryByCategory s u sd ed k).Perm
      ((s.categories.filter (fun c =>
          decide ((c.user_id = some u ∨ c.is_default = true)
            ∧ (c.is_default = true ∨ matchingTransactions s u sd ed k c ≠ [])))).map
        (summaryOf s u sd ed k)) := by
  unfold Expense.getSummaryByCategory
  refine (List.perm_insertionSort _ _).trans ?_
  apply List.Perm.of_eq
  simp only [sqlCount_leftJoinOn, sum_leftJoinOn, matchingTransactions_eq]
  induction s.categories with
  | nil => rfl
  | cons c cs ih =>
    by_cases hvis : c.user_id = some u ∨ c.is_default = true
    · have hv : (c.user_id == some u || c.is_default) = true := by
        simpa using hvis
      by_cases hkeep : c.is_default = true ∨ matchingTransactions s u sd ed k c ≠ []
      · have hk : (matchingTransactions s u sd ed k c).length > 0 ∨ c.is_default = true := by
          rcases hkeep with h | h
          · exact Or.inr h
          · exact Or.inl (List.length_pos.mpr h)
        have hd : decide ((c.user_id = some u ∨ c.is_default = true)
            ∧ (c.is_default = true ∨ matchingTransactions s u sd ed k c ≠ [])) = true :=
          decide_eq_true ⟨hvis, hkeep⟩
        simp only [List.filter_cons, hv, hd, if_true, List.filterMap_cons, hk, List.map_cons, ih]
        rfl
      · have hk : ¬ ((matchingTransactions s u sd ed k c).length > 0 ∨ c.is_default = true) := by
          rintro (h | h)
          · exact hkeep (Or.inr (List.length_pos.mp h))
          · exact hkeep (Or.inl h)
        have hd : decide ((c.user_id = some u ∨ c.is_default = true)
            ∧ (c.is_default = true ∨ matchingTransactions s u sd ed k c ≠ [])) = false :=
          decide_eq_false (fun h => hkeep h.2)
        simp only [List.filter_cons, hv, hd, if_true, List.filterMap_cons, hk, if_false, ih,
          Bool.false_eq_true]
    · have hv : (c.user_id == some u || c.is_default) = false := by
        simpa using hvis
      have hd : decide ((c.user_id = some u ∨ c.is_default = true)
          ∧ (c.is_default = true ∨ matchingTransactions s u sd ed k c ≠ [])) = false :=
        decide_eq_false (fun h => hvis h.1)
      simp only [List.filter_cons, hv, hd, if_false, ih, Bool.false_eq_true]

theorem amountDesc_sorted (l : List CategorySummary) :
    (l.insertionSort amountDesc).Sorted amountDesc := by
  haveI : IsTotal CategorySummary amountDesc := ⟨fun v w => le_total w.total_amount v.total_amount⟩
  haveI : IsTrans CategorySummary amountDesc := ⟨fun _ _ _ h1 h2 => le_trans h2 h1⟩
  exact List.sorted_insertionSort _ _

/-- C22: for every user `u`, date range and optional kind `k`,
`Expense.getSummaryByCategory(u, s, e, k)` returns one row per category that is
visible to `u` (default or owned by `u`) and that is a default or has a
transaction of `u` dated in the range (of kind `k` when given); the row's
`transaction_count` and `total_amount` are the number and the sum of those
transactions, 0 and 0 for a default without any; no category has two rows when
`id` is a key of `categories`; and the rows are sorted by `total_amount`
descending. -/
theorem getSummaryByCategory_spec (s : Store) (hpk : (s.categories.map (·.id)).Nodup)
    (u : Nat) (sd ed : Date) (k : Option TxType) :
    (Expense.getSummaryByCategory s u sd ed k).Perm
        ((s.categories.filter (fun c =>
            decide ((c.user_id = some u ∨ c.is_default = true)
              ∧ (c.is_default = true ∨ matchingTransactions s u sd ed k c ≠ [])))).map
          (summaryOf s u sd ed k))
      ∧ ((Expense.getSummaryByCategory s u sd ed k).map (·.category_id)).Nodup
      ∧ (∀ c, matchingTransactions s u sd ed k c = [] →
          (summaryOf s u sd ed k c).transaction_count = 0
            ∧ (summaryOf s u sd ed k c).total_amount = 0)
      ∧ (Expense.getSummaryByCategory s u sd ed k).Sorted amountDesc := by
  have hperm := getSummaryByCategory_perm s u sd ed k
  refine ⟨hperm, ?_, ?_, ?_⟩
  · rw [(hperm.map (·.category_id)).nodup_iff, List.map_map]
    exact ((List.filter_sublist _).map (fun c : CategoryRow => c.id)).nodup hpk
  · intro c hc
    simp [summaryOf, hc]
  · unfold Expense.getSummaryByCategory
    exact amountDesc_sorted _

/-- Witness of C22 on the listing store, user 1, January 2024: without a kind
"Food" has three transactions (135.50), "Groceries" one (120.00) and the default
"Transport" none; for the kind `expense` "Groceries" comes first. -/
theorem getSummaryByCategory_spec_witness :
    (Expense.getSummaryByCategory listingStore 1 20240101 20240131 none).map
        (fun r => (r.category_name, r.transaction_count, r.total_amount))
        = [("Food", 3, 271 / 2), ("Groceries", 1, 120), ("Transport", 0, 0)]
      ∧ (Expense.getSummaryByCategory listingStore 1 20240101 20240131
          (some TxType.expense)).map
        (fun r => (r.category_name, r.transaction_count, r.total_amount))
        = [("Groceries", 1, 120), ("Food", 2, 131 / 2), ("Transport", 0, 0)]
      ∧ ((Expense.getSummaryByCategory listingStore 1 20240101 20240131 none).map
          (·.category_id)).Nodup :=
  ⟨by decide!, by decide!,
    (getSummaryByCategory_spec listingStore (by decide) 1 20240101 20240131 none).2.1⟩


/-! ## Lemmas on the statistics -/

theorem foldl_add_eq_sum {α M : Type} [AddCommMonoid M] (f : α → M) :
    ∀ (l : List α) (init : M), l.foldl (fun sum item => sum + f item) init
      = init + (l.map f).sum := by
  intro l
  induction l with
  | nil => intro init; simp
  | cons a l ih =>
    intro init
    rw [List.foldl_cons, ih, List.map_cons, List.sum_cons, add_assoc]

theorem sum_map_filter_of_zero {α M : Type} [AddCommMonoid M] (p : α → Bool) (f : α → M) :
    ∀ l : List α, (∀ x ∈ l, p x = false → f x = 0) →
      ((l.filter p).map f).sum = (l.map f).sum := by
  intro l
  induction l with
  | nil => intro _; rfl
  | cons a l ih =>
    intro h
    have ih' := ih (fun x hx => h x (List.mem_cons_of_mem a hx))
    cases hp : p a with
    | true => simp only [List.filter_cons, hp, if_true, List.map_cons, List.sum_cons, ih']
    | false =>
      simp only [List.filter_cons, hp, Bool.false_eq_true, if_false, List.map_cons,
        List.sum_cons, ih', h a (List.mem_cons_self a l) hp, zero_add]

theorem sum_map_ite_key {M : Type} [AddCommMonoid M] (key : Nat) (x : M) :
    ∀ C : List CategoryRow, (C.map (·.id)).Nodup → (∃ c ∈ C, c.id = key) →
      (C.map fun c => if key = c.id then x else 0).sum = x := by
  intro C
  induction C with
  | nil => intro _ h; obtain ⟨c, hc, _⟩ := h; cases hc
  | cons a C ih =>
    intro hnd hex
    rw [List.map_cons, List.nodup_cons] at hnd
    rw [List.map_cons, List.sum_cons]
    by_cases ha : key = a.id
    · have hzero : (C.map fun c => if key = c.id then x else 0).sum = 0 := by
        apply List.sum_eq_zero
        intro y hy
        obtain ⟨c, hc, rfl⟩ := List.mem_map.mp hy
        have hne : key ≠ c.id := by
          intro h
          exact hnd.1 (List.mem_map.mpr ⟨c, hc, by rw [← h, ha]⟩)
        simp [hne]
      rw [if_pos ha, hzero, add_zero]
    · obtain ⟨c, hc, hkey⟩ := hex
      have hcC : c ∈ C := by
        rcases List.mem_cons.mp hc with rfl | h
        · exact absurd hkey.symm ha
        · exact h
      rw [if_neg ha, zero_add]
      exact ih hnd.2 ⟨c, hcC, hkey⟩

/-- Summing per category over categories with distinct ids counts every
transaction whose category is among them once. -/
theorem sum_over_categories {M : Type} [AddCommMonoid M] (C : List CategoryRow)
    (hnd : (C.map (·.id)).Nodup) (g : ExpenseRow → M) :
    ∀ E : List ExpenseRow, (∀ e ∈ E, ∃ c ∈ C, c.id = e.category_id) →
      (C.map fun c => ((E.filter (fun e => decide (e.category_id = c.id))).map g).sum).sum
        = (E.map g).sum := by
  intro E
  induction E with
  | nil => intro _; simp
  | cons e E ih =>
    intro h
    have ih' := ih (fun x hx => h x (List.mem_cons_of_mem e hx))
    have hsplit : ∀ c : CategoryRow,
        (((e :: E).filter (fun e => decide (e.category_id = c.id))).map g).sum
          = (if e.category_id = c.id then g e else 0)
            + ((E.filter (fun e => decide (e.category_id = c.id))).map g).sum := by
      intro c
      by_cases hc : e.category_id = c.id
      · simp [List.filter_cons, hc]
      · simp [List.filter_cons, hc]
    simp only [hsplit]
    rw [List.sum_map_add, ih', sum_map_ite_key e.category_id (g e) C hnd
      (h e (List.mem_cons_self e E)), List.map_cons, List.sum_cons]

theorem matchingTransactions_none (s : Store) (u : Nat) (sd ed : Date) (c : CategoryRow) :
    matchingTransactions s u sd ed none c
      = (transactionsInRange s u sd ed).filter (fun e => decide (e.category_id = c.id)) := by
  unfold matchingTransactions transactionsInRange
  rw [List.filter_filter]
  apply List.filter_congr
  intro e _
  rw [Bool.eq_iff_iff]
  simp only [decide_eq_true_eq, Bool.and_eq_true]
  constructor
  · rintro ⟨h1, h2, h3, h4, _⟩
    exact ⟨h1, h2, h3, h4⟩
  · rintro ⟨h1, h2, h3, h4⟩
    exact ⟨h1, h2, h3, h4, fun t ht => by cases ht⟩

/-- A column of the summary that is, per category, the sum of `g` over the
matching transactions adds up, over the rows of the summary without a kind, to
the sum of `g` over all transactions of the user in the range, in a store with
`id` a key of `categories` in which every transaction's category is accessible
to its user. -/
theorem summary_column_sum {M : Type} [AddCommMonoid M] (s : Store)
    (hpk : (s.categories.map (·.id)).Nodup) (hacc : ExpensesAccessible s)
    (u : Nat) (sd ed : Date) (col : CategorySummary → M) (g : ExpenseRow → M)
    (hcol : ∀ c, col (summaryOf s u sd ed none c)
      = ((matchingTransactions s u sd ed none c).map g).sum) :
    ((Expense.getSummaryByCategory s u sd ed none).map col).sum
      = ((transactionsInRange s u sd ed).map g).sum := by
  rw [((getSummaryByCategory_perm s u sd ed none).map col).sum_eq, List.map_map]
  have hsplit : s.categories.filter (fun c =>
        decide ((c.user_id = some u ∨ c.is_default = true)
          ∧ (c.is_default = true ∨ matchingTransactions s u sd ed none c ≠ [])))
      = (s.categories.filter (fun c => decide (c.user_id = some u ∨ c.is_default = true))).filter
          (fun c => decide (c.is_default = true ∨ matchingTransactions s u sd ed none c ≠ [])) := by
    rw [List.filter_filter]
    apply List.filter_congr
    intro c _
    rw [Bool.eq_iff_iff]
    simp only [decide_eq_true_eq, Bool.and_eq_true]
    exact and_comm
  rw [hsplit, sum_map_filter_of_zero]
  · have hfun : (col ∘ summaryOf s u sd ed none)
        = fun c => (((transactionsInRange s u sd ed).filter
            (fun e => decide (e.category_id = c.id))).map g).sum := by
      funext c
      rw [Function.comp_apply, hcol, matchingTransactions_none]
    rw [hfun]
    apply sum_over_categories _ (((List.filter_sublist _).map (fun c : CategoryRow => c.id)).nodup hpk)
    intro e he
    have hmem := List.mem_filter.mp he
    have hu : e.user_id = u := (of_decide_eq_true hmem.2).1
    obtain ⟨row, hrow, hid, hvis⟩ :=
      (canAccess_iff_exists s e.category_id e.user_id).mp (hacc e hmem.1)
    refine ⟨row, List.mem_filter.mpr ⟨hrow, decide_eq_true ?_⟩, hid⟩
    rw [← hu]
    exact hvis.symm
  · intro c _ hkeep
    have hnone : matchingTransactions s u sd ed none c = [] := by
      by_contra hne
      have : decide (c.is_default = true ∨ matchingTransactions s u sd ed none c ≠ []) = true :=
        decide_eq_true (Or.inr hne)
      rw [hkeep] at this
      cases this
    rw [Function.comp_apply, hcol, hnone]
    rfl

theorem summary_zero_count (s : Store) (u : Nat) (sd ed : Date) (k : Option TxType)
    (r : CategorySummary) (hr : r ∈ Expense.getSummaryByCategory s u sd ed k)
    (hzero : r.transaction_count = 0) : r.total_amount = 0 := by
  rw [(getSummaryByCategory_perm s u sd ed k).mem_iff, List.mem_map] at hr
  obtain ⟨c, _, rfl⟩ := hr
  have hnil : matchingTransactions s u sd ed k c = [] := List.length_eq_zero.mp hzero
  simp [summaryOf, hnil]

theorem length_eq_sum_ones {α : Type} (l : List α) : l.length = (l.map (fun _ => 1)).sum := by
  induction l with
  | nil => rfl
  | cons a l ih => rw [List.length_cons, List.map_cons, List.sum_cons, ← ih, Nat.add_comm]

/-- The model of the JavaScript numbers on known values: the doubles nearest to
0.1 and to 1/3, the integers 3 and `2 ^ 53`, which are doubles, and
`2 ^ 53 + 1`, which lies halfway and goes to the even significand. -/
theorem roundDouble_values :
    roundDouble (1 / 10) = 3602879701896397 / 36028797018963968
      ∧ roundDouble (-1 / 3) = -6004799503160661 / 18014398509481984
      ∧ roundDouble 3 = 3
      ∧ roundDouble (2 ^ 53) = 2 ^ 53
      ∧ roundDouble (2 ^ 53 + 1) = 2 ^ 53 := by
  decide!

theorem foldl_addDouble_exact :
    ∀ (xs : List ℚ) (init : ℚ), (∀ x ∈ xs, roundDouble x = x) →
      (∀ k ≤ xs.length, roundDouble (init + (xs.take k).sum) = init + (xs.take k).sum) →
      xs.foldl (fun sum x => addDouble sum (parseFloat x)) init = init + xs.sum := by
  intro xs
  induction xs with
  | nil => intro init _ _; simp
  | cons x xs ih =>
    intro init hx hsum
    have hstep : addDouble init (parseFloat x) = init + x := by
      unfold addDouble parseFloat
      rw [hx x (List.mem_cons_self x xs)]
      have h := hsum 1 (by simp)
      simpa using h
    rw [List.foldl_cons, hstep, ih (init + x) (fun y hy => hx y (List.mem_cons_of_mem x hy)),
      List.sum_cons, add_assoc]
    intro k hk
    have h := hsum (k + 1) (by simpa using hk)
    rw [List.take_succ_cons, List.sum_cons, ← add_assoc] at h
    exact h

/-- C29 fails on the code: with an expense of 0.20 and one of 0.10 in two
categories the transactions of the range add up to 0.30, while the handler,
which adds the category totals as JavaScript numbers, answers the double
0.30000000000000004 for `totalExpenses`. -/
theorem getExpenseStats_rounds :
    ((transactionsInRange dimeStore 1 20240101 20240131).map (·.amount)).sum = 3 / 10
      ∧ countedTotals (Expense.getSummaryByCategory dimeStore 1 20240101 20240131 none)
          = [1 / 5, 1 / 10]
      ∧ (countedTotals (Expense.getSummaryByCategory dimeStore 1 20240101 20240131 none)).foldl
          (fun sum x => addDouble sum (parseFloat x)) 0
          = 1351079888211149 / 4503599627370496
      ∧ getExpenseStats dimeStore 20240201 20240215 [] 1 (some 20240101) (some 20240131)
          = Reply.json 200 true none (some {
              totalExpenses := 1351079888211149 / 4503599627370496
              totalTransactions := 2
              categorySummary :=
                Expense.getSummaryByCategory dimeStore 1 20240101 20240131 none
              monthlyTrends := []
              period := (20240101, 20240131) })
      ∧ (1351079888211149 / 4503599627370496 : ℚ) ≠ 3 / 10 := by
  decide!

/-- C29, amended: in the 200 response of `getExpenseStats`, in a store with `id`
a key of `categories` in which every transaction's category is accessible to
its user, `categorySummary` is the summary by category requested without a
kind; `totalExpenses` is the result of adding, as JavaScript numbers and in the
order of the rows, the totals of the rows with at least one transaction; these
totals add up exactly to the sum of the amounts of all transactions of the
caller, of both kinds, dated from `start` to `end`, and `totalExpenses` is that
sum whenever the additions round nowhere; `totalTransactions` is the number of
those transactions, and a row of the summary with count 0 has the total 0. -/
theorem getExpenseStats_totals (s : Store) (hpk : (s.categories.map (·.id)).Nodup)
    (hacc : ExpensesAccessible s) (monthStart today : Date) (trends : List TrendRow)
    (u : Nat) (startDate endDate : Option Date) :
    ∃ data, getExpenseStats s monthStart today trends u startDate endDate
        = Reply.json 200 true none (some data)
      ∧ data.categorySummary
        = Expense.getSummaryByCategory s u (startDate.getD monthStart) (endDate.getD today) none
      ∧ data.totalExpenses
        = (countedTotals data.categorySummary).foldl
            (fun sum x => addDouble sum (parseFloat x)) 0
      ∧ (countedTotals data.categorySummary).sum
        = ((transactionsInRange s u (startDate.getD monthStart) (endDate.getD today)).map
            (·.amount)).sum
      ∧ (AddsExactly (countedTotals data.categorySummary) →
          data.totalExpenses
            = ((transactionsInRange s u (startDate.getD monthStart) (endDate.getD today)).map
                (·.amount)).sum)
      ∧ data.totalTransactions
        = (transactionsInRange s u (startDate.getD monthStart) (endDate.getD today)).length
      ∧ ∀ r ∈ data.categorySummary, r.transaction_count = 0 → r.total_amount = 0 := by
  have hfold : ((Expense.getSummaryByCategory s u (startDate.getD monthStart)
        (endDate.getD today) none).filter
          (fun item => decide (item.transaction_count > 0))).foldl
        (fun sum item => addDouble sum (parseFloat item.total_amount)) 0
      = (countedTotals (Expense.getSummaryByCategory s u (startDate.getD monthStart)
          (endDate.getD today) none)).foldl (fun sum x => addDouble sum (parseFloat x)) 0 := by
    unfold countedTotals
    rw [List.foldl_map]
  have hsum : (countedTotals (Expense.getSummaryByCategory s u (startDate.getD monthStart)
        (endDate.getD today) none)).sum
      = ((transactionsInRange s u (startDate.getD monthStart) (endDate.getD today)).map
          (·.amount)).sum := by
    unfold countedTotals
    rw [sum_map_filter_of_zero]
    · exact summary_column_sum s hpk hacc u _ _ (fun r => r.total_amount) (fun e => e.amount)
        (fun _ => rfl)
    · intro r hr hcount
      apply summary_zero_count s u _ _ none r hr
      simpa using hcount
  refine ⟨_, rfl, rfl, hfold, hsum, ?_, ?_, ?_⟩
  · intro hexact
    show ((Expense.getSummaryByCategory s u (startDate.getD monthStart) (endDate.getD today)
        none).filter (fun item => decide (item.transaction_count > 0))).foldl
        (fun sum item => addDouble sum (parseFloat item.total_amount)) 0 = _
    rw [hfold, foldl_addDouble_exact _ 0 hexact.1 (by simpa using hexact.2), zero_add, hsum]
  · show (Expense.getSummaryByCategory s u (startDate.getD monthStart) (endDate.getD today)
        none).foldl (fun sum item => sum + item.transaction_count) 0 = _
    rw [foldl_add_eq_sum (fun item : CategorySummary => item.transaction_count), zero_add,
      summary_column_sum s hpk hacc u _ _ (fun r => r.transaction_count) (fun _ => 1)
        (fun c => length_eq_sum_ones _),
      ← length_eq_sum_ones]
  · intro r hr hzero
    exact summary_zero_count s u _ _ none r hr hzero

/-- Witness of C29 (amended) on the listing store, user 1, January 2024: the
totals 135.50 and 120.00 add without rounding, so `totalExpenses` is 255.50,
the sum of the four transactions of the range, the income of 70.00 among
them. -/
theorem getExpenseStats_totals_witness :
    ∃ data, getExpenseStats listingStore 20240201 20240215 [] 1 (some 20240101) (some 20240131)
        = Reply.json 200 true none (some data)
      ∧ data.totalExpenses = 511 / 2 ∧ data.totalTransactions = 4 := by
  obtain ⟨data, h1, h2, _, _, h5, h6, _⟩ := getExpenseStats_totals listingStore (by decide)
    (by unfold ExpensesAccessible; decide) 20240201 20240215 [] 1 (some 20240101) (some 20240131)
  refine ⟨data, h1, ?_, ?_⟩
  · rw [h5 (by rw [h2]; decide!)]; decide!
  · rw [h6]; decide!


/-! ## Lemmas on the category statistics -/

theorem sqlAvg_of_values (xs : List (Option ℚ)) (l : List ℚ) (h : xs.filterMap id = l)
    (hne : l ≠ []) : sqlAvg xs = some (l.sum / (l.length : ℚ)) := by
  unfold sqlAvg
  rw [h]
  cases l with
  | nil => exact absurd rfl hne
  | cons y ys => rfl

theorem kindInWindow_eq (s : Store) (u : Nat) (sd ed : Date) (c : CategoryRow) (k : TxType) :
    (s.expenses.filter (statsOn u sd ed c)).filter (fun e => decide (e.type = k))
      = kindInWindow s u c.id sd ed k := by
  unfold kindInWindow
  rw [List.filter_filter]
  apply List.filter_congr
  intro e _
  rw [Bool.eq_iff_iff]
  unfold statsOn
  simp only [Bool.and_eq_true, beq_iff_eq, decide_eq_true_eq, ge_iff_le]
  constructor
  · rintro ⟨h5, ⟨⟨h1, h2⟩, h3⟩, h4⟩
    exact ⟨h1.symm, h2, h3, h4, h5⟩
  · rintro ⟨h1, h2, h3, h4, h5⟩
    exact ⟨h5, ⟨⟨h1.symm, h2⟩, h3⟩, h4⟩

theorem values_caseType_stats {α : Type} (s : Store) (u : Nat) (sd ed : Date) (c : CategoryRow)
    (k : TxType) (val : ExpenseRow → α) :
    ((leftJoinOn s.expenses (statsOn u sd ed c)).map (caseType k val)).filterMap id
      = (kindInWindow s u c.id sd ed k).map val := by
  rw [filterMap_leftJoinOn _ _ _ rfl, filterMap_caseType, kindInWindow_eq]

/-- C26: `Category.getStats(c, u, s, e)` is absent exactly when category `c` is
not accessible to `u`, and then `getCategoryStats` answers 404 "Category not
found"; otherwise the counts and totals of the row are the numbers and the sums
of the amounts of the expenses and of the incomes of `u` in `c` dated from `s`
to `e`, each average is the total divided by the count when the count is
positive, and `getCategoryStats` answers 200 with the row and the period
`startDate`, `endDate`. -/
theorem getStats_spec (s : Store) (c u : Nat) (sd ed : Date) :
    (Category.getStats s c u sd ed = none ↔ Category.canAccess s c u = false)
      ∧ (Category.getStats s c u sd ed = none
          ↔ ¬ ∃ row ∈ s.categories, row.id = c
              ∧ (row.is_default = true ∨ row.user_id = some u))
      ∧ (Category.canAccess s c u = false → ∀ monthStart today : Date,
          getCategoryStats s monthStart today u c (some sd) (some ed)
            = Reply.json 404 false (some "Category not found") none)
      ∧ ∀ st, Category.getStats s c u sd ed = some st →
          st.expense_count = (kindInWindow s u c sd ed TxType.expense).length
          ∧ st.income_count = (kindInWindow s u c sd ed TxType.income).length
          ∧ st.total_expenses = ((kindInWindow s u c sd ed TxType.expense).map (·.amount)).sum
          ∧ st.total_income = ((kindInWindow s u c sd ed TxType.income).map (·.amount)).sum
          ∧ (st.expense_count > 0 →
              st.avg_expense = some (st.total_expenses / (st.expense_count : ℚ)))
          ∧ (st.income_count > 0 →
              st.avg_income = some (st.total_income / (st.income_count : ℚ)))
          ∧ ∀ monthStart today : Date,
              getCategoryStats s monthStart today u c (some sd) (some ed)
                = Reply.json 200 true none (some { stats := st, period := (sd, ed) }) := by
  have hnone : Category.getStats s c u sd ed = none ↔ Category.canAccess s c u = false := by
    unfold Category.getStats Category.canAccess
    rw [List.head?_eq_none_iff, List.map_eq_nil_iff, decide_eq_false_iff_not, gt_iff_lt,
      List.length_pos, not_not]
  refine ⟨hnone, ?_, ?_, ?_⟩
  · rw [hnone, ← canAccess_iff_exists, Bool.not_eq_true]
  · intro hacc monthStart today
    unfold getCategoryStats
    simp only [Option.getD_some, hnone.mpr hacc]
  · intro st hst
    have hreply : ∀ monthStart today : Date,
        getCategoryStats s monthStart today u c (some sd) (some ed)
          = Reply.json 200 true none (some { stats := st, period := (sd, ed) }) := by
      intro monthStart today
      unfold getCategoryStats
      simp only [Option.getD_some, hst]
    unfold Category.getStats at hst
    rw [List.head?_map, Option.map_eq_some'] at hst
    obtain ⟨row, hrow, rfl⟩ := hst
    have hmem := List.mem_filter.mp (List.mem_of_mem_head? hrow)
    have hid : row.id = c := by
      have h := hmem.2
      simp only [Bool.and_eq_true, beq_iff_eq] at h
      exact h.1
    have hcount : ∀ k : TxType,
        sqlCount ((leftJoinOn s.expenses (statsOn u sd ed row)).map (caseType k (·.id)))
          = (kindInWindow s u c sd ed k).length := by
      intro k
      unfold sqlCount
      rw [values_caseType_stats, List.length_map, hid]
    have hsum : ∀ k : TxType,
        coalesce (sqlSum ((leftJoinOn s.expenses (statsOn u sd ed row)).map
          (caseType k (·.amount)))) 0 = ((kindInWindow s u c sd ed k).map (·.amount)).sum := by
      intro k
      rw [coalesce_sqlSum, values_caseType_stats, hid]
    have havg : ∀ k : TxType, (kindInWindow s u c sd ed k).length > 0 →
        sqlAvg ((leftJoinOn s.expenses (statsOn u sd ed row)).map (caseType k (·.amount)))
          = some (((kindInWindow s u c sd ed k).map (·.amount)).sum
              / ((kindInWindow s u c sd ed k).length : ℚ)) := by
      intro k hpos
      have hne : (kindInWindow s u c sd ed k).map (·.amount) ≠ [] := by
        intro h
        rw [List.map_eq_nil_iff] at h
        rw [h] at hpos
        exact absurd hpos (by decide)
      have h := sqlAvg_of_values _ _ (values_caseType_stats s u sd ed row k (·.amount))
        (hid ▸ hne)
      rw [h, List.length_map, hid]
    refine ⟨hcount _, hcount _, hsum _, hsum _, ?_, ?_, hreply⟩
    · intro hpos
      simp only [hcount, hsum] at hpos ⊢
      exact havg _ hpos
    · intro hpos
      simp only [hcount, hsum] at hpos ⊢
      exact havg _ hpos

/-- Witness of C26 on the shared store: category 99 does not exist, so the
handler answers 404; in "Food", January 2024, user 1 has two expenses (65.50,
mean 32.75) and one income (70.00), the expense of user 2 not being counted,
and the handler answers them with the period. -/
theorem getStats_spec_witness :
    Category.canAccess sharedStore 99 1 = false
      ∧ getCategoryStats sharedStore 20240201 20240215 1 99 (some 20240101) (some 20240131)
          = Reply.json 404 false (some "Category not found") none
      ∧ Category.getStats sharedStore 1 1 20240101 20240131 = some foodStats
      ∧ getCategoryStats sharedStore 20240201 20240215 1 1 (some 20240101) (some 20240131)
          = Reply.json 200 true none
              (some { stats := foodStats, period := (20240101, 20240131) }) :=
  ⟨by decide,
    (getStats_spec sharedStore 99 1 20240101 20240131).2.2.1 (by decide) 20240201 20240215,
    by decide!,
    ((getStats_spec sharedStore 1 1 20240101 20240131).2.2.2 foodStats
      (by decide!)).2.2.2.2.2.2 20240201 20240215⟩


/-! ## Lemmas on the categories with budgets -/

theorem filter_flatMap_key {α β : Type} (key : β → Bool) (keyA : α → Bool) (g : α → List β)
    (h : ∀ a, ∀ b ∈ g a, key b = keyA a) :
    ∀ l : List α, (l.flatMap g).filter key = (l.filter keyA).flatMap g := by
  intro l
  induction l with
  | nil => rfl
  | cons a l ih =>
    rw [List.flatMap_cons, List.filter_append, ih]
    cases hk : keyA a with
    | true =>
      have hall : (g a).filter key = g a :=
        List.filter_eq_self.mpr (fun b hb => (h a b hb).trans hk)
      rw [hall, List.filter_cons, hk, if_pos rfl, List.flatMap_cons]
    | false =>
      have hnone : (g a).filter key = [] :=
        List.filter_eq_nil_iff.mpr (fun b hb => by rw [h a b hb, hk]; exact Bool.false_ne_true)
      rw [hnone, List.filter_cons, hk, List.nil_append]
      rfl

theorem activeBudgets_eq (s : Store) (u : Nat) (c : CategoryRow) :
    s.budgets.filter (fun b => c.id == b.category_id && b.user_id == u && b.is_active)
      = activeBudgets s u c := by
  unfold activeBudgets
  apply List.filter_congr
  intro b _
  rw [Bool.eq_iff_iff]
  simp only [Bool.and_eq_true, beq_iff_eq, decide_eq_true_eq]
  constructor
  · rintro ⟨⟨h1, h2⟩, h3⟩; exact ⟨h1.symm, h2, h3⟩
  · rintro ⟨h1, h2, h3⟩; exact ⟨⟨h1.symm, h2⟩, h3⟩

theorem leftJoinBudgets_of_none (s : Store) (u : Nat) (c : CategoryRow)
    (h : activeBudgets s u c = []) : leftJoinBudgets s.budgets u c = [none] := by
  unfold leftJoinBudgets
  rw [activeBudgets_eq, h]

theorem mem_leftJoinBudgets (s : Store) (u : Nat) (c : CategoryRow) (b : BudgetRow)
    (h : b ∈ activeBudgets s u c) : some b ∈ leftJoinBudgets s.budgets u c := by
  unfold leftJoinBudgets
  rw [activeBudgets_eq]
  cases hl : activeBudgets s u c with
  | nil => rw [hl] at h; cases h
  | cons m ms =>
    rw [hl] at h
    exact List.mem_map.mpr ⟨b, h, rfl⟩

theorem filterMap_caseBudgetWindow (monthAgo today : Date) (b : BudgetRow) :
    ∀ l : List ExpenseRow,
      l.filterMap (fun e => caseBudgetWindow monthAgo today (some b) (some e))
        = (l.filter (fun e => decide (e.type = TxType.expense ∧ e.date ≥ b.start_date
            ∧ e.date ≤ b.end_date))).map (·.amount) := by
  intro l
  induction l with
  | nil => rfl
  | cons e l ih =>
    simp only [caseBudgetWindow, Option.map_some', Option.getD_some] at ih ⊢
    by_cases h : e.type = TxType.expense ∧ e.date ≥ b.start_date ∧ e.date ≤ b.end_date
    · rw [List.filterMap_cons, if_pos h, List.filter_cons, if_pos (decide_eq_true h),
        List.map_cons, ih]
    · rw [List.filterMap_cons, if_neg h, List.filter_cons,
        if_neg (by rw [decide_eq_false h]; exact Bool.false_ne_true), ih]

theorem spent_budgetWindow (s : Store) (monthAgo today : Date) (u : Nat) (c : CategoryRow)
    (b : BudgetRow) :
    (budgetRowOf s monthAgo today u c (some b)).spent_amount
      = ((kindInWindow s u c.id b.start_date b.end_date TxType.expense).map (·.amount)).sum := by
  unfold budgetRowOf
  simp only
  rw [coalesce_sqlSum, filterMap_leftJoinOn _ _ _ rfl, filterMap_caseBudgetWindow,
    List.filter_filter]
  unfold kindInWindow
  congr 2
  apply List.filter_congr
  intro e _
  rw [Bool.eq_iff_iff]
  simp only [Bool.and_eq_true, beq_iff_eq, decide_eq_true_eq, ge_iff_le]
  constructor
  · rintro ⟨⟨h1, h2, h3⟩, h4, h5⟩
    exact ⟨h4.symm, h5, h2, h3, h1⟩
  · rintro ⟨h1, h2, h3, h4, h5⟩
    exact ⟨⟨h5, h3, h4⟩, h1.symm, h2⟩

theorem leftJoinBudgets_ne_nil (budgets : List BudgetRow) (u : Nat) (c : CategoryRow) :
    leftJoinBudgets budgets u c ≠ [] := by
  unfold leftJoinBudgets
  cases budgets.filter
      (fun b => c.id == b.category_id && b.user_id == u && b.is_active) <;> simp

theorem mem_findWithBudgets (s : Store) (monthAgo today : Date) (u : Nat)
    (v : CategoryBudgetRow) :
    v ∈ Category.findWithBudgets s monthAgo today u
      ↔ ∃ c ∈ s.categories, (c.user_id = some u ∨ c.is_default = true)
          ∧ ∃ b ∈ leftJoinBudgets s.budgets u c, budgetRowOf s monthAgo today u c b = v := by
  unfold Category.findWithBudgets
  rw [(List.perm_insertionSort _ _).mem_iff, List.mem_flatMap]
  constructor
  · rintro ⟨c, hc, hv⟩
    obtain ⟨hmem, hvis⟩ := List.mem_filter.mp hc
    exact ⟨c, hmem, by simpa using hvis, List.mem_map.mp hv⟩
  · rintro ⟨c, hmem, hvis, hv⟩
    exact ⟨c, List.mem_filter.mpr ⟨hmem, by simpa using hvis⟩, List.mem_map.mpr hv⟩

/-- C27: for every caller `u`, `Category.findWithBudgets(u)` has a row for
every category visible to `u`, and only for those; with `id` a key of
`categories`, a category without a budget of `u` that has `is_active` true
appears in exactly one row, whose budget columns are all NULL; and for every
active budget `b` of `u` on a visible category there is a row with the fields
of `b` whose `spent_amount` is the sum of the expenses of `u` in the category
dated from `b.start_date` to `b.end_date`. -/
theorem findWithBudgets_spec (s : Store) (hpk : (s.categories.map (·.id)).Nodup)
    (monthAgo today : Date) (u : Nat) :
    (∀ c, (c ∈ s.categories ∧ (c.user_id = some u ∨ c.is_default = true))
        ↔ ∃ v ∈ Category.findWithBudgets s monthAgo today u, v.category = c)
      ∧ (∀ c ∈ s.categories, (c.user_id = some u ∨ c.is_default = true) →
          activeBudgets s u c = [] →
          ∃ v, (Category.findWithBudgets s monthAgo today u).filter
                (fun w => w.category.id == c.id) = [v]
            ∧ v.category = c ∧ v.budget_id = none ∧ v.budget_amount = none
            ∧ v.budget_period = none ∧ v.budget_start = none ∧ v.budget_end = none
            ∧ v.budget_active = none)
      ∧ (∀ c ∈ s.categories, (c.user_id = some u ∨ c.is_default = true) →
          ∀ b ∈ activeBudgets s u c,
          ∃ v ∈ Category.findWithBudgets s monthAgo today u,
            v.category = c ∧ v.budget_id = some b.id ∧ v.budget_amount = some b.amount
            ∧ v.budget_period = some b.period ∧ v.budget_start = some b.start_date
            ∧ v.budget_end = some b.end_date ∧ v.budget_active = some true
            ∧ v.spent_amount
              = ((kindInWindow s u c.id b.start_date b.end_date TxType.expense).map
                  (·.amount)).sum) := by
  refine ⟨?_, ?_, ?_⟩
  · intro c
    constructor
    · rintro ⟨hmem, hvis⟩
      obtain ⟨b, hb⟩ := List.exists_mem_of_ne_nil _ (leftJoinBudgets_ne_nil s.budgets u c)
      exact ⟨budgetRowOf s monthAgo today u c b,
        (mem_findWithBudgets s monthAgo today u _).mpr ⟨c, hmem, hvis, b, hb, rfl⟩, rfl⟩
    · rintro ⟨v, hv, rfl⟩
      obtain ⟨c, hmem, hvis, b, _, rfl⟩ := (mem_findWithBudgets s monthAgo today u v).mp hv
      exact ⟨hmem, hvis⟩
  · intro c hmem hvis hnone
    refine ⟨budgetRowOf s monthAgo today u c none, ?_, rfl, rfl, rfl, rfl, rfl, rfl, rfl⟩
    unfold Category.findWithBudgets
    rw [← List.perm_singleton]
    refine ((List.perm_insertionSort _ _).filter _).trans ?_
    rw [filter_flatMap_key (fun w : CategoryBudgetRow => w.category.id == c.id)
      (fun c' : CategoryRow => c'.id == c.id) _ (by
        intro a w hw
        obtain ⟨b, _, rfl⟩ := List.mem_map.mp hw
        rfl),
      List.filter_filter,
      categories_filter_id s hpk c hmem (fun c' => c'.user_id == some u || c'.is_default)
        (by simpa using hvis),
      List.flatMap_cons, List.flatMap_nil, List.append_nil, leftJoinBudgets_of_none s u c hnone]
    rfl
  · intro c hmem hvis b hb
    have hb' := (List.mem_filter.mp hb).2
    simp only [decide_eq_true_eq] at hb'
    refine ⟨budgetRowOf s monthAgo today u c (some b),
      (mem_findWithBudgets s monthAgo today u _).mpr
        ⟨c, hmem, hvis, some b, mem_leftJoinBudgets s u c b hb, rfl⟩,
      rfl, rfl, rfl, rfl, rfl, rfl, ?_, spent_budgetWindow s monthAgo today u c b⟩
    show some b.is_active = some true
    rw [hb'.2.2]

/-- Witness of C27 on the listing store, user 1: "Food" carries the budget 7 of
300.00 with 65.50 spent in its window, "Transport" and "Groceries", which have
no budget, one row each with NULL budget columns. -/
theorem findWithBudgets_spec_witness :
    (Category.findWithBudgets listingStore 20240115 20240215 1).map
        (fun v => (v.category.name, v.budget_id, v.budget_amount, v.spent_amount))
        = [("Food", some 7, some 300, 131 / 2), ("Transport", none, none, 0),
           ("Groceries", none, none, 0)]
      ∧ ∃ v, (Category.findWithBudgets listingStore 20240115 20240215 1).filter
              (fun w => w.category.id == groceries.id) = [v]
          ∧ v.category = groceries ∧ v.budget_id = none ∧ v.budget_amount = none
          ∧ v.budget_period = none ∧ v.budget_start = none ∧ v.budget_end = none
          ∧ v.budget_active = none :=
  ⟨by decide!,
    (findWithBudgets_spec listingStore (by decide) 20240115 20240215 1).2.1 groceries
      (by decide) (by decide) (by decide)⟩


/-! ## Lemmas on the budget validation -/

theorem validateBudget_next_iff_nil (r : BudgetRequest) :
    validateBudget r = Validation.next ↔ budgetErrors r = [] := by
  unfold validateBudget
  cases h : budgetErrors r with
  | nil => simp
  | cons e es => simp

/-- The requests that `validateBudget` lets through. -/
theorem validateBudget_next_iff (r : BudgetRequest) :
    validateBudget r = Validation.next
      ↔ ∃ c a d1 t1 d2 t2, r.categoryId = some c ∧ c.den = 1 ∧ 1 ≤ c ∧ c < 10 ^ 21
          ∧ r.amount = some a ∧ roundDouble (1 / 100) ≤ a
          ∧ (r.period = none ∨ r.period = some "" ∨ r.period = some "monthly"
              ∨ r.period = some "yearly")
          ∧ r.startDate = DateField.valid d1 t1 ∧ r.endDate = DateField.valid d2 t2
          ∧ t1 < t2 := by
  have hmin : (0 : ℚ) < roundDouble (1 / 100) := by decide!
  have hmin' : (0 : ℚ) < roundDouble 100⁻¹ := by rwa [one_div] at hmin
  have hone : roundDouble 1 = 1 := by decide!
  rw [validateBudget_next_iff_nil]
  obtain ⟨cid, amt, per, sd, ed, act⟩ := r
  cases cid <;> cases amt <;> cases sd <;> cases ed <;> cases per <;>
    simp [budgetErrors, DateField.truthy, DateField.isDate, DateField.time, timeGE, isInt,
      isFloat, hone]
  · rename_i c a d1 t1 d2 t2
    constructor
    · rintro ⟨⟨_, ⟨h1, h2⟩, h2'⟩, ⟨_, h3⟩, h4⟩
      exact ⟨h1, h2, h2', h3, d1, t1, ⟨rfl, rfl⟩, d2, t2, ⟨rfl, rfl⟩, h4⟩
    · rintro ⟨h1, h2, h2', h3, _, _, ⟨rfl, rfl⟩, _, _, ⟨rfl, rfl⟩, h4⟩
      refine ⟨⟨?_, ⟨h1, h2⟩, h2'⟩, ⟨?_, h3⟩, h4⟩
      · intro h; rw [h] at h2; norm_num at h2
      · intro h; rw [h] at h3; exact absurd hmin' (not_lt.mpr h3)
  · rename_i c a d1 t1 d2 t2 p
    constructor
    · rintro ⟨⟨_, ⟨h1, h2⟩, h2'⟩, ⟨_, h3⟩, hp, h4⟩
      refine ⟨h1, h2, h2', h3, ?_, d1, t1, ⟨rfl, rfl⟩, d2, t2, ⟨rfl, rfl⟩, h4⟩
      by_cases he : p = ""
      · exact Or.inl he
      · by_cases hm : p = "monthly"
        · exact Or.inr (Or.inl hm)
        · exact Or.inr (Or.inr (hp he hm))
    · rintro ⟨h1, h2, h2', h3, hp, _, _, ⟨rfl, rfl⟩, _, _, ⟨rfl, rfl⟩, h4⟩
      refine ⟨⟨?_, ⟨h1, h2⟩, h2'⟩, ⟨?_, h3⟩, ?_, h4⟩
      · intro h; rw [h] at h2; norm_num at h2
      · intro h; rw [h] at h3; exact absurd hmin' (not_lt.mpr h3)
      · intro he hm
        rcases hp with h | h | h
        · exact absurd h he
        · exact absurd h hm
        · exact h

/-- The least amount that passes, the JavaScript number 0.01, is not below the
decimal 0.01. -/
theorem minAmount_bounds : (1 : ℚ) / 100 ≤ roundDouble (1 / 100) ∧ 0 < roundDouble (1 / 100) := by
  decide!

/-- A request whose two dates are valid, with time values ordered like the
dates and the start not before the end, is answered 400 with the error "End
date must be after start date". -/
theorem validateBudget_rejects_order (r : BudgetRequest) (hcal : CalendarTimes r)
    (d1 d2 : Date) (t1 t2 : Int)
    (hs : r.startDate = DateField.valid d1 t1) (he : r.endDate = DateField.valid d2 t2)
    (hge : d1 ≥ d2) :
    validateBudget r = Validation.rejected 400 "Validation failed" (budgetErrors r)
      ∧ "End date must be after start date" ∈ budgetErrors r := by
  have hmem : "End date must be after start date" ∈ budgetErrors r := by
    unfold budgetErrors
    rw [hs, he]
    have ht : timeGE (DateField.valid d1 t1).time (DateField.valid d2 t2).time = true := by
      simp only [DateField.time, timeGE, decide_eq_true_eq, ge_iff_le]
      by_contra hlt
      exact absurd ((hcal d1 t1 d2 t2 hs he).mp (not_le.mp hlt)) (not_lt.mpr hge)
    simp only [DateField.truthy, ht, Bool.and_self, if_true]
    exact List.mem_append_right _ (List.mem_singleton.mpr rfl)
  refine ⟨?_, hmem⟩
  unfold validateBudget
  rw [if_pos (List.length_pos_of_mem hmem)]

theorem create_writes (s : Store) (now : Nat) (d : BudgetData) (hamount : d.amount > 0)
    (hdates : d.endDate > d.startDate) :
    ∀ b ∈ (Budget.create s now d).1.budgets,
      b ∈ s.budgets ∨ (b.amount > 0 ∧ b.end_date > b.start_date) := by
  intro b hb
  unfold Budget.create at hb
  simp only [List.mem_append, List.mem_singleton] at hb
  rcases hb with h | rfl
  · exact Or.inl h
  · exact Or.inr ⟨hamount, hdates⟩

theorem createBudget_writes (s : Store) (now u : Nat) (body : CreateBudgetBody)
    (hamount : body.amount > 0) (hdates : body.endDate > body.startDate) :
    ∀ b ∈ (createBudget s now u body).1.budgets,
      b ∈ s.budgets ∨ (b.amount > 0 ∧ b.end_date > b.start_date) := by
  unfold createBudget
  by_cases h1 : (!Category.canAccess s body.categoryId u) = true
  · rw [if_pos h1]
    exact fun b hb => Or.inl hb
  · rw [if_neg h1]
    by_cases h2 : Budget.existsForCategoryAndPeriod s body.categoryId u
        (body.period.getD Period.monthly) body.startDate = true
    · simp only [h2, if_true]
      exact fun b hb => Or.inl hb
    · simp only [h2, if_false]
      exact create_writes s now _ hamount hdates

theorem updateBudget_writes (s : Store) (now u id : Nat) (body : BudgetUpdates)
    (hamount : body.amount > 0) (hdates : body.endDate > body.startDate) :
    ∀ b ∈ (updateBudget s now u id body).1.budgets,
      b ∈ s.budgets ∨ (b.amount > 0 ∧ b.end_date > b.start_date) := by
  have hupdate : ∀ b ∈ (Budget.update s now id u body).1.budgets,
      b ∈ s.budgets ∨ (b.amount > 0 ∧ b.end_date > b.start_date) := by
    intro b hb
    unfold Budget.update at hb
    obtain ⟨b0, hb0, rfl⟩ := List.mem_map.mp hb
    by_cases hc : (b0.id == id && b0.user_id == u) = true
    · rw [if_pos hc]
      exact Or.inr ⟨hamount, hdates⟩
    · rw [if_neg hc]
      exact Or.inl hb0
  unfold updateBudget
  cases Budget.findById s id u with
  | none => exact fun b hb => Or.inl hb
  | some _ =>
    simp only
    split_ifs
    · exact hupdate
    · exact hupdate

/-- Every budget that the routes `POST /api/budgets` and `PUT /api/budgets/:id`
write has a positive amount and, for a request whose time values are ordered
like its dates, an end date after its start date. -/
theorem budget_routes_write_valid (s : Store) (now u id : Nat) (r : BudgetRequest)
    (hcal : CalendarTimes r) :
    (∀ b ∈ (postBudget s now u r).1.budgets,
        b ∈ s.budgets ∨ (b.amount > 0 ∧ b.end_date > b.start_date))
      ∧ (∀ b ∈ (putBudget s now u id r).1.budgets,
        b ∈ s.budgets ∨ (b.amount > 0 ∧ b.end_date > b.start_date)) := by
  cases hv : validateBudget r with
  | rejected status message errors =>
    constructor
    · unfold postBudget
      rw [hv]
      exact fun b hb => Or.inl hb
    · unfold putBudget
      rw [hv]
      exact fun b hb => Or.inl hb
  | next =>
    obtain ⟨c, a, d1, t1, d2, t2, hc, _, _, _, ha, hpos, _, hs, he, htime⟩ :=
      (validateBudget_next_iff r).mp hv
    have hamount : a > 0 := lt_of_lt_of_le minAmount_bounds.2 hpos
    have hlt : d1 < d2 := (hcal d1 t1 d2 t2 hs he).mp htime
    constructor
    · unfold postBudget
      rw [hv]
      simp only [hc, ha, hs, he]
      cases r.period with
      | none => exact createBudget_writes s now u _ hamount hlt
      | some p =>
        simp only
        cases periodOfString p with
        | none =>
          simp only
          split_ifs <;> exact fun b hb => Or.inl hb
        | some period => exact createBudget_writes s now u _ hamount hlt
    · unfold putBudget
      rw [hv]
      simp only [ha, hs, he]
      cases r.period.bind periodOfString with
      | none =>
        simp only
        cases Budget.findById s id u <;> exact fun b hb => Or.inl hb
      | some period =>
        cases r.isActive with
        | none =>
          simp only
          cases Budget.findById s id u <;> exact fun b hb => Or.inl hb
        | some active => exact updateBudget_writes s now u id _ hamount hlt

/-- Where the time values are not ordered like the dates the order check of
`validateBudget` passes for two dates of the same day, and `POST /api/budgets`
writes a budget whose end date is its start date. -/
theorem postBudget_same_day :
    validateBudget sameDayRequest = Validation.next
      ∧ ∃ b ∈ (postBudget scenarioStore 0 1 sameDayRequest).1.budgets,
          b ∉ scenarioStore.budgets ∧ b.end_date = b.start_date := by
  refine ⟨by decide!, ?_⟩
  refine ⟨{ id := 2, category_id := 11, user_id := 1, amount := 100, period := Period.yearly,
            start_date := 20240102, end_date := 20240102, is_active := true,
            created_at := 0, updated_at := 0 }, by decide!, by decide!, rfl⟩

/-- C28 fails on the code: a request body whose `period` is the empty string,
which is neither absent nor `'monthly'` nor `'yearly'`, and which is valid
otherwise, collects no error, so `validateBudget` calls `next()`; `POST
/api/budgets` then reaches the `INSERT`, which the engine rejects, and writes
nothing. -/
theorem validateBudget_empty_period :
    emptyPeriodRequest.period = some ""
      ∧ budgetErrors emptyPeriodRequest = []
      ∧ validateBudget emptyPeriodRequest = Validation.next
      ∧ postBudget scenarioStore 0 1 emptyPeriodRequest
          = (scenarioStore, RouteReply.handled Reply.next) := by
  decide!

end SmartSpend
